import Mathlib

/-!
zodcache: superblock codec, validator, lexicon and assembly coordinator.

A shallow embedding of `lib.c`, `zcstart.c` and `zodcache.h`.  Machine words
are natural numbers; every C operation that could wrap is written with an
explicit reduction modulo `2 ^ 64`.  Definitions come first, theorems after.
-/

namespace Zodcache

/-! ## Data model (`zodcache.h`) -/

/-- One past the largest `uint64_t`. -/
def U64 : Nat := 2 ^ 64

/-- One past the largest `uint32_t`. -/
def U32 : Nat := 2 ^ 32

def ZC_SB_MAGIC : Nat := 0x20DCAC8E8EACDC20

def ZC_SB_TYPE_ORIGIN : Nat := 0
def ZC_SB_TYPE_CACHE : Nat := 1
def ZC_SB_TYPE_METADATA : Nat := 2
def ZC_SB_TYPE_COMBINED : Nat := 3

def ZC_SB_MODE_WRITEBACK : Nat := 0
def ZC_SB_MODE_WRITETHROUGH : Nat := 1
def ZC_SB_MODE_PASSTHROUGH : Nat := 2

/-- The superblock `struct zc_sb_v0`: sixteen `uint64_t` fields, in declaration
order, held in host byte order. -/
structure zc_sb_v0 where
  magic : Nat
  cksum : Nat
  version : Nat
  size : Nat
  type : Nat
  dev_major : Nat
  uuid_lo : Nat
  uuid_hi : Nat
  block_size : Nat
  cache_mode : Nat
  o_offset : Nat
  o_size : Nat
  c_offset : Nat
  c_size : Nat
  md_offset : Nat
  md_size : Nat
deriving DecidableEq, Repr

/-- The `(uint64_t *)sb` view of a superblock: its words in declaration order. -/
def zc_sb_v0.words (sb : zc_sb_v0) : List Nat :=
  [sb.magic, sb.cksum, sb.version, sb.size, sb.type, sb.dev_major, sb.uuid_lo,
   sb.uuid_hi, sb.block_size, sb.cache_mode, sb.o_offset, sb.o_size,
   sb.c_offset, sb.c_size, sb.md_offset, sb.md_size]

/-- The superblock whose `uint64_t[]` view is `a` (a missing word reads as 0). -/
def zc_sb_v0.ofWords (a : List Nat) : zc_sb_v0 where
  magic := a.getD 0 0
  cksum := a.getD 1 0
  version := a.getD 2 0
  size := a.getD 3 0
  type := a.getD 4 0
  dev_major := a.getD 5 0
  uuid_lo := a.getD 6 0
  uuid_hi := a.getD 7 0
  block_size := a.getD 8 0
  cache_mode := a.getD 9 0
  o_offset := a.getD 10 0
  o_size := a.getD 11 0
  c_offset := a.getD 12 0
  c_size := a.getD 13 0
  md_offset := a.getD 14 0
  md_size := a.getD 15 0

/-- Every field is a genuine `uint64_t`. -/
def zc_sb_v0.wf (sb : zc_sb_v0) : Prop := ∀ w ∈ sb.words, w < U64

instance (sb : zc_sb_v0) : Decidable sb.wf := by
  unfold zc_sb_v0.wf; infer_instance

/-- `sizeof(struct zc_sb_v0)`: sixteen 8-byte words, no padding. -/
def ZC_SB_V0_SIZE : Nat := 128

/-- `ZC_SB_V0_NELEM`: `sizeof(struct zc_sb_v0) / sizeof(uint64_t)`. -/
def ZC_SB_V0_NELEM : Nat := ZC_SB_V0_SIZE / 8

/-- `ZC_SB_V0_CKSUM_IDX`: `offsetof(struct zc_sb_v0, cksum) / sizeof(uint64_t)`. -/
def ZC_SB_V0_CKSUM_IDX : Nat := 1

/-! ## Checksum (`zc_sb_v0_cksum`, lib.c 57-90) -/

/-- The checksum modulus, the largest prime below `2 ^ 32`. -/
def CKSUM_P : Nat := 4294967291

/-- State of the checksum loop: the two `uint64_t` accumulators and a ghost flag
recording whether any 64-bit operation so far produced a value `≥ 2 ^ 64`. -/
structure CkState where
  s1 : Nat
  s2 : Nat
  wrapped : Bool
deriving DecidableEq, Repr

/-- `s1 += block; s1 %= 4294967291;` on `uint64_t s1`. -/
def ck_add_s1 (st : CkState) (block : Nat) : CkState :=
  { st with s1 := ((st.s1 + block) % U64) % CKSUM_P,
            wrapped := st.wrapped || decide (U64 ≤ st.s1 + block) }

/-- `s2 += s1; s2 %= 4294967291;` on `uint64_t s2`. -/
def ck_add_s2 (st : CkState) : CkState :=
  { st with s2 := ((st.s2 + st.s1) % U64) % CKSUM_P,
            wrapped := st.wrapped || decide (U64 ≤ st.s2 + st.s1) }

/-- One iteration of the `for` loop body at index `i` on word `w = a[i]`.
`block` is a `uint32_t`, so both assignments to it truncate to 32 bits. -/
def cksum_body (i : Nat) (w : Nat) (st : CkState) : CkState :=
  let st := if i ≠ ZC_SB_V0_CKSUM_IDX then ck_add_s1 st ((w &&& 0xffffffff) % U32) else st
  let st := ck_add_s2 st
  let st := if i ≠ ZC_SB_V0_CKSUM_IDX then ck_add_s1 st ((w >>> 32) % U32) else st
  ck_add_s2 st

/-- The loop `for (i = ..; i < ZC_SB_V0_NELEM; ++i)`, run from index `i` over the
remaining words `a[i..]`. -/
def cksum_loop : List Nat → Nat → CkState → CkState
  | [], _, st => st
  | w :: rest, i, st => cksum_loop rest (i + 1) (cksum_body i w st)

/-- The accumulators when the loop of `zc_sb_v0_cksum` exits. -/
def cksum_final (sb : zc_sb_v0) : CkState :=
  cksum_loop (sb.words.take ZC_SB_V0_NELEM) 0 { s1 := 0, s2 := 0, wrapped := false }

/-- `zc_sb_v0_cksum`: `cksum = s2; cksum <<= 32; cksum |= s1;`. -/
def zc_sb_v0_cksum (sb : zc_sb_v0) : Nat :=
  let st := cksum_final sb
  ((st.s2 <<< 32) % U64) ||| st.s1

/-- Ghost: some 64-bit operation of `zc_sb_v0_cksum` wrapped around. -/
def zc_sb_v0_cksum_wraps (sb : zc_sb_v0) : Bool :=
  let st := cksum_final sb
  st.wrapped || decide (U64 ≤ st.s2 <<< 32)

/-- The specification's checksum half-steps for one word over unbounded
integers: `(a)` add the low 32 bits to `s1` mod P unless this is the checksum
word, add `s1` to `s2` mod P; `(b)` the same with the high 32 bits. -/
def spec_cksum_word (i : Nat) (w : Nat) (s : Nat × Nat) : Nat × Nat :=
  let s1a := if i = 1 then s.1 else (s.1 + w % 2 ^ 32) % CKSUM_P
  let s2a := (s.2 + s1a) % CKSUM_P
  let s1b := if i = 1 then s1a else (s1a + w / 2 ^ 32) % CKSUM_P
  let s2b := (s2a + s1b) % CKSUM_P
  (s1b, s2b)

/-- The specification's accumulators after the words `ws`, the first of which
has position `i`. -/
def spec_cksum_acc : List Nat → Nat → Nat × Nat → Nat × Nat
  | [], _, s => s
  | w :: rest, i, s => spec_cksum_acc rest (i + 1) (spec_cksum_word i w s)

/-- The specification's `(s1, s2)` for a record. -/
def spec_cksum_sums (sb : zc_sb_v0) : Nat × Nat :=
  spec_cksum_acc sb.words 0 (0, 0)

/-- The specification's checksum `(s2 << 32) | s1` over unbounded integers. -/
def spec_cksum (sb : zc_sb_v0) : Nat :=
  ((spec_cksum_sums sb).2 <<< 32) ||| (spec_cksum_sums sb).1

/-- The record obtained from `sb` by flipping bit `b` of word `i` of its
`uint64_t[]` view. -/
def flip_bit (sb : zc_sb_v0) (i b : Nat) : zc_sb_v0 :=
  zc_sb_v0.ofWords (sb.words.set i (sb.words.getD i 0 ^^^ 2 ^ b))

/-- What one word adds to `s1` before reduction: its two 32-bit halves, or
nothing for the checksum word. -/
def half_sum_word (i w : Nat) : Nat :=
  if i = 1 then 0 else w % 2 ^ 32 + w / 2 ^ 32

/-- Sum of the 32-bit halves of the words `ws`, the first of which has
position `i`, leaving out the checksum word. -/
def half_sum : List Nat → Nat → Nat
  | [], _ => 0
  | w :: rest, i => half_sum_word i w + half_sum rest (i + 1)

/-! ## Byte order and superblock I/O (`zc_sb_v0_byteswap`, `zc_sb_v0_write`,
`zc_sb_v0_read`, lib.c 92-150) -/

/-- The eight bytes of a 64-bit word, least significant first. -/
def le_bytes (w : Nat) : List Nat :=
  [w % 256, w / 2 ^ 8 % 256, w / 2 ^ 16 % 256, w / 2 ^ 24 % 256,
   w / 2 ^ 32 % 256, w / 2 ^ 40 % 256, w / 2 ^ 48 % 256, w / 2 ^ 56 % 256]

/-- The number whose bytes, least significant first, are `bs`. -/
def of_le_bytes : List Nat → Nat
  | [] => 0
  | b :: bs => b + 256 * of_le_bytes bs

/-- `bswap_64`: the word with the byte order reversed. -/
def bswap_64 (w : Nat) : Nat := of_le_bytes (le_bytes w).reverse

/-- The memory image of a `uint64_t` on the host: least significant byte first
on a little-endian host, most significant first on a big-endian one. -/
def store64 (big_endian : Bool) (w : Nat) : List Nat :=
  if big_endian then (le_bytes w).reverse else le_bytes w

/-- The `uint64_t` the host reads from eight bytes of memory. -/
def load64 (big_endian : Bool) (bs : List Nat) : Nat :=
  if big_endian then of_le_bytes bs.reverse else of_le_bytes bs

/-- The first `n` consecutive 8-byte groups of a buffer. -/
def chunks8 : Nat → List Nat → List (List Nat)
  | 0, _ => []
  | n + 1, buf => buf.take 8 :: chunks8 n (buf.drop 8)

/-- The 128-byte memory image of a superblock on the host. -/
def zc_sb_v0.mem (big_endian : Bool) (sb : zc_sb_v0) : List Nat :=
  sb.words.flatMap (store64 big_endian)

/-- The superblock the host sees in a 128-byte buffer: word `i` is loaded from
bytes `8 * i .. 8 * i + 7`. -/
def zc_sb_v0.ofMem (big_endian : Bool) (buf : List Nat) : zc_sb_v0 :=
  zc_sb_v0.ofWords ((chunks8 ZC_SB_V0_NELEM buf).map (load64 big_endian))

/-- `zc_sb_v0_byteswap`: on a big-endian host every word is replaced by its
`bswap_64`; on a little-endian host the body is compiled out. -/
def zc_sb_v0_byteswap (big_endian : Bool) (sb : zc_sb_v0) : zc_sb_v0 :=
  if big_endian then zc_sb_v0.ofWords ((sb.words.take ZC_SB_V0_NELEM).map bswap_64) else sb

/-- What `zc_sb_v0_write` does: its return value, the superblock left in memory
and the buffer it handed to `write(2)`. -/
structure WriteOutcome where
  ret : Int
  sb : zc_sb_v0
  written : List Nat
deriving DecidableEq, Repr

/-- `zc_sb_v0_write` (lib.c 103-128).  `sys_write` gives the return value of
`write(fd, sb, sizeof *sb)` for the buffer handed to it. -/
def zc_sb_v0_write (big_endian : Bool) (sys_write : List Nat → Int) (sb : zc_sb_v0) :
    WriteOutcome :=
  let sb1 := zc_sb_v0_byteswap big_endian sb
  let buf := sb1.mem big_endian
  let ret := sys_write buf
  let ret : Int := if ret < 0 then -1 else if ret ≠ (ZC_SB_V0_SIZE : Int) then -1 else 0
  { ret := ret, sb := zc_sb_v0_byteswap big_endian sb1, written := buf }

/-- `zc_sb_v0_read` (lib.c 130-150).  `n` is the return value of
`read(fd, sb, sizeof *sb)` and `buf` the 128-byte memory image of `*sb` after
that call.  Returns the status and the superblock left in memory. -/
def zc_sb_v0_read (big_endian : Bool) (n : Int) (buf : List Nat) : Int × zc_sb_v0 :=
  let sb := zc_sb_v0.ofMem big_endian buf
  if n < 0 then (-1, sb)
  else if n ≠ (ZC_SB_V0_SIZE : Int) then (-1, sb)
  else (0, zc_sb_v0_byteswap big_endian sb)

/-! ## Validation (`zc_block_size_check` .. `zc_sb_v0_is_valid`, lib.c 228-499) -/

/-- An issue callback `issue_cb_t` together with its `context`: it receives the
issue text and the context, returns the continue (`true`) / stop (`false`)
signal and the updated context. -/
abbrev IssueCb (σ : Type) : Type := String → σ → Bool × σ

/-- The guard `issue_cb == 0 || issue_cb(zc_strdup(i), context) == 0` negated:
deliver issue `i` and say whether checking goes on.  A null callback (`none`)
never continues. -/
def issue_report {σ : Type} (issue_cb : Option (IssueCb σ)) (i : String) (ctx : σ) :
    Bool × σ :=
  match issue_cb with
  | none => (false, ctx)
  | some cb => cb i ctx

/-- The statement pattern
`if (cond) { i = msg; if (issue_cb == 0 || issue_cb(...) == 0) return 0; } rest`. -/
def issue_rule {σ : Type} (cond : Bool) (msg : String) (issue_cb : Option (IssueCb σ))
    (ctx : σ) (rest : σ → Bool × σ) : Bool × σ :=
  if cond then
    match issue_report issue_cb msg ctx with
    | (false, ctx1) => (false, ctx1)
    | (true, ctx1) => rest ctx1
  else rest ctx

/-- `zc_block_size_check` (lib.c 228-253). -/
def zc_block_size_check {σ : Type} (block_size : Nat) (issue_cb : Option (IssueCb σ))
    (ctx : σ) : Bool × σ :=
  issue_rule (decide (block_size < 32768))
    "Block size smaller than 32 KiB (32768 bytes)" issue_cb ctx fun ctx =>
  issue_rule (decide (block_size > 1073741824))
    "Block size larger than 1 GiB (1073741824 bytes)" issue_cb ctx fun ctx =>
  issue_rule (decide (block_size % 32768 ≠ 0))
    "Block size not a multiple of 32 KiB (32768 bytes)" issue_cb ctx fun ctx =>
  (true, ctx)

/-- `zc_block_size_is_valid`: the check run with a null callback. -/
def zc_block_size_is_valid (block_size : Nat) : Bool :=
  (zc_block_size_check block_size (none : Option (IssueCb Unit)) ()).1

/-- `zc_sb_v0_origin_dev_check` (lib.c 260-303). -/
def zc_sb_v0_origin_dev_check {σ : Type} (sb : zc_sb_v0) (issue_cb : Option (IssueCb σ))
    (ctx : σ) : Bool × σ :=
  issue_rule (decide (sb.o_offset = 0))
    "Origin offset not set for origin device" issue_cb ctx fun ctx =>
  issue_rule (decide (sb.o_size = 0))
    "Origin size not set for origin device" issue_cb ctx fun ctx =>
  issue_rule (decide (sb.c_offset ≠ 0))
    "Non-zero cache offset for origin device" issue_cb ctx fun ctx =>
  issue_rule (decide (sb.c_size ≠ 0))
    "Non-zero cache size for origin device" issue_cb ctx fun ctx =>
  issue_rule (decide (sb.md_offset ≠ 0))
    "Non-zero metadata offset for origin device" issue_cb ctx fun ctx =>
  issue_rule (decide (sb.md_size ≠ 0))
    "Non-zero metadata size for origin device" issue_cb ctx fun ctx =>
  (true, ctx)

/-- `zc_sb_v0_cache_dev_check` (lib.c 305-348). -/
def zc_sb_v0_cache_dev_check {σ : Type} (sb : zc_sb_v0) (issue_cb : Option (IssueCb σ))
    (ctx : σ) : Bool × σ :=
  issue_rule (decide (sb.o_offset ≠ 0))
    "Non-zero origin offset for cache device" issue_cb ctx fun ctx =>
  issue_rule (decide (sb.o_size ≠ 0))
    "Non-zero origin size for cache device" issue_cb ctx fun ctx =>
  issue_rule (decide (sb.c_offset = 0))
    "Cache offset not set for cache device" issue_cb ctx fun ctx =>
  issue_rule (decide (sb.c_size = 0))
    "Cache size not set for cache device" issue_cb ctx fun ctx =>
  issue_rule (decide (sb.md_offset ≠ 0))
    "Non-zero metadata offset for (non-combined) cache device" issue_cb ctx fun ctx =>
  issue_rule (decide (sb.md_size ≠ 0))
    "Non-zero metadata size for (non-combined) cache device" issue_cb ctx fun ctx =>
  (true, ctx)

/-- `zc_sb_v0_metadata_dev_check` (lib.c 350-393). -/
def zc_sb_v0_metadata_dev_check {σ : Type} (sb : zc_sb_v0)
    (issue_cb : Option (IssueCb σ)) (ctx : σ) : Bool × σ :=
  issue_rule (decide (sb.o_offset ≠ 0))
    "Non-zero origin offset for metadata device" issue_cb ctx fun ctx =>
  issue_rule (decide (sb.o_size ≠ 0))
    "Non-zero origin size for metadata device" issue_cb ctx fun ctx =>
  issue_rule (decide (sb.c_offset ≠ 0))
    "Non-zero cache offset for (non-combined) metadata device" issue_cb ctx fun ctx =>
  issue_rule (decide (sb.c_size ≠ 0))
    "Non-zero cache size for (non-combined) metadata device" issue_cb ctx fun ctx =>
  issue_rule (decide (sb.md_offset = 0))
    "Metadata offset not set for metadata device" issue_cb ctx fun ctx =>
  issue_rule (decide (sb.md_size = 0))
    "Metadata size not set for metadata device" issue_cb ctx fun ctx =>
  (true, ctx)

/-- `zc_sb_v0_combined_dev_check` (lib.c 395-438). -/
def zc_sb_v0_combined_dev_check {σ : Type} (sb : zc_sb_v0)
    (issue_cb : Option (IssueCb σ)) (ctx : σ) : Bool × σ :=
  issue_rule (decide (sb.o_offset ≠ 0))
    "Non-zero origin offset for combined cache device" issue_cb ctx fun ctx =>
  issue_rule (decide (sb.o_size ≠ 0))
    "Non-zero origin size for combined cache device" issue_cb ctx fun ctx =>
  issue_rule (decide (sb.c_offset = 0))
    "Cache offset not set for combined cache device" issue_cb ctx fun ctx =>
  issue_rule (decide (sb.c_size = 0))
    "Cache size not set for combined cache device" issue_cb ctx fun ctx =>
  issue_rule (decide (sb.md_offset = 0))
    "Metadata offset not set for combined cache device" issue_cb ctx fun ctx =>
  issue_rule (decide (sb.md_size = 0))
    "Metadata size not set for combined cache device" issue_cb ctx fun ctx =>
  (true, ctx)

/-- `zc_sb_v0_check` (lib.c 440-494). -/
def zc_sb_v0_check {σ : Type} (sb : zc_sb_v0) (issue_cb : Option (IssueCb σ))
    (ctx : σ) : Bool × σ :=
  issue_rule (decide (sb.magic ≠ ZC_SB_MAGIC))
    "Incorrect magic number" issue_cb ctx fun ctx =>
  issue_rule (decide (sb.cksum ≠ zc_sb_v0_cksum sb))
    "Incorrect superblock checksum" issue_cb ctx fun ctx =>
  issue_rule (decide (sb.version ≠ 0))
    "Incorrect superblock version" issue_cb ctx fun ctx =>
  issue_rule (decide (sb.size ≠ ZC_SB_V0_SIZE))
    "Incorrect superblock size" issue_cb ctx fun ctx =>
  match zc_block_size_check sb.block_size issue_cb ctx with
  | (false, ctx) => (false, ctx)
  | (true, ctx) =>
  issue_rule (decide (sb.cache_mode > ZC_SB_MODE_PASSTHROUGH))
    "Invalid cache mode" issue_cb ctx fun ctx =>
  if sb.type = ZC_SB_TYPE_ORIGIN then zc_sb_v0_origin_dev_check sb issue_cb ctx
  else if sb.type = ZC_SB_TYPE_CACHE then zc_sb_v0_cache_dev_check sb issue_cb ctx
  else if sb.type = ZC_SB_TYPE_METADATA then zc_sb_v0_metadata_dev_check sb issue_cb ctx
  else if sb.type = ZC_SB_TYPE_COMBINED then zc_sb_v0_combined_dev_check sb issue_cb ctx
  else issue_report issue_cb "Invalid device type" ctx

/-- `zc_sb_v0_is_valid`: the check run with a null callback. -/
def zc_sb_v0_is_valid (sb : zc_sb_v0) : Bool :=
  (zc_sb_v0_check sb (none : Option (IssueCb Unit)) ()).1

/-- The callback of `zcdump.c` (`sb_check_cb`): show the issue and always signal
continue.  The context here is the list of issues shown so far. -/
def sb_check_cb : IssueCb (List String) :=
  fun issue shown => (true, shown ++ [issue])

/-- The issues delivered, in order, to an always-continue sink by
`zc_sb_v0_check`. -/
def zc_sb_v0_issues (sb : zc_sb_v0) : List String :=
  (zc_sb_v0_check sb (some sb_check_cb) []).2

/-- The issue contributed by one rule: its text when the rule is violated. -/
def opt_issue (violated : Bool) (msg : String) : List String :=
  if violated then [msg] else []

/-- The context after an always-continue callback has been handed one issue. -/
def deliver {σ : Type} (cb : IssueCb σ) (ctx : σ) (issue : String) : σ := (cb issue ctx).2

/-- The issues `zc_block_size_check` raises, in program order, when it is never
told to stop. -/
def block_size_issue_list (block_size : Nat) : List String :=
  opt_issue (decide (block_size < 32768)) "Block size smaller than 32 KiB (32768 bytes)" ++
  (opt_issue (decide (block_size > 1073741824))
     "Block size larger than 1 GiB (1073741824 bytes)" ++
   opt_issue (decide (block_size % 32768 ≠ 0))
     "Block size not a multiple of 32 KiB (32768 bytes)")

/-- The issues `zc_sb_v0_origin_dev_check` raises when never told to stop. -/
def origin_issue_list (sb : zc_sb_v0) : List String :=
  opt_issue (decide (sb.o_offset = 0)) "Origin offset not set for origin device" ++
  (opt_issue (decide (sb.o_size = 0)) "Origin size not set for origin device" ++
  (opt_issue (decide (sb.c_offset ≠ 0)) "Non-zero cache offset for origin device" ++
  (opt_issue (decide (sb.c_size ≠ 0)) "Non-zero cache size for origin device" ++
  (opt_issue (decide (sb.md_offset ≠ 0)) "Non-zero metadata offset for origin device" ++
   opt_issue (decide (sb.md_size ≠ 0)) "Non-zero metadata size for origin device"))))

/-- The issues `zc_sb_v0_cache_dev_check` raises when never told to stop. -/
def cache_issue_list (sb : zc_sb_v0) : List String :=
  opt_issue (decide (sb.o_offset ≠ 0)) "Non-zero origin offset for cache device" ++
  (opt_issue (decide (sb.o_size ≠ 0)) "Non-zero origin size for cache device" ++
  (opt_issue (decide (sb.c_offset = 0)) "Cache offset not set for cache device" ++
  (opt_issue (decide (sb.c_size = 0)) "Cache size not set for cache device" ++
  (opt_issue (decide (sb.md_offset ≠ 0))
     "Non-zero metadata offset for (non-combined) cache device" ++
   opt_issue (decide (sb.md_size ≠ 0))
     "Non-zero metadata size for (non-combined) cache device"))))

/-- The issues `zc_sb_v0_metadata_dev_check` raises when never told to stop. -/
def metadata_issue_list (sb : zc_sb_v0) : List String :=
  opt_issue (decide (sb.o_offset ≠ 0)) "Non-zero origin offset for metadata device" ++
  (opt_issue (decide (sb.o_size ≠ 0)) "Non-zero origin size for metadata device" ++
  (opt_issue (decide (sb.c_offset ≠ 0))
     "Non-zero cache offset for (non-combined) metadata device" ++
  (opt_issue (decide (sb.c_size ≠ 0))
     "Non-zero cache size for (non-combined) metadata device" ++
  (opt_issue (decide (sb.md_offset = 0)) "Metadata offset not set for metadata device" ++
   opt_issue (decide (sb.md_size = 0)) "Metadata size not set for metadata device"))))

/-- The issues `zc_sb_v0_combined_dev_check` raises when never told to stop. -/
def combined_issue_list (sb : zc_sb_v0) : List String :=
  opt_issue (decide (sb.o_offset ≠ 0)) "Non-zero origin offset for combined cache device" ++
  (opt_issue (decide (sb.o_size ≠ 0)) "Non-zero origin size for combined cache device" ++
  (opt_issue (decide (sb.c_offset = 0)) "Cache offset not set for combined cache device" ++
  (opt_issue (decide (sb.c_size = 0)) "Cache size not set for combined cache device" ++
  (opt_issue (decide (sb.md_offset = 0))
     "Metadata offset not set for combined cache device" ++
   opt_issue (decide (sb.md_size = 0))
     "Metadata size not set for combined cache device"))))

/-- The issues the role dispatch at the end of `zc_sb_v0_check` raises. -/
def role_issue_list (sb : zc_sb_v0) : List String :=
  if sb.type = ZC_SB_TYPE_ORIGIN then origin_issue_list sb
  else if sb.type = ZC_SB_TYPE_CACHE then cache_issue_list sb
  else if sb.type = ZC_SB_TYPE_METADATA then metadata_issue_list sb
  else if sb.type = ZC_SB_TYPE_COMBINED then combined_issue_list sb
  else ["Invalid device type"]

/-- The issues `zc_sb_v0_check` raises, in program order, when it is never told
to stop. -/
def check_issue_list (sb : zc_sb_v0) : List String :=
  opt_issue (decide (sb.magic ≠ ZC_SB_MAGIC)) "Incorrect magic number" ++
  (opt_issue (decide (sb.cksum ≠ zc_sb_v0_cksum sb)) "Incorrect superblock checksum" ++
  (opt_issue (decide (sb.version ≠ 0)) "Incorrect superblock version" ++
  (opt_issue (decide (sb.size ≠ ZC_SB_V0_SIZE)) "Incorrect superblock size" ++
  (block_size_issue_list sb.block_size ++
  (opt_issue (decide (sb.cache_mode > ZC_SB_MODE_PASSTHROUGH)) "Invalid cache mode" ++
   role_issue_list sb)))))

/-- The rules of the validator, in the specification's evaluation order. -/
inductive Rule where
  | magic | checksum | version | declaredSize
  | blockTooSmall | blockTooLarge | blockNotMultiple
  | cacheMode
  | originOffset | originSize | cacheOffset | cacheSize | metadataOffset | metadataSize
  | unknownRole
deriving DecidableEq, Repr

/-- Every rule, in rule-evaluation order. -/
def Rule.all : List Rule :=
  [.magic, .checksum, .version, .declaredSize, .blockTooSmall, .blockTooLarge,
   .blockNotMultiple, .cacheMode, .originOffset, .originSize, .cacheOffset,
   .cacheSize, .metadataOffset, .metadataSize, .unknownRole]

/-- An extent field must be set (non-zero) for this role, per the role table:
Origin sets the origin pair, Cache the cache pair, Metadata the metadata pair,
Combined the cache and metadata pairs. -/
def Rule.must_be_set (role : Nat) : Rule → Bool
  | .originOffset | .originSize => role = 0
  | .cacheOffset | .cacheSize => role = 1 || role = 3
  | .metadataOffset | .metadataSize => role = 2 || role = 3
  | _ => false

/-- The record violates the rule (specification side). -/
def Rule.violated (sb : zc_sb_v0) (r : Rule) : Bool :=
  let extent (v : Nat) : Bool :=
    decide (sb.type ≤ 3) && (if r.must_be_set sb.type then v = 0 else v ≠ 0)
  match r with
  | .magic => sb.magic ≠ 0x20DCAC8E8EACDC20
  | .checksum => sb.cksum ≠ zc_sb_v0_cksum sb
  | .version => sb.version ≠ 0
  | .declaredSize => sb.size ≠ 128
  | .blockTooSmall => sb.block_size < 32768
  | .blockTooLarge => sb.block_size > 1073741824
  | .blockNotMultiple => ¬ (32768 ∣ sb.block_size)
  | .cacheMode => sb.cache_mode > 2
  | .originOffset => extent sb.o_offset
  | .originSize => extent sb.o_size
  | .cacheOffset => extent sb.c_offset
  | .cacheSize => extent sb.c_size
  | .metadataOffset => extent sb.md_offset
  | .metadataSize => extent sb.md_size
  | .unknownRole => sb.type > 3

/-- The issue text the code uses for a rule, given the record's role. -/
def Rule.text (role : Nat) : Rule → String
  | .magic => "Incorrect magic number"
  | .checksum => "Incorrect superblock checksum"
  | .version => "Incorrect superblock version"
  | .declaredSize => "Incorrect superblock size"
  | .blockTooSmall => "Block size smaller than 32 KiB (32768 bytes)"
  | .blockTooLarge => "Block size larger than 1 GiB (1073741824 bytes)"
  | .blockNotMultiple => "Block size not a multiple of 32 KiB (32768 bytes)"
  | .cacheMode => "Invalid cache mode"
  | .originOffset =>
    if role = 0 then "Origin offset not set for origin device"
    else if role = 1 then "Non-zero origin offset for cache device"
    else if role = 2 then "Non-zero origin offset for metadata device"
    else "Non-zero origin offset for combined cache device"
  | .originSize =>
    if role = 0 then "Origin size not set for origin device"
    else if role = 1 then "Non-zero origin size for cache device"
    else if role = 2 then "Non-zero origin size for metadata device"
    else "Non-zero origin size for combined cache device"
  | .cacheOffset =>
    if role = 0 then "Non-zero cache offset for origin device"
    else if role = 1 then "Cache offset not set for cache device"
    else if role = 2 then "Non-zero cache offset for (non-combined) metadata device"
    else "Cache offset not set for combined cache device"
  | .cacheSize =>
    if role = 0 then "Non-zero cache size for origin device"
    else if role = 1 then "Cache size not set for cache device"
    else if role = 2 then "Non-zero cache size for (non-combined) metadata device"
    else "Cache size not set for combined cache device"
  | .metadataOffset =>
    if role = 0 then "Non-zero metadata offset for origin device"
    else if role = 1 then "Non-zero metadata offset for (non-combined) cache device"
    else if role = 2 then "Metadata offset not set for metadata device"
    else "Metadata offset not set for combined cache device"
  | .metadataSize =>
    if role = 0 then "Non-zero metadata size for origin device"
    else if role = 1 then "Non-zero metadata size for (non-combined) cache device"
    else if role = 2 then "Metadata size not set for metadata device"
    else "Metadata size not set for combined cache device"
  | .unknownRole => "Invalid device type"

/-- The rules a record violates, in rule-evaluation order. -/
def violated_rules (sb : zc_sb_v0) : List Rule :=
  Rule.all.filter (Rule.violated sb)

/-- The role table of the specification (section 4.2): which extent pairs are
set (both fields non-zero) and which are zero (both fields zero). -/
def role_table (sb : zc_sb_v0) : Prop :=
  (sb.type = 0 ∧ sb.o_offset ≠ 0 ∧ sb.o_size ≠ 0 ∧ sb.c_offset = 0 ∧ sb.c_size = 0 ∧
    sb.md_offset = 0 ∧ sb.md_size = 0) ∨
  (sb.type = 1 ∧ sb.c_offset ≠ 0 ∧ sb.c_size ≠ 0 ∧ sb.o_offset = 0 ∧ sb.o_size = 0 ∧
    sb.md_offset = 0 ∧ sb.md_size = 0) ∨
  (sb.type = 2 ∧ sb.md_offset ≠ 0 ∧ sb.md_size ≠ 0 ∧ sb.o_offset = 0 ∧ sb.o_size = 0 ∧
    sb.c_offset = 0 ∧ sb.c_size = 0) ∨
  (sb.type = 3 ∧ sb.o_offset = 0 ∧ sb.o_size = 0 ∧ sb.c_offset ≠ 0 ∧ sb.c_size ≠ 0 ∧
    sb.md_offset ≠ 0 ∧ sb.md_size ≠ 0)

/-- Number of extent pairs (origin, cache, metadata) with both fields non-zero. -/
def extent_pairs_set (sb : zc_sb_v0) : Nat :=
  (if sb.o_offset ≠ 0 ∧ sb.o_size ≠ 0 then 1 else 0) +
  (if sb.c_offset ≠ 0 ∧ sb.c_size ≠ 0 then 1 else 0) +
  (if sb.md_offset ≠ 0 ∧ sb.md_size ≠ 0 then 1 else 0)

/-- A well-formed origin superblock used as a running example: magic, version,
size and extents as `mkzc` sets them, with the checksum filled in. -/
def example_origin_sb : zc_sb_v0 :=
  let sb : zc_sb_v0 :=
    { magic := ZC_SB_MAGIC, cksum := 0, version := 0, size := 128, type := 0,
      dev_major := 8, uuid_lo := 0x0807060504030201, uuid_hi := 0x100f0e0d0c0b0a09,
      block_size := 262144, cache_mode := 0, o_offset := 4096, o_size := 1048576,
      c_offset := 0, c_size := 0, md_offset := 0, md_size := 0 }
  { sb with cksum := zc_sb_v0_cksum sb }

/-- The example origin superblock with the cache extent pair set as well (and
the checksum recomputed): two extent pairs on a non-Combined role. -/
def example_two_pairs_sb : zc_sb_v0 :=
  let sb := { example_origin_sb with c_offset := 4096, c_size := 1048576 }
  { sb with cksum := zc_sb_v0_cksum sb }

/-! ## Size and mode lexicon (`zc_block_size_parse`, `zc_cache_mode_parse`,
lib.c 525-612) -/

/-- `LONG_MAX` for the 64-bit `long` of the supported hosts. -/
def LONG_MAX : Int := 2 ^ 63 - 1

/-- `LONG_MIN`. -/
def LONG_MIN : Int := -(2 ^ 63)

/-- C `isspace` in the "C" locale. -/
def isspace (c : Char) : Bool :=
  c = ' ' || c = '\t' || c = '\n' || c = Char.ofNat 11 || c = Char.ofNat 12 || c = '\r'

/-- The value of a character as a digit for `strtol`: `0`-`9`, then letters of
either case for 10..35. -/
def digit_value (c : Char) : Option Nat :=
  if '0' ≤ c ∧ c ≤ '9' then some (c.toNat - 48)
  else if 'a' ≤ c ∧ c ≤ 'z' then some (c.toNat - 87)
  else if 'A' ≤ c ∧ c ≤ 'Z' then some (c.toNat - 55)
  else none

/-- The digit loop of `strtol`: consume the longest run of digits valid in
`base`, returning the accumulated magnitude and the count of characters used. -/
def strtol_digits (base : Nat) : List Char → Nat → Nat → Nat × Nat
  | [], acc, n => (acc, n)
  | c :: cs, acc, n =>
    match digit_value c with
    | some d => if d < base then strtol_digits base cs (acc * base + d) (n + 1) else (acc, n)
    | none => (acc, n)

/-- What `strtol(s, &p, 0)` leaves behind: the returned value, `p - s`, and
whether `errno` was set (to `ERANGE`). -/
structure StrtolResult where
  value : Int
  endptr : Nat
  erange : Bool
deriving DecidableEq, Repr

/-- The C library's `strtol(s, &p, 0)` on a NUL-terminated string given by its
characters: skip white space, take an optional sign, choose the base from the
prefix (`0x`/`0X` followed by a hex digit: 16; a leading `0`: 8; otherwise 10),
convert the longest run of digits, and clamp with `ERANGE` on overflow.  With no
digits at all nothing is converted and the end pointer is `s` itself. -/
def strtol0 (s : List Char) : StrtolResult :=
  let ws := (s.takeWhile isspace).length
  let s1 := s.drop ws
  let neg : Bool := s1.head? = some '-'
  let sg : Nat := if s1.head? = some '-' ∨ s1.head? = some '+' then 1 else 0
  let s2 := s1.drop sg
  let hex : Bool :=
    s2.head? = some '0' && (s2.getD 1 'z' = 'x' || s2.getD 1 'z' = 'X') &&
      (match digit_value (s2.getD 2 'z') with
       | some d => decide (d < 16)
       | none => false)
  let base : Nat := if hex then 16 else if s2.head? = some '0' then 8 else 10
  let pre : Nat := if hex then 2 else 0
  let r := strtol_digits base (s2.drop pre) 0 0
  if r.2 = 0 then { value := 0, endptr := 0, erange := false }
  else
    let endp := ws + sg + pre + r.2
    if neg then
      if (r.1 : Int) > -LONG_MIN then { value := LONG_MIN, endptr := endp, erange := true }
      else { value := -(r.1 : Int), endptr := endp, erange := false }
    else
      if (r.1 : Int) > LONG_MAX then { value := LONG_MAX, endptr := endp, erange := true }
      else { value := (r.1 : Int), endptr := endp, erange := false }

/-- What `zc_block_size_parse` does: its return value, the value stored through
`block_size` (if any), the message passed to `zc_err` (if any), and, as a ghost,
the mathematical product `size * unit` when the multiplication is executed. -/
structure BlockSizeParse where
  ret : Int
  stored : Option Nat
  err : Option String
  product : Option Int
deriving DecidableEq, Repr

/-- `zc_block_size_parse_cb`: `*i = issue; return 0;`. -/
def zc_block_size_parse_cb : IssueCb String :=
  fun issue _ => (false, issue)

/-- The `switch (*p)` of `zc_block_size_parse`: the unit selected by the
character after the number, or `none` for the `default` label. -/
def block_size_unit (c : Char) : Option Int :=
  if c = Char.ofNat 0 then some 1
  else if c = 'k' ∨ c = 'K' then some 1024
  else if c = 'm' ∨ c = 'M' then some 1048576
  else if c = 'g' ∨ c = 'G' then some 1073741824
  else none

/-- `zc_block_size_parse` (lib.c 532-580) on the characters of `s`. -/
def zc_block_size_parse (s : List Char) : BlockSizeParse :=
  let parse_error : BlockSizeParse :=
    { ret := -1, stored := none,
      err := some ("Invalid block size: " ++ String.mk s ++ "\n"), product := none }
  let invalid_size (p : String) (product : Option Int) : BlockSizeParse :=
    { ret := -1, stored := none,
      err := some ("Invalid block size: " ++ String.mk s ++ ": " ++ p ++ "\n"),
      product := product }
  let r := strtol0 s
  if r.erange ∨ r.endptr = 0 then parse_error
  else if r.value < 0 then invalid_size "Negative block size" none
  else
    match block_size_unit (s.getD r.endptr (Char.ofNat 0)) with
    | none => parse_error
    | some unit =>
      if unit ≠ 1 ∧ s.getD (r.endptr + 1) (Char.ofNat 0) ≠ Char.ofNat 0 then parse_error
      else if r.value ≥ LONG_MAX / unit then
        invalid_size "Block size larger than 1 GiB (1073741824 bytes)" none
      else
        let size := r.value * unit
        let p := if unit ≠ 1 then r.endptr + 1 else r.endptr
        match zc_block_size_check size.toNat (some zc_block_size_parse_cb)
            (String.mk (s.drop p)) with
        | (false, p) => invalid_size p (some size)
        | (true, _) => { ret := 0, stored := some size.toNat, err := none,
                         product := some size }

/-- The number a string of decimal digits denotes. -/
def decimal_value (digits : List Char) : Nat :=
  digits.foldl (fun acc c => acc * 10 + (c.toNat - 48)) 0

/-- The character is one of `0`..`9`. -/
def is_decimal_digit (c : Char) : Bool := decide ('0' ≤ c ∧ c ≤ '9')

/-- The unit suffixes of a block-size token with the unit each selects. -/
def unit_suffixes : List (List Char × Nat) :=
  [([], 1), (['K'], 1024), (['k'], 1024), (['M'], 1048576), (['m'], 1048576),
   (['G'], 1073741824), (['g'], 1073741824)]

/-- C `tolower` in the "C" locale. -/
def tolower (c : Char) : Char :=
  if 'A' ≤ c ∧ c ≤ 'Z' then Char.ofNat (c.toNat + 32) else c

/-- C `strcasecmp` on two NUL-terminated strings given by their characters:
the difference of the first pair of lower-cased characters that differ (the
terminating NUL counts as 0), or 0 when there is none. -/
def strcasecmp : List Char → List Char → Int
  | [], [] => 0
  | [], b :: _ => -((tolower b).toNat : Int)
  | a :: _, [] => ((tolower a).toNat : Int)
  | a :: as, b :: bs =>
    if tolower a = tolower b then strcasecmp as bs
    else ((tolower a).toNat : Int) - ((tolower b).toNat : Int)

/-- The table `zc_cache_modes`. -/
def zc_cache_modes : List String := ["writeback", "writethrough", "passthrough"]

/-- `zc_cache_mode_format` (lib.c 586-597): the returned name (`none` for
`NULL`) and the warning passed to `zc_err`, if any. -/
def zc_cache_mode_format (cache_mode : Nat) (quiet : Bool) : Option String × Option String :=
  if cache_mode > ZC_SB_MODE_PASSTHROUGH then
    (none, if quiet then none else some "Invalid cache mode\n")
  else (some (zc_cache_modes.getD cache_mode ""), none)

/-- What `zc_cache_mode_parse` does: its return value, the value stored through
`cache_mode` (if any) and the warning passed to `zc_err` (if any). -/
structure CacheModeParse where
  ret : Int
  stored : Option Nat
  err : Option String
deriving DecidableEq, Repr

/-- `zc_cache_mode_parse` (lib.c 599-612): the loop
`for (i = 0; i < ZC_SB_MODE_PASSTHROUGH; ++i)` returns at the first index whose
table entry compares equal to `s` ignoring case. -/
def zc_cache_mode_parse (s : List Char) : CacheModeParse :=
  match (List.range ZC_SB_MODE_PASSTHROUGH).find?
      (fun i => strcasecmp s (zc_cache_modes.getD i "").toList = 0) with
  | some i => { ret := 0, stored := some i, err := none }
  | none => { ret := -1, stored := none,
              err := some ("Invalid cache mode: " ++ String.mk s ++ "\n") }

/-! ## Set identifier (`zc_sb_v0_uuid_get`, `zc_uuid_format`, lib.c 152-182, 631-668) -/

/-- `zc_sb_v0_uuid_get`: the sixteen bytes copied out of `lo` and `hi`, each
byte-swapped first on a big-endian host. -/
def zc_sb_v0_uuid_get (big_endian : Bool) (sb : zc_sb_v0) : List Nat :=
  store64 big_endian (if big_endian then bswap_64 sb.uuid_lo else sb.uuid_lo) ++
  store64 big_endian (if big_endian then bswap_64 sb.uuid_hi else sb.uuid_hi)

/-- `zc_sb_v0_uuid_set`: `lo` and `hi` are loaded from the two halves of the
identifier, byte-swapped on a big-endian host, and stored in the record. -/
def zc_sb_v0_uuid_set (big_endian : Bool) (uuid : List Nat) (sb : zc_sb_v0) : zc_sb_v0 :=
  let lo := load64 big_endian (uuid.take 8)
  let hi := load64 big_endian ((uuid.drop 8).take 8)
  { sb with uuid_lo := if big_endian then bswap_64 lo else lo,
            uuid_hi := if big_endian then bswap_64 hi else hi }

/-- One hexadecimal digit, lower case. -/
def hex_digit (n : Nat) : Char := "0123456789abcdef".toList.getD n '0'

/-- `sprintf(b, "%02x", byte)` for a `uint8_t`. -/
def hex02 (byte : Nat) : String := String.mk [hex_digit (byte / 16 % 16), hex_digit (byte % 16)]

/-- The `%02x` rendering of bytes `from .. to - 1` of an identifier. -/
def hex_run (uuid : List Nat) (start stop : Nat) : String :=
  String.join (((uuid.take stop).drop start).map hex02)

/-- `zc_uuid_format`: groups of 4, 2, 2, 2 and 6 bytes separated by dashes. -/
def zc_uuid_format (uuid : List Nat) : String :=
  hex_run uuid 0 4 ++ "-" ++ hex_run uuid 4 6 ++ "-" ++ hex_run uuid 6 8 ++ "-" ++
    hex_run uuid 8 10 ++ "-" ++ hex_run uuid 10 16

/-- `zc_sb_uuid_format`. -/
def zc_sb_uuid_format (big_endian : Bool) (sb : zc_sb_v0) : String :=
  zc_uuid_format (zc_sb_v0_uuid_get big_endian sb)

/-! ## Assembly coordinator (`zcstart.c`) -/

/-- How a coordinator run ended. -/
inductive Exit where
  | success
  | failure
  | abort
deriving DecidableEq, Repr

/-- The udev flag sets used by `task_run_sync`. -/
inductive UdevFlags where
  | COMPONENT_UDEV_FLAGS
  | ZC_DEV_UDEV_FLAGS
deriving DecidableEq, Repr

/-- A device-mapper `DM_DEVICE_CREATE` task as configured by the coordinator:
name, one target (start sector, length in sectors, target type, parameters)
and the udev flags it is run with. -/
structure DmCreate where
  name : String
  start : Nat
  length : Nat
  target : String
  params : String
  flags : UdevFlags
deriving DecidableEq, Repr

/-- The outside world as the coordinator sees it, over a state `σ`:
`dm_create` runs the whole chain `dm_task_create` .. `task_run_sync` for a task
and says whether every call succeeded; `access` is `access(path, F_OK) == 0`;
`get_dev_size` is the open / `BLKGETSIZE64` / close sequence of
`get_dev_size`, `none` when any of the three fails. -/
structure Env (σ : Type) where
  big_endian : Bool
  dm_create : DmCreate → σ → Bool × σ
  access : String → σ → Bool
  get_dev_size : String → σ → Option Nat

/-- Result of one `open(dev, O_RDONLY | O_EXCL | O_CLOEXEC)` in `wait_for_dev`. -/
inductive OpenResult where
  | opened
  | ebusy
  | error
deriving DecidableEq, Repr

/-- What the system calls of `main` on the triggering device return: the first
`open`, `fstat` (whether a block device, and `major(st_rdev)`), the `read` of
the superblock (return value and buffer contents), `close`, and the exclusive
opens and final `close` of `wait_for_dev`. -/
structure DevProbe where
  open_ok : Bool
  fstat : Option (Bool × Nat)
  read_ret : Int
  read_buf : List Nat
  close_ok : Bool
  excl_open : Nat → OpenResult
  excl_close_ok : Bool

/-- A (possibly finished) coordinator run: the exit status if the process has
exited, the device-mapper creations attempted so far, and the world. -/
structure Run (σ : Type) where
  exit : Option Exit
  attempts : List DmCreate
  world : σ

/-- `wait_for_dev` (zcstart.c 194-216) from poll number `k`, giving up after
`fuel` polls: `some true` when it returns, `some false` when it exits with
failure, `none` while the device is still busy. -/
def wait_for_dev (excl_open : Nat → OpenResult) (excl_close_ok : Bool) :
    Nat → Nat → Option Bool
  | 0, _ => none
  | fuel + 1, k =>
    match excl_open k with
    | .opened => some excl_close_ok
    | .error => some false
    | .ebusy => wait_for_dev excl_open excl_close_ok fuel (k + 1)

/-- The common tail of `do_component` and `try_assemble`: run the configured
creation task; if any call of the chain fails, `exit(EXIT_FAILURE)`. -/
def run_create {σ : Type} (env : Env σ) (task : DmCreate) (w : σ) : Run σ :=
  match env.dm_create task w with
  | (false, w1) => { exit := some .failure, attempts := [task], world := w1 }
  | (true, w1) => { exit := none, attempts := [task], world := w1 }

/-- The task `do_component` configures: the linear mapping
`zodcache-<uuid>-<type>` over `size / 512` sectors of `dev` from sector
`offset / 512`. -/
def component_task (dev type : String) (offset size : Nat) (uuid : String) : DmCreate :=
  { name := "zodcache-" ++ uuid ++ "-" ++ type, start := 0, length := size / 512,
    target := "linear", params := dev ++ " " ++ toString (offset / 512),
    flags := .COMPONENT_UDEV_FLAGS }

/-- `do_component` (zcstart.c 56-86). -/
def do_component {σ : Type} (env : Env σ) (dev type : String) (offset size : Nat)
    (uuid : String) (w : σ) : Run σ :=
  run_create env (component_task dev type offset size uuid) w

/-- The three sibling paths computed at the top of `try_assemble`. -/
def o_dev_path (uuid : String) : String := "/dev/mapper/zodcache-" ++ uuid ++ "-origin"

def c_dev_path (uuid : String) : String := "/dev/mapper/zodcache-" ++ uuid ++ "-cache"

def md_dev_path (uuid : String) : String := "/dev/mapper/zodcache-" ++ uuid ++ "-metadata"

/-- The `access` cascade of `try_assemble` (zcstart.c 123-138): true when the
function takes one of its early `return`s. -/
def siblings_missing {σ : Type} (env : Env σ) (sb : zc_sb_v0) (uuid : String) (w : σ) :
    Bool :=
  if sb.type = ZC_SB_TYPE_ORIGIN then
    !env.access (c_dev_path uuid) w || !env.access (md_dev_path uuid) w
  else if sb.type = ZC_SB_TYPE_CACHE then
    !env.access (o_dev_path uuid) w || !env.access (md_dev_path uuid) w
  else if sb.type = ZC_SB_TYPE_METADATA then
    !env.access (o_dev_path uuid) w || !env.access (c_dev_path uuid) w
  else !env.access (o_dev_path uuid) w

/-- The composite task `try_assemble` configures for origin size `o_size`. -/
def composite_task (sb : zc_sb_v0) (uuid : String) (o_size : Nat) : DmCreate :=
  { name := "zodcache-" ++ uuid, start := 0, length := o_size / 512, target := "cache",
    params := md_dev_path uuid ++ " " ++ c_dev_path uuid ++ " " ++ o_dev_path uuid ++ " " ++
      toString (sb.block_size / 512) ++ " 1 " ++
      ((zc_cache_mode_format sb.cache_mode false).1.getD "(null)") ++ " default 0",
    flags := .ZC_DEV_UDEV_FLAGS }

/-- `try_assemble` (zcstart.c 112-173).  `exit = none` means the function
returned to `main`. -/
def try_assemble {σ : Type} (env : Env σ) (sb : zc_sb_v0) (uuid : String) (w : σ) : Run σ :=
  if siblings_missing env sb uuid w then { exit := none, attempts := [], world := w }
  else
    let o_size : Option Nat :=
      if sb.type = ZC_SB_TYPE_ORIGIN then some sb.o_size
      else env.get_dev_size (o_dev_path uuid) w
    match o_size with
    | none => { exit := some .failure, attempts := [], world := w }
    | some o_size => run_create env (composite_task sb uuid o_size) w

/-- Run `next` after `r` unless `r` has already exited; attempts accumulate. -/
def Run.andThen {σ : Type} (r : Run σ) (next : σ → Run σ) : Run σ :=
  match r.exit with
  | some _ => r
  | none =>
    let r2 := next r.world
    { exit := r2.exit, attempts := r.attempts ++ r2.attempts, world := r2.world }

/-- The `switch (sb.type)` of `main` (zcstart.c 288-320): materialize the
triggering device's own component(s). -/
def materialize {σ : Type} (env : Env σ) (dev : String) (sb : zc_sb_v0) (uuid : String)
    (w : σ) : Run σ :=
  if sb.type = ZC_SB_TYPE_ORIGIN then
    do_component env dev "origin" sb.o_offset sb.o_size uuid w
  else if sb.type = ZC_SB_TYPE_CACHE then
    do_component env dev "cache" sb.c_offset sb.c_size uuid w
  else if sb.type = ZC_SB_TYPE_METADATA then
    do_component env dev "metadata" sb.md_offset sb.md_size uuid w
  else if sb.type = ZC_SB_TYPE_COMBINED then
    (do_component env dev "cache" sb.c_offset sb.c_size uuid w).andThen
      (do_component env dev "metadata" sb.md_offset sb.md_size uuid)
  else { exit := some .abort, attempts := [], world := w }

/-- The part of `main` from the `switch` to `return 0` (zcstart.c 288-324). -/
def assemble_phase {σ : Type} (env : Env σ) (dev : String) (sb : zc_sb_v0) (uuid : String)
    (w : σ) : Run σ :=
  ((materialize env dev sb uuid w).andThen (try_assemble env sb uuid)).andThen
    fun w1 => { exit := some .success, attempts := [], world := w1 }

/-- `main` of the coordinator (zcstart.c 218-325).  `fuel` bounds the polls of
`wait_for_dev`; the result is `none` while the device stays busy. -/
def main {σ : Type} (env : Env σ) (probe : DevProbe) (argv : List String) (fuel : Nat)
    (w : σ) : Option (Run σ) :=
  let stop (e : Exit) : Option (Run σ) := some { exit := some e, attempts := [], world := w }
  let argc := argv.length
  if argc ≠ 3 ∧ argc ≠ 2 then stop .failure
  else if argc = 3 ∧ argv.getD 1 "" ≠ "--udev" then stop .failure
  else
    let udev : Bool := decide (argc = 3)
    let dev := argv.getD (1 + udev.toNat) ""
    if !probe.open_ok then stop .failure
    else
      match probe.fstat with
      | none => stop .failure
      | some (is_blk, dev_major) =>
        if !is_blk then stop .failure
        else
          let rd := zc_sb_v0_read env.big_endian probe.read_ret probe.read_buf
          let sb := rd.2
          if rd.1 < 0 then stop .failure
          else if !probe.close_ok then stop .failure
          else if udev && decide (sb.magic ≠ ZC_SB_MAGIC) then stop .success
          else if !zc_sb_v0_is_valid sb then stop (if udev then .success else .failure)
          else if sb.dev_major ≠ dev_major then stop (if udev then .success else .failure)
          else
            let uuid := zc_sb_uuid_format env.big_endian sb
            match wait_for_dev probe.excl_open probe.excl_close_ok fuel 0 with
            | none => none
            | some false => stop .failure
            | some true => some (assemble_phase env dev sb uuid w)

/-- The sibling paths a role needs before the composite can be assembled:
Origin needs cache and metadata, Cache needs origin and metadata, Metadata
needs origin and cache, Combined needs only origin. -/
def required_sibling_paths (role : Nat) (uuid : String) : List String :=
  if role = 0 then [c_dev_path uuid, md_dev_path uuid]
  else if role = 1 then [o_dev_path uuid, md_dev_path uuid]
  else if role = 2 then [o_dev_path uuid, c_dev_path uuid]
  else [o_dev_path uuid]

/-- Every required sibling path of the role exists in world `w`. -/
def siblings_present {σ : Type} (env : Env σ) (role : Nat) (uuid : String) (w : σ) : Bool :=
  (required_sibling_paths role uuid).all fun p => env.access p w

/-- A simple world for examples: the state is the list of existing device
nodes; every creation succeeds and adds the node of the new mapping; a node
that exists has size 1 MiB. -/
def node_env (big_endian : Bool) : Env (List String) where
  big_endian := big_endian
  dm_create := fun task w => (true, w ++ ["/dev/mapper/" ++ task.name])
  access := fun path w => decide (path ∈ w)
  get_dev_size := fun path w => if path ∈ w then some 1048576 else none

/-- A block device with major 8 on which every system call succeeds at once
and whose first 128 bytes are `buf`. -/
def example_probe (buf : List Nat) : DevProbe where
  open_ok := true
  fstat := some (true, 8)
  read_ret := 128
  read_buf := buf
  close_ok := true
  excl_open := fun _ => .opened
  excl_close_ok := true

/-! ## Lazy issue sequences (for the early-stop behaviour of the checks) -/

/-- Hand the issues of a list to a callback one at a time, stopping as soon as
the callback signals stop (a null callback stops at the first issue).  The
result is `true` when the whole list was consumed. -/
def feed {σ : Type} (issue_cb : Option (IssueCb σ)) : List String → σ → Bool × σ
  | [], ctx => (true, ctx)
  | i :: rest, ctx =>
    match issue_report issue_cb i ctx with
    | (false, ctx1) => (false, ctx1)
    | (true, ctx1) => feed issue_cb rest ctx1

/-- A recording sink that signals stop on the `k`-th issue it receives: the
context is the list of issues received so far. -/
def stop_at (k : Nat) : IssueCb (List String) :=
  fun issue shown => (decide (shown.length + 1 ≠ k), shown ++ [issue])

/-- A record violating five rules: the example origin superblock with a wrong
version, a block size of 16384 (too small and not a multiple of 32768) and the
cache extent set. -/
def example_bad_sb : zc_sb_v0 :=
  let sb := { example_origin_sb with version := 1, block_size := 16384,
                                     c_offset := 4096, c_size := 1048576 }
  { sb with cksum := zc_sb_v0_cksum sb }

/-- The three block-size rules in rule order: whether the size violates the
rule, and the issue text of the rule. -/
def block_size_rules (block_size : Nat) : List (Bool × String) :=
  [(decide (block_size < 32768), "Block size smaller than 32 KiB (32768 bytes)"),
   (decide (block_size > 1073741824), "Block size larger than 1 GiB (1073741824 bytes)"),
   (decide (¬ 32768 ∣ block_size), "Block size not a multiple of 32 KiB (32768 bytes)")]

/-- The linear mappings a device of the given role contributes, in creation
order: Origin its origin extent, Cache its cache extent, Metadata its metadata
extent, Combined its cache extent and then its metadata extent. -/
def own_components (dev : String) (sb : zc_sb_v0) (uuid : String) : List DmCreate :=
  if sb.type = 0 then [component_task dev "origin" sb.o_offset sb.o_size uuid]
  else if sb.type = 1 then [component_task dev "cache" sb.c_offset sb.c_size uuid]
  else if sb.type = 2 then [component_task dev "metadata" sb.md_offset sb.md_size uuid]
  else [component_task dev "cache" sb.c_offset sb.c_size uuid,
        component_task dev "metadata" sb.md_offset sb.md_size uuid]

/-! ## Kinds of block-size parse failure -/

/-- The three block-size rules. -/
inductive BlockSizeRule where
  | too_small
  | too_large
  | not_multiple
deriving DecidableEq, Repr

/-- The issue text of a block-size rule. -/
def BlockSizeRule.text : BlockSizeRule → String
  | .too_small => "Block size smaller than 32 KiB (32768 bytes)"
  | .too_large => "Block size larger than 1 GiB (1073741824 bytes)"
  | .not_multiple => "Block size not a multiple of 32 KiB (32768 bytes)"

/-- The first block-size rule, in rule order, that a size violates. -/
def first_violated (size : Nat) : Option BlockSizeRule :=
  if size < 32768 then some .too_small
  else if size > 1073741824 then some .too_large
  else if ¬ 32768 ∣ size then some .not_multiple
  else none

/-- The kinds of failure `zc_block_size_parse` reports. -/
inductive ParseFailure where
  | malformed
  | negative
  | invalid (rule : BlockSizeRule)
deriving DecidableEq, Repr

/-- The reason printed after the token for a kind of failure, if any. -/
def ParseFailure.reason : ParseFailure → Option String
  | .malformed => none
  | .negative => some "Negative block size"
  | .invalid rule => some rule.text

/-- The warning for a kind of failure on token `s`: `Invalid block size: <s>`,
followed by `: <reason>` when the kind has a reason. -/
def ParseFailure.message (s : List Char) (k : ParseFailure) : String :=
  match k.reason with
  | none => "Invalid block size: " ++ String.mk s ++ "\n"
  | some reason => "Invalid block size: " ++ String.mk s ++ ": " ++ reason ++ "\n"

/-- The kind of failure of a token, decided in this order: no leading number,
or a number not representable as a `long`: malformed; a negative number:
negative; an unknown suffix or characters after the unit: malformed; a value
(number times unit, over the integers) violating a block-size rule: invalid
with the first violated rule; otherwise no failure. -/
def classify_token (s : List Char) : Option ParseFailure :=
  let r := strtol0 s
  if r.erange ∨ r.endptr = 0 then some .malformed
  else if r.value < 0 then some .negative
  else
    match block_size_unit (s.getD r.endptr (Char.ofNat 0)) with
    | none => some .malformed
    | some unit =>
      if unit ≠ 1 ∧ s.getD (r.endptr + 1) (Char.ofNat 0) ≠ Char.ofNat 0 then some .malformed
      else (first_violated (r.value * unit).toNat).map .invalid

/-! ## Sequences of coordinator runs -/

/-- The environment behaves as the specification of the component and composite
creation promises: every device-mapper creation succeeds, it makes the node
`/dev/mapper/<name>` of the new mapping exist and changes no other node, and
an existing node can be opened and asked for its size. -/
def env_creates_nodes {σ : Type} (env : Env σ) : Prop :=
  (∀ task w, (env.dm_create task w).1 = true) ∧
  (∀ path task w, env.access path (env.dm_create task w).2 =
    (env.access path w || decide (path = "/dev/mapper/" ++ task.name))) ∧
  (∀ path w, env.access path w = true → (env.get_dev_size path w).isSome = true)

/-- The component node path of a role: 0 origin, 1 cache, otherwise metadata. -/
def role_path (uuid : String) (role : Nat) : String :=
  if role = 0 then o_dev_path uuid else if role = 1 then c_dev_path uuid else md_dev_path uuid

/-- The composite node path of a cache set. -/
def composite_path (uuid : String) : String := "/dev/mapper/" ++ ("zodcache-" ++ uuid)

/-- The device is opened, found to be a block device whose major is the one
recorded in the valid superblock `sb` read from it, closed, and becomes free
within `fuel` polls; the command line names it (with or without `--udev`). -/
def trigger_ok (big_endian : Bool) (probe : DevProbe) (argv : List String) (dev : String)
    (sb : zc_sb_v0) (fuel : Nat) : Prop :=
  (∃ prog, argv = [prog, "--udev", dev] ∨ argv = [prog, dev]) ∧
  probe.open_ok = true ∧ probe.fstat = some (true, sb.dev_major) ∧
  probe.read_ret = 128 ∧ probe.close_ok = true ∧
  sb = (zc_sb_v0_read big_endian 128 probe.read_buf).2 ∧
  zc_sb_v0_is_valid sb = true ∧
  wait_for_dev probe.excl_open probe.excl_close_ok fuel 0 = some true

/-- Run the coordinator once per trigger, one execution after the other, each
starting in the world the previous one left. -/
def run_sequence {σ : Type} (env : Env σ) (fuel : Nat) :
    List (DevProbe × List String) → σ → Option (List (Run σ))
  | [], _ => some []
  | (probe, argv) :: rest, w =>
    match main env probe argv fuel w with
    | none => none
    | some r => (run_sequence env fuel rest r.world).map fun rs => r :: rs

/-- The six orders in which three devices (0 origin, 1 cache, 2 metadata) can
appear. -/
def six_orders : List (List Nat) :=
  [[0, 1, 2], [0, 2, 1], [1, 0, 2], [1, 2, 0], [2, 0, 1], [2, 1, 0]]

/-- Selection by role number: 0, 1, otherwise the third. -/
def pick {α : Type} (i : Nat) (x0 x1 x2 : α) : α :=
  if i = 0 then x0 else if i = 1 then x1 else x2

/-- A world whose state is the list of mappings created so far: every creation
succeeds and adds its mapping, a node exists when a mapping of that name has
been created, and its size is that of the mapping. -/
def dm_world (big_endian : Bool) : Env (List DmCreate) where
  big_endian := big_endian
  dm_create := fun task w => (true, w ++ [task])
  access := fun path w => w.any fun t => decide (path = "/dev/mapper/" ++ t.name)
  get_dev_size := fun path w =>
    (w.find? fun t => decide (path = "/dev/mapper/" ++ t.name)).map fun t => t.length * 512

/-- A cache superblock of the same cache set as `example_origin_sb`. -/
def example_cache_sb : zc_sb_v0 :=
  let sb : zc_sb_v0 :=
    { example_origin_sb with cksum := 0, type := 1, o_offset := 0, o_size := 0,
                             c_offset := 4096, c_size := 524288 }
  { sb with cksum := zc_sb_v0_cksum sb }

/-- A metadata superblock of the same cache set as `example_origin_sb`. -/
def example_metadata_sb : zc_sb_v0 :=
  let sb : zc_sb_v0 :=
    { example_origin_sb with cksum := 0, type := 2, o_offset := 0, o_size := 0,
                             md_offset := 4096, md_size := 8388608 }
  { sb with cksum := zc_sb_v0_cksum sb }

/-- The one linear mapping a non-Combined device contributes. -/
def own_task (dev : String) (sb : zc_sb_v0) (uuid : String) : DmCreate :=
  component_task dev (pick sb.type "origin" "cache" "metadata")
    (pick sb.type sb.o_offset sb.c_offset sb.md_offset)
    (pick sb.type sb.o_size sb.c_size sb.md_size) uuid

/-- The example origin superblock with a role value outside the four known
roles (checksum recomputed). -/
def example_unknown_role_sb : zc_sb_v0 :=
  let sb := { example_origin_sb with type := 7 }
  { sb with cksum := zc_sb_v0_cksum sb }

/-! ## The formatter (`mkzc.c`) -/

/-- `UINT64_MAX`. -/
def UINT64_MAX : Nat := 2 ^ 64 - 1

/-- `combined_cache_size` (mkzc.c 31-59) on `uint64_t` arguments.  `none`
stands for the process ending inside the function (a failed `assert` or one of
the two `exit(EXIT_FAILURE)`); every arithmetic step is taken modulo `2 ^ 64`. -/
def combined_cache_size (available block_size : Nat) : Option Nat :=
  if block_size % 32768 ≠ 0 then none
  else if ¬ block_size ≥ 32768 then none
  else if ¬ block_size ≤ 1073741824 then none
  else if available < (4194304 + 16 + block_size) % U64 then none
  else
    let cache_size := (available + U64 - 4194304) % U64
    if cache_size ≥ UINT64_MAX / block_size then none
    else
      let cache_size := cache_size * block_size % U64
      let cache_size := cache_size / ((block_size + 16) % U64)
      some ((cache_size / block_size) * block_size % U64)

/-- The record after `memset(&cache_sb, 0, sizeof cache_sb)`. -/
def zc_sb_v0.zero : zc_sb_v0 :=
  { magic := 0, cksum := 0, version := 0, size := 0, type := 0, dev_major := 0,
    uuid_lo := 0, uuid_hi := 0, block_size := 0, cache_mode := 0, o_offset := 0,
    o_size := 0, c_offset := 0, c_size := 0, md_offset := 0, md_size := 0 }

/-- `set_cache_sb_combined` (mkzc.c 288-306): the value of `cache_sb` it
leaves, from the globals it reads (`cache_dev.major`, `cache_dev.size`,
`metadata_dev.size`, `block_size`, `cache_mode`, `alignment`). -/
def set_cache_sb_combined (big_endian : Bool) (uuid : List Nat)
    (cache_dev_major cache_dev_size metadata_dev_size block_size cache_mode alignment : Nat) :
    zc_sb_v0 :=
  let sb : zc_sb_v0 :=
    { zc_sb_v0.zero with magic := ZC_SB_MAGIC, version := 0, size := ZC_SB_V0_SIZE,
                         type := ZC_SB_TYPE_COMBINED, dev_major := cache_dev_major }
  let sb := zc_sb_v0_uuid_set big_endian uuid sb
  let sb := { sb with block_size := block_size, cache_mode := cache_mode,
                      md_offset := alignment, md_size := metadata_dev_size }
  let sb := { sb with c_offset := (sb.md_offset + sb.md_size) % U64,
                      c_size := cache_dev_size }
  { sb with cksum := zc_sb_v0_cksum sb }

/-- The combined branch of the formatter's `main` (mkzc.c 316-329), for a cache
device of byte size `cache_dev_size` and no metadata device: the value of
`cache_sb` after `set_cache_sb_combined`, or `none` when
`combined_cache_size` ends the process. -/
def mkzc_main_combined (big_endian : Bool) (uuid : List Nat)
    (cache_dev_major cache_dev_size block_size cache_mode alignment : Nat) :
    Option zc_sb_v0 :=
  let cache_dev_size := (cache_dev_size + U64 - alignment) % U64
  let metadata_dev_size := cache_dev_size
  match combined_cache_size cache_dev_size block_size with
  | none => none
  | some c =>
    let cache_dev_size := c
    let metadata_dev_size := (metadata_dev_size + U64 - cache_dev_size) % U64
    some (set_cache_sb_combined big_endian uuid cache_dev_major cache_dev_size
      metadata_dev_size block_size cache_mode alignment)

/-- The node paths of the components a device materializes itself. -/
def own_component_paths (dev : String) (sb : zc_sb_v0) (uuid : String) : List String :=
  (own_components dev sb uuid).map fun t => "/dev/mapper/" ++ t.name

/-- Run device-mapper creations one after the other, as the coordinator is
specified to do for its own components: each task is attempted in turn; the
first one that fails ends the run with `exit(EXIT_FAILURE)` and nothing after it
is attempted. -/
def run_tasks {σ : Type} (env : Env σ) : List DmCreate → σ → Run σ
  | [], w => { exit := none, attempts := [], world := w }
  | t :: ts, w =>
    match env.dm_create t w with
    | (false, w1) => { exit := some .failure, attempts := [t], world := w1 }
    | (true, w1) =>
      let r := run_tasks env ts w1
      { exit := r.exit, attempts := t :: r.attempts, world := r.world }

/-- A well-formed Combined superblock of the same cache set as
`example_origin_sb`: cache extent then metadata extent on one device. -/
def example_combined_sb : zc_sb_v0 :=
  let sb : zc_sb_v0 :=
    { example_origin_sb with cksum := 0, type := 3, o_offset := 0, o_size := 0,
                             md_offset := 4096, md_size := 8388608,
                             c_offset := 8392704, c_size := 524288 }
  { sb with cksum := zc_sb_v0_cksum sb }

/-! ## Theorems -/

/-! ### Checksum: the C arithmetic agrees with the specification -/

theorem and_mask32 (w : Nat) : w &&& 0xffffffff = w % 2 ^ 32 := by
  have h : (0xffffffff : Nat) = 2 ^ 32 - 1 := by norm_num
  rw [h, Nat.and_pow_two_sub_one_eq_mod]

theorem ck_add_s1_eq (a b : Nat) (f : Bool) (block : Nat) (h1 : a < CKSUM_P)
    (hb : block < U32) :
    ck_add_s1 { s1 := a, s2 := b, wrapped := f } block =
      { s1 := (a + block) % CKSUM_P, s2 := b, wrapped := f } := by
  have hlt : a + block < U64 := by
    simp only [CKSUM_P, U32, U64] at *; omega
  have hd : decide (U64 ≤ a + block) = false := by
    simp only [decide_eq_false_iff_not]; omega
  simp [ck_add_s1, Nat.mod_eq_of_lt hlt, hd]

theorem ck_add_s2_eq (a b : Nat) (f : Bool) (h1 : a < CKSUM_P) (h2 : b < CKSUM_P) :
    ck_add_s2 { s1 := a, s2 := b, wrapped := f } =
      { s1 := a, s2 := (b + a) % CKSUM_P, wrapped := f } := by
  have hlt : b + a < U64 := by
    simp only [CKSUM_P, U64] at *; omega
  have hd : decide (U64 ≤ b + a) = false := by
    simp only [decide_eq_false_iff_not]; omega
  simp [ck_add_s2, Nat.mod_eq_of_lt hlt, hd]

theorem CKSUM_P_pos : 0 < CKSUM_P := by decide

/-- One loop iteration computes the specification's two half-steps and raises
no wrap flag, provided the accumulators are reduced and the word is 64-bit. -/
theorem cksum_body_eq (i w : Nat) (st : CkState) (hw : w < U64)
    (h1 : st.s1 < CKSUM_P) (h2 : st.s2 < CKSUM_P) :
    cksum_body i w st =
      { s1 := (spec_cksum_word i w (st.s1, st.s2)).1,
        s2 := (spec_cksum_word i w (st.s1, st.s2)).2,
        wrapped := st.wrapped } ∧
    (spec_cksum_word i w (st.s1, st.s2)).1 < CKSUM_P ∧
    (spec_cksum_word i w (st.s1, st.s2)).2 < CKSUM_P := by
  obtain ⟨a, b, f⟩ := st
  simp only at h1 h2
  have hlo : (w &&& 0xffffffff) % U32 = w % 2 ^ 32 := by
    rw [and_mask32]; exact Nat.mod_eq_of_lt (Nat.mod_lt _ (by decide))
  have hhi : (w >>> 32) % U32 = w / 2 ^ 32 := by
    rw [Nat.shiftRight_eq_div_pow]
    apply Nat.mod_eq_of_lt
    simp only [U32, U64] at *; omega
  have hlob : w % 2 ^ 32 < U32 := Nat.mod_lt _ (by decide)
  have hhib : w / 2 ^ 32 < U32 := by simp only [U32, U64] at *; omega
  have hP := CKSUM_P_pos
  by_cases hi : i = 1
  · subst hi
    have e1 : cksum_body 1 w ⟨a, b, f⟩ = ck_add_s2 (ck_add_s2 ⟨a, b, f⟩) := by
      simp [cksum_body, ZC_SB_V0_CKSUM_IDX]
    have hm : (b + a) % CKSUM_P < CKSUM_P := Nat.mod_lt _ hP
    rw [e1, ck_add_s2_eq a b f h1 h2, ck_add_s2_eq _ _ _ h1 hm]
    refine ⟨by simp [spec_cksum_word], by simpa [spec_cksum_word] using h1, ?_⟩
    simp only [spec_cksum_word, if_true]
    exact Nat.mod_lt _ hP
  · have e1 : cksum_body i w ⟨a, b, f⟩ =
        ck_add_s2 (ck_add_s1 (ck_add_s2 (ck_add_s1 ⟨a, b, f⟩ ((w &&& 0xffffffff) % U32)))
          ((w >>> 32) % U32)) := by
      simp [cksum_body, ZC_SB_V0_CKSUM_IDX, hi]
    rw [e1, hlo, hhi, ck_add_s1_eq a b f _ h1 hlob]
    have ha : (a + w % 2 ^ 32) % CKSUM_P < CKSUM_P := Nat.mod_lt _ hP
    rw [ck_add_s2_eq _ _ _ ha h2]
    have hb : (b + (a + w % 2 ^ 32) % CKSUM_P) % CKSUM_P < CKSUM_P :=
      Nat.mod_lt _ hP
    rw [ck_add_s1_eq _ _ _ _ ha hhib]
    have hc : ((a + w % 2 ^ 32) % CKSUM_P + w / 2 ^ 32) % CKSUM_P < CKSUM_P :=
      Nat.mod_lt _ hP
    rw [ck_add_s2_eq _ _ _ hc hb]
    refine ⟨by simp [spec_cksum_word, hi], ?_, ?_⟩
    · simp only [spec_cksum_word, hi, if_false]; exact Nat.mod_lt _ hP
    · simp only [spec_cksum_word, hi, if_false]; exact Nat.mod_lt _ hP

/-- Loop invariant of `zc_sb_v0_cksum`: the accumulators track the
specification's and stay below the modulus; the wrap flag is never raised. -/
theorem cksum_loop_eq (ws : List Nat) : ∀ (i : Nat) (st : CkState),
    (∀ w ∈ ws, w < U64) → st.s1 < CKSUM_P → st.s2 < CKSUM_P →
    cksum_loop ws i st =
      { s1 := (spec_cksum_acc ws i (st.s1, st.s2)).1,
        s2 := (spec_cksum_acc ws i (st.s1, st.s2)).2,
        wrapped := st.wrapped } ∧
    (spec_cksum_acc ws i (st.s1, st.s2)).1 < CKSUM_P ∧
    (spec_cksum_acc ws i (st.s1, st.s2)).2 < CKSUM_P := by
  induction ws with
  | nil => intro i st _ h1 h2; exact ⟨rfl, h1, h2⟩
  | cons w rest ih =>
    intro i st hws h1 h2
    obtain ⟨hb, hb1, hb2⟩ :=
      cksum_body_eq i w st (hws w (List.mem_cons_self _ _)) h1 h2
    have hrest : ∀ x ∈ rest, x < U64 := fun x hx => hws x (List.mem_cons_of_mem _ hx)
    simp only [cksum_loop, spec_cksum_acc, hb]
    exact ih (i + 1) _ hrest hb1 hb2

theorem words_take (sb : zc_sb_v0) : sb.words.take ZC_SB_V0_NELEM = sb.words := rfl

theorem cksum_final_eq (sb : zc_sb_v0) (h : sb.wf) :
    cksum_final sb =
      { s1 := (spec_cksum_sums sb).1, s2 := (spec_cksum_sums sb).2, wrapped := false } ∧
    (spec_cksum_sums sb).1 < CKSUM_P ∧ (spec_cksum_sums sb).2 < CKSUM_P := by
  have := cksum_loop_eq sb.words 0 { s1 := 0, s2 := 0, wrapped := false } h
    CKSUM_P_pos CKSUM_P_pos
  simpa [cksum_final, words_take, spec_cksum_sums] using this

theorem shl32_or (a b : Nat) (hb : b < 2 ^ 32) : (a <<< 32) ||| b = a * 2 ^ 32 + b := by
  rw [Nat.shiftLeft_eq, Nat.mul_comm, Nat.mul_add_lt_is_or hb]

/-- C1. For every superblock of sixteen 64-bit words, `zc_sb_v0_cksum` returns
the specification's `(s2 << 32) | s1` computed over unbounded integers with
modulus P = 4294967291; no 64-bit operation of the C code wraps; and `s1`, `s2`
are both below P, so the result is `s2 * 2^32 + s1` with the halves disjoint. -/
theorem zc_sb_v0_cksum_spec (sb : zc_sb_v0) (h : sb.wf) :
    zc_sb_v0_cksum sb = spec_cksum sb ∧
    zc_sb_v0_cksum_wraps sb = false ∧
    (spec_cksum_sums sb).1 < CKSUM_P ∧ (spec_cksum_sums sb).2 < CKSUM_P ∧
    zc_sb_v0_cksum sb = (spec_cksum_sums sb).2 * 2 ^ 32 + (spec_cksum_sums sb).1 := by
  obtain ⟨hf, h1, h2⟩ := cksum_final_eq sb h
  have h1' : (spec_cksum_sums sb).1 < 2 ^ 32 := by
    simp only [CKSUM_P] at h1; omega
  have hsh : (spec_cksum_sums sb).2 <<< 32 < U64 := by
    rw [Nat.shiftLeft_eq]; simp only [CKSUM_P, U64] at *; omega
  refine ⟨?_, ?_, h1, h2, ?_⟩
  · simp only [zc_sb_v0_cksum, hf, spec_cksum, Nat.mod_eq_of_lt hsh]
  · simp only [zc_sb_v0_cksum_wraps, hf, Bool.false_or, decide_eq_false_iff_not]
    omega
  · simp only [zc_sb_v0_cksum, hf, Nat.mod_eq_of_lt hsh]
    exact shl32_or _ _ h1'

theorem zc_sb_v0_cksum_spec_witness :
    example_origin_sb.wf ∧
    zc_sb_v0_cksum example_origin_sb = spec_cksum example_origin_sb ∧
    zc_sb_v0_cksum_wraps example_origin_sb = false ∧
    (spec_cksum_sums example_origin_sb).1 < CKSUM_P ∧
    (spec_cksum_sums example_origin_sb).2 < CKSUM_P ∧
    zc_sb_v0_cksum example_origin_sb =
      (spec_cksum_sums example_origin_sb).2 * 2 ^ 32 + (spec_cksum_sums example_origin_sb).1 :=
  ⟨by decide, zc_sb_v0_cksum_spec example_origin_sb (by decide)⟩

/-! ### Validation with a null callback -/

theorem issue_rule_none (c : Bool) (msg : String) (rest : Unit → Bool × Unit) :
    (issue_rule c msg none () rest).1 = (!c && (rest ()).1) := by
  cases c <;> simp [issue_rule, issue_report]

theorem zc_block_size_check_none (bs : Nat) :
    (zc_block_size_check bs (none : Option (IssueCb Unit)) ()).1 =
      (!decide (bs < 32768) && (!decide (bs > 1073741824) && !decide (bs % 32768 ≠ 0))) := by
  simp only [zc_block_size_check, issue_rule_none, Bool.and_true]

theorem zc_block_size_is_valid_eq (block_size : Nat) :
    zc_block_size_is_valid block_size = true ↔
      (32768 ≤ block_size ∧ block_size ≤ 1073741824 ∧ 32768 ∣ block_size) := by
  rw [zc_block_size_is_valid, zc_block_size_check_none]
  simp only [Bool.and_eq_true, Bool.not_eq_true', decide_eq_false_iff_not,
    Nat.dvd_iff_mod_eq_zero]
  omega

/-- C6. `zc_block_size_is_valid` accepts exactly the sizes between 32768 and
1073741824 that are multiples of 32768; so 16384, 1073741825 and 40000 are
rejected while 32768 and 98304 are accepted. -/
theorem zc_block_size_is_valid_iff :
    (∀ block_size : Nat, zc_block_size_is_valid block_size = true ↔
      (32768 ≤ block_size ∧ block_size ≤ 1073741824 ∧ 32768 ∣ block_size)) ∧
    zc_block_size_is_valid 16384 = false ∧
    zc_block_size_is_valid 1073741825 = false ∧
    zc_block_size_is_valid 40000 = false ∧
    zc_block_size_is_valid 32768 = true ∧
    zc_block_size_is_valid 98304 = true :=
  ⟨zc_block_size_is_valid_eq, by decide, by decide, by decide, by decide, by decide⟩

theorem zc_sb_v0_origin_dev_check_none (sb : zc_sb_v0) :
    (zc_sb_v0_origin_dev_check sb (none : Option (IssueCb Unit)) ()).1 = true ↔
      (sb.o_offset ≠ 0 ∧ sb.o_size ≠ 0 ∧ sb.c_offset = 0 ∧ sb.c_size = 0 ∧
        sb.md_offset = 0 ∧ sb.md_size = 0) := by
  simp only [zc_sb_v0_origin_dev_check, issue_rule_none]
  simp

theorem zc_sb_v0_cache_dev_check_none (sb : zc_sb_v0) :
    (zc_sb_v0_cache_dev_check sb (none : Option (IssueCb Unit)) ()).1 = true ↔
      (sb.c_offset ≠ 0 ∧ sb.c_size ≠ 0 ∧ sb.o_offset = 0 ∧ sb.o_size = 0 ∧
        sb.md_offset = 0 ∧ sb.md_size = 0) := by
  simp only [zc_sb_v0_cache_dev_check, issue_rule_none]
  simp
  tauto

theorem zc_sb_v0_metadata_dev_check_none (sb : zc_sb_v0) :
    (zc_sb_v0_metadata_dev_check sb (none : Option (IssueCb Unit)) ()).1 = true ↔
      (sb.md_offset ≠ 0 ∧ sb.md_size ≠ 0 ∧ sb.o_offset = 0 ∧ sb.o_size = 0 ∧
        sb.c_offset = 0 ∧ sb.c_size = 0) := by
  simp only [zc_sb_v0_metadata_dev_check, issue_rule_none]
  simp
  tauto

theorem zc_sb_v0_combined_dev_check_none (sb : zc_sb_v0) :
    (zc_sb_v0_combined_dev_check sb (none : Option (IssueCb Unit)) ()).1 = true ↔
      (sb.o_offset = 0 ∧ sb.o_size = 0 ∧ sb.c_offset ≠ 0 ∧ sb.c_size ≠ 0 ∧
        sb.md_offset ≠ 0 ∧ sb.md_size ≠ 0) := by
  simp only [zc_sb_v0_combined_dev_check, issue_rule_none]
  simp

/-- The role dispatch at the end of `zc_sb_v0_check`, with a null callback,
succeeds exactly when the role table holds. -/
theorem role_dispatch_none (sb : zc_sb_v0) :
    (if sb.type = ZC_SB_TYPE_ORIGIN then
        zc_sb_v0_origin_dev_check sb (none : Option (IssueCb Unit)) ()
      else if sb.type = ZC_SB_TYPE_CACHE then zc_sb_v0_cache_dev_check sb none ()
      else if sb.type = ZC_SB_TYPE_METADATA then zc_sb_v0_metadata_dev_check sb none ()
      else if sb.type = ZC_SB_TYPE_COMBINED then zc_sb_v0_combined_dev_check sb none ()
      else issue_report none "Invalid device type" ()).1 = true ↔ role_table sb := by
  simp only [ZC_SB_TYPE_ORIGIN, ZC_SB_TYPE_CACHE, ZC_SB_TYPE_METADATA, ZC_SB_TYPE_COMBINED,
    role_table]
  by_cases h0 : sb.type = 0
  · simp [h0, zc_sb_v0_origin_dev_check_none]
  by_cases h1 : sb.type = 1
  · simp [h1, zc_sb_v0_cache_dev_check_none]
  by_cases h2 : sb.type = 2
  · simp [h2, zc_sb_v0_metadata_dev_check_none]
  by_cases h3 : sb.type = 3
  · simp [h3, zc_sb_v0_combined_dev_check_none]
  simp [h0, h1, h2, h3, issue_report]

theorem zc_sb_v0_is_valid_eq (sb : zc_sb_v0) :
    zc_sb_v0_is_valid sb = true ↔
      (sb.magic = 0x20DCAC8E8EACDC20 ∧ sb.cksum = zc_sb_v0_cksum sb ∧ sb.version = 0 ∧
       sb.size = 128 ∧
       (32768 ≤ sb.block_size ∧ sb.block_size ≤ 1073741824 ∧ 32768 ∣ sb.block_size) ∧
       sb.cache_mode ≤ 2 ∧ role_table sb) := by
  have hbs := zc_block_size_is_valid_eq sb.block_size
  rw [zc_block_size_is_valid] at hbs
  rw [← hbs, ← role_dispatch_none sb]
  unfold zc_sb_v0_is_valid zc_sb_v0_check
  simp only [issue_rule_none]
  rcases hb : zc_block_size_check sb.block_size (none : Option (IssueCb Unit)) () with ⟨b, u⟩
  cases u
  cases b
  · simp
  · simp only [issue_rule_none]
    simp [ZC_SB_MAGIC, ZC_SB_V0_SIZE, ZC_SB_MODE_PASSTHROUGH]

/-- C2. `zc_sb_v0_is_valid` returns true exactly when the magic, checksum,
version, declared size (128), block-size bounds and alignment, cache-mode range
and the role table all hold (any role value above 3 falsifies the role table);
in particular a record of a non-Combined role with two extent pairs set is
rejected. -/
theorem zc_sb_v0_is_valid_iff (sb : zc_sb_v0) :
    (zc_sb_v0_is_valid sb = true ↔
      (sb.magic = 0x20DCAC8E8EACDC20 ∧ sb.cksum = zc_sb_v0_cksum sb ∧ sb.version = 0 ∧
       sb.size = 128 ∧
       (32768 ≤ sb.block_size ∧ sb.block_size ≤ 1073741824 ∧ 32768 ∣ sb.block_size) ∧
       sb.cache_mode ≤ 2 ∧ role_table sb)) ∧
    (sb.type ≠ 3 → 2 ≤ extent_pairs_set sb → zc_sb_v0_is_valid sb = false) := by
  refine ⟨zc_sb_v0_is_valid_eq sb, ?_⟩
  intro h3 h2
  by_contra hv
  rw [Bool.not_eq_false] at hv
  obtain ⟨-, -, -, -, -, -, ht⟩ := (zc_sb_v0_is_valid_eq sb).1 hv
  unfold extent_pairs_set at h2
  rcases ht with ht | ht | ht | ht
  · obtain ⟨-, -, -, h4, h5, h6, h7⟩ := ht
    simp [h4, h5, h6, h7] at h2
    split at h2 <;> omega
  · obtain ⟨-, -, -, h4, h5, h6, h7⟩ := ht
    simp [h4, h5, h6, h7] at h2
    split at h2 <;> omega
  · obtain ⟨-, -, -, h4, h5, h6, h7⟩ := ht
    simp [h4, h5, h6, h7] at h2
    split at h2 <;> omega
  · exact h3 ht.1

theorem zc_sb_v0_is_valid_iff_witness :
    example_two_pairs_sb.type ≠ 3 ∧ 2 ≤ extent_pairs_set example_two_pairs_sb ∧
    zc_sb_v0_is_valid example_two_pairs_sb = false :=
  ⟨by decide, by decide,
    (zc_sb_v0_is_valid_iff example_two_pairs_sb).2 (by decide) (by decide)⟩

/-! ### Validation with an always-continue sink -/

theorem issue_rule_cont {σ : Type} (cb : IssueCb σ) (hcont : ∀ i c, (cb i c).1 = true)
    (c : Bool) (msg : String) (ctx : σ) (rest : σ → Bool × σ) :
    issue_rule c msg (some cb) ctx rest =
      rest ((opt_issue c msg).foldl (deliver cb) ctx) := by
  cases c
  · simp [issue_rule, opt_issue]
  · have h := hcont msg ctx
    rcases hcb : cb msg ctx with ⟨b, ctx1⟩
    rw [hcb] at h
    simp only at h
    subst h
    simp [issue_rule, issue_report, opt_issue, deliver, hcb]

theorem zc_block_size_check_cont {σ : Type} (cb : IssueCb σ)
    (hcont : ∀ i c, (cb i c).1 = true) (bs : Nat) (ctx : σ) :
    zc_block_size_check bs (some cb) ctx =
      (true, (block_size_issue_list bs).foldl (deliver cb) ctx) := by
  simp only [zc_block_size_check, issue_rule_cont cb hcont, block_size_issue_list,
    List.foldl_append]

theorem zc_sb_v0_origin_dev_check_cont {σ : Type} (cb : IssueCb σ)
    (hcont : ∀ i c, (cb i c).1 = true) (sb : zc_sb_v0) (ctx : σ) :
    zc_sb_v0_origin_dev_check sb (some cb) ctx =
      (true, (origin_issue_list sb).foldl (deliver cb) ctx) := by
  simp only [zc_sb_v0_origin_dev_check, issue_rule_cont cb hcont, origin_issue_list,
    List.foldl_append]

theorem zc_sb_v0_cache_dev_check_cont {σ : Type} (cb : IssueCb σ)
    (hcont : ∀ i c, (cb i c).1 = true) (sb : zc_sb_v0) (ctx : σ) :
    zc_sb_v0_cache_dev_check sb (some cb) ctx =
      (true, (cache_issue_list sb).foldl (deliver cb) ctx) := by
  simp only [zc_sb_v0_cache_dev_check, issue_rule_cont cb hcont, cache_issue_list,
    List.foldl_append]

theorem zc_sb_v0_metadata_dev_check_cont {σ : Type} (cb : IssueCb σ)
    (hcont : ∀ i c, (cb i c).1 = true) (sb : zc_sb_v0) (ctx : σ) :
    zc_sb_v0_metadata_dev_check sb (some cb) ctx =
      (true, (metadata_issue_list sb).foldl (deliver cb) ctx) := by
  simp only [zc_sb_v0_metadata_dev_check, issue_rule_cont cb hcont, metadata_issue_list,
    List.foldl_append]

theorem zc_sb_v0_combined_dev_check_cont {σ : Type} (cb : IssueCb σ)
    (hcont : ∀ i c, (cb i c).1 = true) (sb : zc_sb_v0) (ctx : σ) :
    zc_sb_v0_combined_dev_check sb (some cb) ctx =
      (true, (combined_issue_list sb).foldl (deliver cb) ctx) := by
  simp only [zc_sb_v0_combined_dev_check, issue_rule_cont cb hcont, combined_issue_list,
    List.foldl_append]

/-- Run with any always-continue callback, `zc_sb_v0_check` returns true after
delivering exactly `check_issue_list`, in order. -/
theorem zc_sb_v0_check_cont {σ : Type} (cb : IssueCb σ)
    (hcont : ∀ i c, (cb i c).1 = true) (sb : zc_sb_v0) (ctx : σ) :
    zc_sb_v0_check sb (some cb) ctx =
      (true, (check_issue_list sb).foldl (deliver cb) ctx) := by
  have hrole : ∀ ctx1 : σ,
      (if sb.type = ZC_SB_TYPE_ORIGIN then zc_sb_v0_origin_dev_check sb (some cb) ctx1
       else if sb.type = ZC_SB_TYPE_CACHE then zc_sb_v0_cache_dev_check sb (some cb) ctx1
       else if sb.type = ZC_SB_TYPE_METADATA then
         zc_sb_v0_metadata_dev_check sb (some cb) ctx1
       else if sb.type = ZC_SB_TYPE_COMBINED then
         zc_sb_v0_combined_dev_check sb (some cb) ctx1
       else issue_report (some cb) "Invalid device type" ctx1) =
      (true, (role_issue_list sb).foldl (deliver cb) ctx1) := by
    intro ctx1
    unfold role_issue_list
    split
    · exact zc_sb_v0_origin_dev_check_cont cb hcont sb ctx1
    split
    · exact zc_sb_v0_cache_dev_check_cont cb hcont sb ctx1
    split
    · exact zc_sb_v0_metadata_dev_check_cont cb hcont sb ctx1
    split
    · exact zc_sb_v0_combined_dev_check_cont cb hcont sb ctx1
    · have h := hcont "Invalid device type" ctx1
      rcases hcb : cb "Invalid device type" ctx1 with ⟨b, ctx2⟩
      rw [hcb] at h
      simp only at h
      subst h
      simp [issue_report, deliver, hcb]
  unfold zc_sb_v0_check
  simp only [issue_rule_cont cb hcont, zc_block_size_check_cont cb hcont, hrole,
    check_issue_list, List.foldl_append]

theorem foldl_deliver_sb_check_cb (issues shown : List String) :
    issues.foldl (deliver sb_check_cb) shown = shown ++ issues := by
  induction issues generalizing shown with
  | nil => simp
  | cons i rest ih => simp [List.foldl_cons, ih, deliver, sb_check_cb]

theorem sb_check_cb_continues : ∀ (i : String) (c : List String), (sb_check_cb i c).1 = true :=
  fun _ _ => rfl

theorem map_filter_cons_opt (p : Rule → Bool) (f : Rule → String) (a : Rule)
    (l : List Rule) :
    ((a :: l).filter p).map f = opt_issue (p a) (f a) ++ (l.filter p).map f := by
  cases h : p a <;> simp [List.filter_cons, h, opt_issue]

/-- The expected issue list, rule by rule. -/
theorem violated_rules_text (sb : zc_sb_v0) :
    (violated_rules sb).map (Rule.text sb.type) =
      opt_issue (Rule.violated sb .magic) (Rule.text sb.type .magic) ++
      (opt_issue (Rule.violated sb .checksum) (Rule.text sb.type .checksum) ++
      (opt_issue (Rule.violated sb .version) (Rule.text sb.type .version) ++
      (opt_issue (Rule.violated sb .declaredSize) (Rule.text sb.type .declaredSize) ++
      (opt_issue (Rule.violated sb .blockTooSmall) (Rule.text sb.type .blockTooSmall) ++
      (opt_issue (Rule.violated sb .blockTooLarge) (Rule.text sb.type .blockTooLarge) ++
      (opt_issue (Rule.violated sb .blockNotMultiple)
        (Rule.text sb.type .blockNotMultiple) ++
      (opt_issue (Rule.violated sb .cacheMode) (Rule.text sb.type .cacheMode) ++
      (opt_issue (Rule.violated sb .originOffset) (Rule.text sb.type .originOffset) ++
      (opt_issue (Rule.violated sb .originSize) (Rule.text sb.type .originSize) ++
      (opt_issue (Rule.violated sb .cacheOffset) (Rule.text sb.type .cacheOffset) ++
      (opt_issue (Rule.violated sb .cacheSize) (Rule.text sb.type .cacheSize) ++
      (opt_issue (Rule.violated sb .metadataOffset) (Rule.text sb.type .metadataOffset) ++
      (opt_issue (Rule.violated sb .metadataSize) (Rule.text sb.type .metadataSize) ++
      opt_issue (Rule.violated sb .unknownRole)
        (Rule.text sb.type .unknownRole)))))))))))))) := by
  simp only [violated_rules, Rule.all, map_filter_cons_opt, List.filter_nil, List.map_nil,
    List.append_nil]

/-- What the code raises is what the rule table predicts. -/
theorem check_issue_list_eq (sb : zc_sb_v0) :
    check_issue_list sb = (violated_rules sb).map (Rule.text sb.type) := by
  rw [violated_rules_text]
  unfold check_issue_list block_size_issue_list role_issue_list
  simp only [List.append_assoc, ZC_SB_TYPE_ORIGIN, ZC_SB_TYPE_CACHE, ZC_SB_TYPE_METADATA,
    ZC_SB_TYPE_COMBINED]
  have hdvd : decide (sb.block_size % 32768 ≠ 0) = decide (¬ (32768 ∣ sb.block_size)) := by
    simp [Nat.dvd_iff_mod_eq_zero]
  by_cases h0 : sb.type = 0
  · simp [h0, origin_issue_list, Rule.violated, Rule.text,
      Rule.must_be_set, ZC_SB_MAGIC, ZC_SB_V0_SIZE, ZC_SB_MODE_PASSTHROUGH, opt_issue, hdvd]
  by_cases h1 : sb.type = 1
  · simp [h1, cache_issue_list, Rule.violated, Rule.text,
      Rule.must_be_set, ZC_SB_MAGIC, ZC_SB_V0_SIZE, ZC_SB_MODE_PASSTHROUGH, opt_issue, hdvd]
  by_cases h2 : sb.type = 2
  · simp [h2, metadata_issue_list, Rule.violated, Rule.text,
      Rule.must_be_set, ZC_SB_MAGIC, ZC_SB_V0_SIZE, ZC_SB_MODE_PASSTHROUGH, opt_issue, hdvd]
  by_cases h3 : sb.type = 3
  · simp [h3, combined_issue_list, Rule.violated, Rule.text,
      Rule.must_be_set, ZC_SB_MAGIC, ZC_SB_V0_SIZE, ZC_SB_MODE_PASSTHROUGH, opt_issue, hdvd]
  have hgt : 3 < sb.type := by omega
  have hle : ¬ sb.type ≤ 3 := by omega
  simp [h0, h1, h2, h3, hgt, hle, Rule.violated, Rule.text,
    Rule.must_be_set, ZC_SB_MAGIC, ZC_SB_V0_SIZE, ZC_SB_MODE_PASSTHROUGH, opt_issue, hdvd]

theorem zc_sb_v0_issues_eq (sb : zc_sb_v0) :
    zc_sb_v0_issues sb = (violated_rules sb).map (Rule.text sb.type) := by
  rw [zc_sb_v0_issues, zc_sb_v0_check_cont sb_check_cb sb_check_cb_continues,
    foldl_deliver_sb_check_cb, check_issue_list_eq]
  simp

theorem rule_text_nodup (role : Nat) : (Rule.all.map (Rule.text role)).Nodup := by
  by_cases h0 : role = 0
  · subst h0; decide
  by_cases h1 : role = 1
  · subst h1; decide
  by_cases h2 : role = 2
  · subst h2; decide
  simp only [Rule.all, List.map, Rule.text, h0, h1, h2, if_false]
  decide

/-- C3. Run with a sink that always signals continue, `zc_sb_v0_check` delivers
to it exactly the issues of the violated rules, one each and no others, in
rule-evaluation order (magic, checksum, version, declared size, block size too
small, too large, not a multiple, cache mode, then the six extent rules of the
role or the single unknown-role issue), and returns true.  The recording sink
of `zcdump` therefore ends with exactly that list; the issue texts of distinct
rules are distinct, so a record violating N rules yields exactly N issues. -/
theorem zc_sb_v0_check_reports_all {σ : Type} (sb : zc_sb_v0) (cb : IssueCb σ) (ctx : σ)
    (hcont : ∀ i c, (cb i c).1 = true) :
    zc_sb_v0_check sb (some cb) ctx =
      (true, ((violated_rules sb).map (Rule.text sb.type)).foldl (deliver cb) ctx) ∧
    (zc_sb_v0_check sb (some sb_check_cb) []).2 =
      (violated_rules sb).map (Rule.text sb.type) ∧
    (Rule.all.map (Rule.text sb.type)).Nodup ∧
    (violated_rules sb).Sublist Rule.all ∧
    ((zc_sb_v0_check sb (some sb_check_cb) []).2).length =
      (Rule.all.filter (Rule.violated sb)).length :=
  ⟨by rw [zc_sb_v0_check_cont cb hcont, check_issue_list_eq],
    zc_sb_v0_issues_eq sb, rule_text_nodup sb.type, List.filter_sublist _,
    by rw [show (zc_sb_v0_check sb (some sb_check_cb) []).2 = zc_sb_v0_issues sb from rfl,
      zc_sb_v0_issues_eq, List.length_map, violated_rules]⟩

theorem zc_sb_v0_check_reports_all_witness :
    (∀ i c, (sb_check_cb i c).1 = true) ∧
    zc_sb_v0_check example_two_pairs_sb (some sb_check_cb) [] =
      (true, ["Non-zero cache offset for origin device",
              "Non-zero cache size for origin device"]) :=
  ⟨sb_check_cb_continues,
    (zc_sb_v0_check_reports_all example_two_pairs_sb sb_check_cb [] sb_check_cb_continues).1.trans
      (by decide)⟩

/-! ### Byte order -/

theorem of_le_bytes_le_bytes (w : Nat) (h : w < U64) : of_le_bytes (le_bytes w) = w := by
  simp only [le_bytes, of_le_bytes, U64] at *
  omega

theorem le_bytes_of_le_bytes (b0 b1 b2 b3 b4 b5 b6 b7 : Nat)
    (h0 : b0 < 256) (h1 : b1 < 256) (h2 : b2 < 256) (h3 : b3 < 256)
    (h4 : b4 < 256) (h5 : b5 < 256) (h6 : b6 < 256) (h7 : b7 < 256) :
    le_bytes (of_le_bytes [b0, b1, b2, b3, b4, b5, b6, b7]) =
      [b0, b1, b2, b3, b4, b5, b6, b7] := by
  simp only [le_bytes, of_le_bytes]
  simp only [List.cons.injEq, and_true]
  refine ⟨?_, ?_, ?_, ?_, ?_, ?_, ?_, ?_⟩ <;> omega

theorem le_bytes_bswap_64 (w : Nat) : le_bytes (bswap_64 w) = (le_bytes w).reverse := by
  have hm : ∀ x : Nat, x % 256 < 256 := fun x => Nat.mod_lt _ (by decide)
  simp only [bswap_64, le_bytes, List.reverse_cons, List.reverse_nil, List.nil_append,
    List.cons_append]
  exact le_bytes_of_le_bytes _ _ _ _ _ _ _ _ (hm _) (hm _) (hm _) (hm _) (hm _) (hm _)
    (hm _) (hm _)

theorem bswap_64_bswap_64 (w : Nat) (h : w < U64) : bswap_64 (bswap_64 w) = w := by
  rw [bswap_64, le_bytes_bswap_64, List.reverse_reverse, of_le_bytes_le_bytes w h]

theorem words_ofWords_map (sb : zc_sb_v0) (f : Nat → Nat) :
    (zc_sb_v0.ofWords (sb.words.map f)).words = sb.words.map f := rfl

theorem ofWords_words (sb : zc_sb_v0) : zc_sb_v0.ofWords sb.words = sb := rfl

theorem store64_bswap_64 (big_endian : Bool) (w : Nat) :
    store64 big_endian (if big_endian then bswap_64 w else w) = le_bytes w := by
  cases big_endian
  · simp [store64]
  · simp [store64, le_bytes_bswap_64]

/-- The buffer `zc_sb_v0_write` hands to `write(2)` holds the little-endian
bytes of the sixteen words, whatever the host byte order. -/
theorem write_buffer_eq (big_endian : Bool) (sb : zc_sb_v0) :
    (zc_sb_v0_byteswap big_endian sb).mem big_endian = sb.words.flatMap le_bytes := by
  cases big_endian
  · have hf : store64 false = le_bytes := funext fun w => store64_bswap_64 false w
    simp [zc_sb_v0_byteswap, zc_sb_v0.mem, hf]
  · have hf : (fun w => store64 true (bswap_64 w)) = le_bytes :=
      funext fun w => store64_bswap_64 true w
    simp only [zc_sb_v0_byteswap, if_true, zc_sb_v0.mem, words_take, words_ofWords_map,
      List.flatMap_map, hf]

theorem load64_le_bytes (big_endian : Bool) (w : Nat) (h : w < U64) :
    load64 big_endian (le_bytes w) = if big_endian then bswap_64 w else w := by
  cases big_endian
  · simp [load64, of_le_bytes_le_bytes w h]
  · simp [load64, bswap_64]

theorem chunks8_flatMap_le_bytes (ws : List Nat) :
    chunks8 ws.length (ws.flatMap le_bytes) = ws.map le_bytes := by
  induction ws with
  | nil => rfl
  | cons w rest ih =>
    have ht : (le_bytes w ++ rest.flatMap le_bytes).take 8 = le_bytes w := by
      simp [le_bytes]
    have hd : (le_bytes w ++ rest.flatMap le_bytes).drop 8 = rest.flatMap le_bytes := by
      simp [le_bytes]
    simp only [List.length_cons, List.flatMap_cons, chunks8, List.map_cons, ht, hd, ih]

theorem words_length (sb : zc_sb_v0) : sb.words.length = ZC_SB_V0_NELEM := by
  simp [zc_sb_v0.words, ZC_SB_V0_NELEM, ZC_SB_V0_SIZE]

theorem ofMem_flatMap_le_bytes (big_endian : Bool) (sb : zc_sb_v0) :
    zc_sb_v0.ofMem big_endian (sb.words.flatMap le_bytes) =
      zc_sb_v0.ofWords (sb.words.map fun w => load64 big_endian (le_bytes w)) := by
  rw [zc_sb_v0.ofMem, ← words_length sb, chunks8_flatMap_le_bytes, List.map_map]
  rfl

theorem byteswap_byteswap (big_endian : Bool) (sb : zc_sb_v0) (h : sb.wf) :
    zc_sb_v0_byteswap big_endian (zc_sb_v0_byteswap big_endian sb) = sb := by
  cases big_endian
  · simp [zc_sb_v0_byteswap]
  · simp only [zc_sb_v0_byteswap, if_true, words_take]
    simp only [words_ofWords_map, List.map_map]
    have : sb.words.map (bswap_64 ∘ bswap_64) = sb.words := by
      conv_rhs => rw [← List.map_id sb.words]
      apply List.map_congr_left
      intro w hw
      exact bswap_64_bswap_64 w (h w hw)
    rw [this, ofWords_words]

/-- Decoding the little-endian image of a well-formed record on any host gives
the record back. -/
theorem read_le_image (big_endian : Bool) (sb : zc_sb_v0) (h : sb.wf) :
    zc_sb_v0_byteswap big_endian (zc_sb_v0.ofMem big_endian (sb.words.flatMap le_bytes)) =
      sb := by
  rw [ofMem_flatMap_le_bytes]
  have hl : (sb.words.map fun w => load64 big_endian (le_bytes w)) =
      sb.words.map fun w => if big_endian then bswap_64 w else w := by
    apply List.map_congr_left
    intro w hw
    exact load64_le_bytes big_endian w (h w hw)
  rw [hl]
  cases big_endian
  · simp [zc_sb_v0_byteswap, ofWords_words]
  · have := byteswap_byteswap true sb h
    simpa [zc_sb_v0_byteswap, words_take] using this

/-- C4. Round trip: for every record of 64-bit fields (in particular every valid
one), a full-size `zc_sb_v0_read` of the 128 bytes that `zc_sb_v0_write` handed
to the write call succeeds and returns a record equal to the original, field
for field; this holds on a little-endian host, on a big-endian host, and also
when the writing and the reading host differ in byte order.  The write leaves
the in-memory record unchanged. -/
theorem zc_sb_v0_read_write_roundtrip (writer_big_endian reader_big_endian : Bool)
    (sys_write : List Nat → Int) (r : zc_sb_v0) (h : r.wf) :
    zc_sb_v0_read reader_big_endian 128
        (zc_sb_v0_write writer_big_endian sys_write r).written = (0, r) ∧
    (zc_sb_v0_write writer_big_endian sys_write r).sb = r := by
  refine ⟨?_, ?_⟩
  · simp only [zc_sb_v0_write, write_buffer_eq, zc_sb_v0_read, ZC_SB_V0_SIZE]
    simp [read_le_image reader_big_endian r h]
  · simp only [zc_sb_v0_write]
    exact byteswap_byteswap writer_big_endian r h

theorem zc_sb_v0_read_write_roundtrip_witness :
    example_origin_sb.wf ∧
    zc_sb_v0_read true 128
        (zc_sb_v0_write false (fun _ => 128) example_origin_sb).written =
      (0, example_origin_sb) ∧
    (zc_sb_v0_write false (fun _ => 128) example_origin_sb).sb = example_origin_sb :=
  ⟨by decide,
    zc_sb_v0_read_write_roundtrip false true (fun _ => 128) example_origin_sb (by decide)⟩

/-! ### Checksum sensitivity -/

theorem zc_sb_v0_cksum_low (sb : zc_sb_v0) (h : sb.wf) :
    zc_sb_v0_cksum sb % 2 ^ 32 = (spec_cksum_sums sb).1 := by
  obtain ⟨hf, h1, h2⟩ := cksum_final_eq sb h
  have h1' : (spec_cksum_sums sb).1 < 2 ^ 32 := by
    simp only [CKSUM_P] at h1; omega
  have hsh : (spec_cksum_sums sb).2 <<< 32 < U64 := by
    rw [Nat.shiftLeft_eq]; simp only [CKSUM_P, U64] at *; omega
  simp only [zc_sb_v0_cksum, hf, Nat.mod_eq_of_lt hsh]
  rw [shl32_or _ _ h1']
  omega

/-- The first accumulator of the specification is the sum of all 32-bit halves
outside the checksum word, reduced modulo P. -/
theorem spec_cksum_acc_fst (ws : List Nat) : ∀ (i : Nat) (s : Nat × Nat),
    (spec_cksum_acc ws i s).1 % CKSUM_P = (s.1 + half_sum ws i) % CKSUM_P := by
  induction ws with
  | nil => intro i s; simp [spec_cksum_acc, half_sum]
  | cons w rest ih =>
    intro i s
    simp only [spec_cksum_acc, half_sum]
    rw [ih]
    by_cases hi : i = 1
    · simp [spec_cksum_word, half_sum_word, hi]
    · simp only [spec_cksum_word, half_sum_word, hi, if_false]
      simp only [CKSUM_P]
      omega

theorem spec_cksum_sums_fst (sb : zc_sb_v0) (h : sb.wf) :
    (spec_cksum_sums sb).1 = half_sum sb.words 0 % CKSUM_P := by
  obtain ⟨-, h1, -⟩ := cksum_final_eq sb h
  have := spec_cksum_acc_fst sb.words 0 (0, 0)
  rw [← spec_cksum_sums, Nat.mod_eq_of_lt h1] at this
  simpa using this

theorem xor_two_pow_cases (b : Nat) : ∀ w : Nat,
    ((w / 2 ^ b) % 2 = 0 ∧ w ^^^ 2 ^ b = w + 2 ^ b) ∨
    ((w / 2 ^ b) % 2 = 1 ∧ (w ^^^ 2 ^ b) + 2 ^ b = w) := by
  induction b with
  | zero =>
    intro w
    have hd : (w ^^^ 1) / 2 = w / 2 := by
      rw [Nat.xor_div_two]; simp
    have hm := @Nat.xor_mod_two_eq_one w 1
    simp only [pow_zero, Nat.div_one]
    rcases Nat.mod_two_eq_zero_or_one w with h0 | h1
    · left
      have : (w ^^^ 1) % 2 = 1 := by rw [hm]; simp [h0]
      omega
    · right
      have : ¬ (w ^^^ 1) % 2 = 1 := by rw [hm]; simp [h1]
      omega
  | succ b ih =>
    intro w
    have hp : 2 ^ (b + 1) = 2 * 2 ^ b := by rw [pow_succ]; ring
    have hd : (w ^^^ 2 ^ (b + 1)) / 2 = w / 2 ^^^ 2 ^ b := by
      rw [Nat.xor_div_two, hp]; simp
    have hm := @Nat.xor_mod_two_eq_one w (2 ^ (b + 1))
    have hpm : 2 ^ (b + 1) % 2 = 0 := by rw [hp]; omega
    have hdd : w / 2 ^ (b + 1) = w / 2 / 2 ^ b := by
      rw [hp, Nat.div_div_eq_div_mul]
    rw [hdd]
    have hx : (w ^^^ 2 ^ (b + 1)) % 2 = w % 2 := by
      rcases Nat.mod_two_eq_zero_or_one w with h0 | h1
      · have : ¬ (w ^^^ 2 ^ (b + 1)) % 2 = 1 := by rw [hm]; simp [h0, hpm]
        omega
      · have : (w ^^^ 2 ^ (b + 1)) % 2 = 1 := by rw [hm]; simp [h1, hpm]
        omega
    rcases ih (w / 2) with ⟨h0, he⟩ | ⟨h1, he⟩
    · left
      refine ⟨h0, ?_⟩
      rw [he] at hd
      generalize w ^^^ 2 ^ (b + 1) = x at hd hx
      omega
    · right
      refine ⟨h1, ?_⟩
      generalize w / 2 ^^^ 2 ^ b = y at hd he
      generalize w ^^^ 2 ^ (b + 1) = x at hd hx
      omega

theorem half_flip (w b : Nat) (hw : w < 2 ^ 64) (hb : b < 64) :
    w ^^^ 2 ^ b < 2 ^ 64 ∧
    ∃ d, 0 < d ∧ d ≤ 2 ^ 31 ∧
      (((w ^^^ 2 ^ b) % 2 ^ 32 + (w ^^^ 2 ^ b) / 2 ^ 32 = w % 2 ^ 32 + w / 2 ^ 32 + d) ∨
       ((w ^^^ 2 ^ b) % 2 ^ 32 + (w ^^^ 2 ^ b) / 2 ^ 32 + d = w % 2 ^ 32 + w / 2 ^ 32)) := by
  have hx := xor_two_pow_cases b w
  generalize w ^^^ 2 ^ b = x at hx ⊢
  refine ⟨?_, 2 ^ (b % 32), Nat.pow_pos (by decide),
    Nat.pow_le_pow_right (by decide) (by omega), ?_⟩
  · interval_cases b <;> omega
  · interval_cases b <;> simp only [Nat.reduceMod, Nat.reducePow] at hx ⊢ <;> omega

theorem half_sum_set (ws : List Nat) : ∀ (i k v : Nat), i < ws.length →
    half_sum (ws.set i v) k + half_sum_word (k + i) (ws.getD i 0) =
      half_sum ws k + half_sum_word (k + i) v := by
  induction ws with
  | nil => intro i k v h; simp at h
  | cons w rest ih =>
    intro i k v h
    cases i with
    | zero => simp [half_sum]; omega
    | succ j =>
      have hj : j < rest.length := by simpa using h
      have := ih j (k + 1) v hj
      have e : k + (j + 1) = k + 1 + j := by omega
      simp only [List.set_cons_succ, half_sum, List.getD_cons_succ, e]
      omega

theorem words_ofWords (a : List Nat) (h : a.length = 16) :
    (zc_sb_v0.ofWords a).words = a := by
  apply List.ext_getElem
  · simp [zc_sb_v0.words, h]
  · intro n h1 h2
    have hn : n < 16 := by simpa [zc_sb_v0.words] using h1
    interval_cases n <;>
      simp [zc_sb_v0.words, zc_sb_v0.ofWords, List.getD_eq_getElem?_getD,
        List.getElem?_eq_getElem h2]

theorem flip_bit_words (sb : zc_sb_v0) (i b : Nat) :
    (flip_bit sb i b).words = sb.words.set i (sb.words.getD i 0 ^^^ 2 ^ b) := by
  rw [flip_bit, words_ofWords]
  simp [zc_sb_v0.words]

theorem flip_bit_wf (sb : zc_sb_v0) (h : sb.wf) (i b : Nat) (hi : i < 16) (hb : b < 64) :
    (flip_bit sb i b).wf := by
  intro w hw
  rw [flip_bit_words] at hw
  rcases List.mem_or_eq_of_mem_set hw with hm | he
  · exact h w hm
  · have hmem : sb.words.getD i 0 ∈ sb.words := by
      have hl : i < sb.words.length := by simpa [zc_sb_v0.words] using hi
      rw [List.getD_eq_getElem _ _ hl]
      exact List.getElem_mem hl
    rw [he]
    exact (half_flip _ b (h _ hmem) hb).1

/-- C5. Checksum sensitivity: flipping any single bit (position 0..63) of any
word other than the checksum word changes `zc_sb_v0_cksum`. -/
theorem zc_sb_v0_cksum_sensitive (sb : zc_sb_v0) (h : sb.wf) (i b : Nat) (hi : i < 16)
    (hck : i ≠ 1) (hb : b < 64) :
    zc_sb_v0_cksum (flip_bit sb i b) ≠ zc_sb_v0_cksum sb := by
  intro heq
  have hwf := flip_bit_wf sb h i b hi hb
  have e1 := zc_sb_v0_cksum_low sb h
  have e2 := zc_sb_v0_cksum_low _ hwf
  rw [spec_cksum_sums_fst _ h] at e1
  rw [spec_cksum_sums_fst _ hwf, flip_bit_words, heq, e1] at e2
  clear e1 heq
  have hl : i < sb.words.length := by simpa [zc_sb_v0.words] using hi
  have hs := half_sum_set sb.words i 0 (sb.words.getD i 0 ^^^ 2 ^ b) hl
  have hmem : sb.words.getD i 0 ∈ sb.words := by
    rw [List.getD_eq_getElem _ _ hl]
    exact List.getElem_mem hl
  obtain ⟨-, d, hd0, hd1, hd⟩ := half_flip _ b (h _ hmem) hb
  simp only [half_sum_word, Nat.zero_add, hck, if_false] at hs
  simp only [CKSUM_P] at e2
  generalize half_sum (sb.words.set i (sb.words.getD i 0 ^^^ 2 ^ b)) 0 = A' at hs e2
  generalize half_sum sb.words 0 = A at hs e2
  omega

theorem zc_sb_v0_cksum_sensitive_witness :
    example_origin_sb.wf ∧ 5 < 16 ∧ 5 ≠ 1 ∧ 40 < 64 ∧
    zc_sb_v0_cksum (flip_bit example_origin_sb 5 40) ≠ zc_sb_v0_cksum example_origin_sb :=
  ⟨by decide, by decide, by decide, by decide,
    zc_sb_v0_cksum_sensitive example_origin_sb (by decide) 5 40 (by decide) (by decide)
      (by decide)⟩

/-! ### Block-size parsing -/

theorem digit_toNat (c : Char) (h : is_decimal_digit c = true) :
    48 ≤ c.toNat ∧ c.toNat ≤ 57 := by
  simp only [is_decimal_digit, decide_eq_true_eq] at h
  obtain ⟨h1, h2⟩ := h
  rw [Char.le_def] at h1 h2
  exact ⟨h1, h2⟩

theorem digit_ne (c x : Char) (h : is_decimal_digit c = true)
    (hx : x.toNat < 48 ∨ 57 < x.toNat) : c ≠ x := by
  rintro rfl
  have := digit_toNat _ h
  omega

theorem digit_not_space (c : Char) (h : is_decimal_digit c = true) : isspace c = false := by
  have h1 := digit_ne c ' ' h (by decide)
  have h2 := digit_ne c '\t' h (by decide)
  have h3 := digit_ne c '\n' h (by decide)
  have h4 := digit_ne c (Char.ofNat 11) h (by decide)
  have h5 := digit_ne c (Char.ofNat 12) h (by decide)
  have h6 := digit_ne c '\r' h (by decide)
  simp [isspace, h1, h2, h3, h4, h5, h6]

theorem digit_value_decimal (c : Char) (h : is_decimal_digit c = true) :
    digit_value c = some (c.toNat - 48) := by
  simp only [is_decimal_digit, decide_eq_true_eq] at h
  simp [digit_value, h]

/-- On a run of decimal digits followed by something the digit loop rejects,
the base-10 digit loop of `strtol` consumes exactly the run and accumulates its
decimal value. -/
theorem strtol_digits_decimal (suf : List Char)
    (hsuf : ∀ a m, strtol_digits 10 suf a m = (a, m)) (ds : List Char) :
    ∀ (acc n : Nat), (∀ c ∈ ds, is_decimal_digit c = true) →
    strtol_digits 10 (ds ++ suf) acc n =
      (ds.foldl (fun acc c => acc * 10 + (c.toNat - 48)) acc, n + ds.length) := by
  induction ds with
  | nil => intro acc n _; simpa using hsuf acc n
  | cons d ds ih =>
    intro acc n hd
    have hdd := hd d (List.mem_cons_self _ _)
    have hlt : d.toNat - 48 < 10 := by have := digit_toNat d hdd; omega
    have e : strtol_digits 10 (d :: (ds ++ suf)) acc n =
        strtol_digits 10 (ds ++ suf) (acc * 10 + (d.toNat - 48)) (n + 1) := by
      simp only [strtol_digits, digit_value_decimal d hdd, hlt, if_true]
    rw [List.cons_append, e, ih _ _ (fun c hc => hd c (List.mem_cons_of_mem _ hc))]
    simp only [List.foldl_cons, List.length_cons]
    congr 1
    omega

/-- `strtol(s, &p, 0)` on a token that starts with a non-empty run of decimal
digits without a leading `0`, representable as a `long`, followed by something
the digit loop rejects: the value is the decimal value and `p` points just
after the digits. -/
theorem strtol0_decimal (digits suf : List Char)
    (hsuf : ∀ a m, strtol_digits 10 suf a m = (a, m))
    (hne : digits ≠ []) (hd : ∀ c ∈ digits, is_decimal_digit c = true)
    (h0 : digits.head? ≠ some '0') (hn : (decimal_value digits : Int) ≤ LONG_MAX) :
    strtol0 (digits ++ suf) =
      { value := (decimal_value digits : Int), endptr := digits.length, erange := false } := by
  obtain ⟨d, ds, rfl⟩ := List.exists_cons_of_ne_nil hne
  have hdd := hd d (List.mem_cons_self _ _)
  have hsp := digit_not_space d hdd
  have hminus := digit_ne d '-' hdd (by decide)
  have hplus := digit_ne d '+' hdd (by decide)
  have hz : d ≠ '0' := by simpa using h0
  have hdig := strtol_digits_decimal suf hsuf (d :: ds) 0 0 hd
  simp only [List.cons_append] at hdig
  have hgt : ¬ (decimal_value (d :: ds) : Int) > LONG_MAX := by omega
  simp [strtol0, hsp, hminus, hplus, hz, hdig, decimal_value] at hgt ⊢
  exact hgt

theorem issue_rule_parse_cb (c : Bool) (msg : String) (p : String)
    (rest : String → Bool × String) :
    issue_rule c msg (some zc_block_size_parse_cb) p rest =
      if c then (false, msg) else rest p := by
  cases c <;> simp [issue_rule, issue_report, zc_block_size_parse_cb]

theorem zc_block_size_check_parse_cb (bs : Nat) (p : String) :
    (zc_block_size_check bs (some zc_block_size_parse_cb) p).1 =
      zc_block_size_is_valid bs := by
  rw [zc_block_size_is_valid, zc_block_size_check_none]
  simp only [zc_block_size_check, issue_rule_parse_cb]
  by_cases h1 : bs < 32768 <;> by_cases h2 : bs > 1073741824 <;>
    by_cases h3 : bs % 32768 ≠ 0 <;> simp [h1, h2, h3]

/-- The tail of `zc_block_size_parse` once `strtol` has produced the
non-negative value `n` and the unit has been selected. -/
theorem zc_block_size_parse_tail (digits suffix : List Char) (unit : Nat)
    (hsuf : ∀ a m, strtol_digits 10 suffix a m = (a, m))
    (hunit : block_size_unit (suffix.getD 0 (Char.ofNat 0)) = some (unit : Int))
    (hend : unit ≠ 1 → suffix.getD 1 (Char.ofNat 0) = Char.ofNat 0)
    (hne : digits ≠ []) (hd : ∀ c ∈ digits, is_decimal_digit c = true)
    (h0 : digits.head? ≠ some '0') (hn : (decimal_value digits : Int) ≤ LONG_MAX) :
    ∃ p0 : String, zc_block_size_parse (digits ++ suffix) =
      if (decimal_value digits : Int) ≥ LONG_MAX / (unit : Int) then
        { ret := -1, stored := none,
          err := some ("Invalid block size: " ++ String.mk (digits ++ suffix) ++ ": " ++
            "Block size larger than 1 GiB (1073741824 bytes)" ++ "\n"),
          product := none }
      else
        match zc_block_size_check (decimal_value digits * unit)
            (some zc_block_size_parse_cb) p0 with
        | (false, p) =>
          { ret := -1, stored := none,
            err := some ("Invalid block size: " ++ String.mk (digits ++ suffix) ++ ": " ++
              p ++ "\n"),
            product := some ((decimal_value digits : Int) * unit) }
        | (true, _) =>
          { ret := 0, stored := some (decimal_value digits * unit), err := none,
            product := some ((decimal_value digits : Int) * unit) } := by
  have hst := strtol0_decimal digits suffix hsuf hne hd h0 hn
  have hlen : digits.length ≠ 0 := by simpa using hne
  have hnn : ¬ (decimal_value digits : Int) < 0 := by omega
  have hg0 : (digits ++ suffix).getD digits.length (Char.ofNat 0) =
      suffix.getD 0 (Char.ofNat 0) := by
    simp [List.getD_eq_getElem?_getD, List.getElem?_append_right]
  have hg1 : (digits ++ suffix).getD (digits.length + 1) (Char.ofNat 0) =
      suffix.getD 1 (Char.ofNat 0) := by
    simp [List.getD_eq_getElem?_getD, List.getElem?_append_right]
  have htn : ((decimal_value digits : Int) * (unit : Int)).toNat = decimal_value digits * unit := by
    rw [← Int.natCast_mul]; rfl
  refine ⟨String.mk ((digits ++ suffix).drop
    (if (unit : Int) ≠ 1 then digits.length + 1 else digits.length)), ?_⟩
  unfold zc_block_size_parse
  simp only [hst, hlen, hnn, hg0, hg1, hunit, htn, Bool.false_eq_true, false_or,
    if_false]
  by_cases hu : unit = 1
  · subst hu; simp
  · have hu' : ¬ ((unit : Int) = 1) := by exact_mod_cast hu
    have he := hend hu
    rw [List.getD_eq_getElem?_getD] at he
    simp [hu', he]

theorem zc_block_size_parse_decimal_aux (digits suffix : List Char) (unit : Nat)
    (hne : digits ≠ []) (hd : ∀ c ∈ digits, is_decimal_digit c = true)
    (h0 : digits.head? ≠ some '0') (hn : (decimal_value digits : Int) ≤ LONG_MAX)
    (hsuf : ∀ a m, strtol_digits 10 suffix a m = (a, m))
    (hunit : block_size_unit (suffix.getD 0 (Char.ofNat 0)) = some (unit : Int))
    (hend : unit ≠ 1 → suffix.getD 1 (Char.ofNat 0) = Char.ofNat 0)
    (hu : unit = 1 ∨ unit = 1024 ∨ unit = 1048576 ∨ unit = 1073741824) :
    (zc_block_size_is_valid (decimal_value digits * unit) = true →
      (zc_block_size_parse (digits ++ suffix)).ret = 0 ∧
      (zc_block_size_parse (digits ++ suffix)).stored = some (decimal_value digits * unit)) ∧
    (zc_block_size_is_valid (decimal_value digits * unit) = false →
      (zc_block_size_parse (digits ++ suffix)).ret = -1 ∧
      (zc_block_size_parse (digits ++ suffix)).stored = none) ∧
    (∀ p, (zc_block_size_parse (digits ++ suffix)).product = some p →
      p = (decimal_value digits : Int) * unit ∧ p ≤ LONG_MAX) := by
  obtain ⟨p0, ht⟩ := zc_block_size_parse_tail digits suffix unit hsuf hunit hend hne hd h0 hn
  have hv := zc_block_size_check_parse_cb (decimal_value digits * unit) p0
  have hiff := zc_block_size_is_valid_eq (decimal_value digits * unit)
  rw [ht]
  by_cases hbig : (decimal_value digits : Int) ≥ LONG_MAX / (unit : Int)
  · have hinv : zc_block_size_is_valid (decimal_value digits * unit) = false := by
      rw [← Bool.not_eq_true, hiff]
      simp only [LONG_MAX] at hbig
      rcases hu with rfl | rfl | rfl | rfl <;> (norm_num at hbig; omega)
    simp [hbig, hinv]
  · have hle : (decimal_value digits : Int) * unit ≤ LONG_MAX := by
      simp only [LONG_MAX] at hbig ⊢
      rcases hu with rfl | rfl | rfl | rfl <;> (norm_num at hbig ⊢; omega)
    rcases hc : zc_block_size_check (decimal_value digits * unit)
      (some zc_block_size_parse_cb) p0 with ⟨b, p⟩
    rw [hc] at hv
    simp only at hv
    subst hv
    cases hval : zc_block_size_is_valid (decimal_value digits * unit)
    · simp [hbig, hle]
    · simp [hbig, hle]

/-- Every unit suffix stops the base-10 digit loop at once. -/
theorem unit_suffix_stops (suffix : List Char) (unit : Nat)
    (hs : (suffix, unit) ∈ unit_suffixes) :
    (∀ a m, strtol_digits 10 suffix a m = (a, m)) ∧
    block_size_unit (suffix.getD 0 (Char.ofNat 0)) = some (unit : Int) ∧
    (unit ≠ 1 → suffix.getD 1 (Char.ofNat 0) = Char.ofNat 0) ∧
    (unit = 1 ∨ unit = 1024 ∨ unit = 1048576 ∨ unit = 1073741824) := by
  simp only [unit_suffixes, List.mem_cons, Prod.mk.injEq, List.mem_singleton,
    List.not_mem_nil, or_false] at hs
  rcases hs with ⟨rfl, rfl⟩ | ⟨rfl, rfl⟩ | ⟨rfl, rfl⟩ | ⟨rfl, rfl⟩ | ⟨rfl, rfl⟩ |
    ⟨rfl, rfl⟩ | ⟨rfl, rfl⟩ <;>
  exact ⟨fun a m => by rfl, by decide, by decide, by decide⟩

/-- C7 as stated fails: `strtol` is called with base 0, so a digit string with
a leading `0` is read as octal.  The decimal digit string `032768` denotes the
valid block size 32768, yet parsing fails (the digit 8 ends the octal number);
and `0100000` denotes 100000, not a valid block size, yet parsing succeeds and
stores 32768. -/
theorem zc_block_size_parse_leading_zero :
    (∀ c ∈ "032768".toList, is_decimal_digit c = true) ∧
    decimal_value "032768".toList = 32768 ∧
    zc_block_size_is_valid (decimal_value "032768".toList * 1) = true ∧
    (zc_block_size_parse ("032768".toList ++ [])).ret = -1 ∧
    (zc_block_size_parse ("032768".toList ++ [])).stored = none ∧
    (∀ c ∈ "0100000".toList, is_decimal_digit c = true) ∧
    decimal_value "0100000".toList = 100000 ∧
    zc_block_size_is_valid (decimal_value "0100000".toList * 1) = false ∧
    (zc_block_size_parse ("0100000".toList ++ [])).ret = 0 ∧
    (zc_block_size_parse ("0100000".toList ++ [])).stored = some 32768 := by
  decide

/-- C7, amended.  For every token made of a non-empty string of decimal digits
that does not begin with `0`, denoting `n` representable as a `long`,
optionally followed by exactly one of `K k M m G g` and nothing else:
`zc_block_size_parse` returns 0 and stores `n * unit` when `n * unit` lies in
[32768, 1073741824] and is a multiple of 32768, and returns -1 (storing
nothing) otherwise; the multiplication is executed only when `n * unit` does
not exceed `LONG_MAX`.  Also `256K` gives 262144, `1G` gives 1073741824, and
`-5` and `5X` fail. -/
theorem zc_block_size_parse_token (digits suffix : List Char) (unit : Nat)
    (hne : digits ≠ []) (hd : ∀ c ∈ digits, is_decimal_digit c = true)
    (h0 : digits.head? ≠ some '0') (hn : (decimal_value digits : Int) ≤ LONG_MAX)
    (hs : (suffix, unit) ∈ unit_suffixes) :
    ((32768 ≤ decimal_value digits * unit ∧ decimal_value digits * unit ≤ 1073741824 ∧
        32768 ∣ decimal_value digits * unit) →
      (zc_block_size_parse (digits ++ suffix)).ret = 0 ∧
      (zc_block_size_parse (digits ++ suffix)).stored = some (decimal_value digits * unit)) ∧
    (¬ (32768 ≤ decimal_value digits * unit ∧ decimal_value digits * unit ≤ 1073741824 ∧
        32768 ∣ decimal_value digits * unit) →
      (zc_block_size_parse (digits ++ suffix)).ret = -1 ∧
      (zc_block_size_parse (digits ++ suffix)).stored = none) ∧
    (∀ p, (zc_block_size_parse (digits ++ suffix)).product = some p →
      p = (decimal_value digits : Int) * unit ∧ p ≤ LONG_MAX) ∧
    ((zc_block_size_parse "256K".toList).ret = 0 ∧
      (zc_block_size_parse "256K".toList).stored = some 262144) ∧
    ((zc_block_size_parse "1G".toList).ret = 0 ∧
      (zc_block_size_parse "1G".toList).stored = some 1073741824) ∧
    (zc_block_size_parse "-5".toList).ret = -1 ∧
    (zc_block_size_parse "5X".toList).ret = -1 := by
  obtain ⟨hsuf, hunit, hend, hu⟩ := unit_suffix_stops suffix unit hs
  obtain ⟨h1, h2, h3⟩ :=
    zc_block_size_parse_decimal_aux digits suffix unit hne hd h0 hn hsuf hunit hend hu
  have hiff := zc_block_size_is_valid_eq (decimal_value digits * unit)
  refine ⟨fun hv => h1 (hiff.2 hv), fun hv => h2 ?_, h3, by decide, by decide, by decide,
    by decide⟩
  rw [← Bool.not_eq_true, hiff]
  exact hv

theorem zc_block_size_parse_token_witness :
    (zc_block_size_parse ("256".toList ++ ['K'])).ret = 0 ∧
    (zc_block_size_parse ("256".toList ++ ['K'])).stored =
      some (decimal_value "256".toList * 1024) :=
  (zc_block_size_parse_token "256".toList ['K'] 1024 (by decide) (by decide) (by decide)
    (by decide) (by decide)).1 (by decide)

/-! ### Cache-mode parsing -/

/-- C8 (defect in the code).  The loop of `zc_cache_mode_parse` runs over
`i < ZC_SB_MODE_PASSTHROUGH`, so the third table entry is never compared:
`passthrough` is rejected with -1 and nothing is stored, although the table and
`zc_cache_mode_format` both know mode 2 under that name.  The first two names
parse as claimed. -/
theorem zc_cache_mode_parse_passthrough :
    zc_cache_mode_parse "passthrough".toList =
      { ret := -1, stored := none, err := some "Invalid cache mode: passthrough\n" } ∧
    (zc_cache_mode_parse "PassThrough".toList).ret = -1 ∧
    zc_cache_modes.getD ZC_SB_MODE_PASSTHROUGH "" = "passthrough" ∧
    (zc_cache_mode_format 2 false).1 = some "passthrough" ∧
    zc_cache_mode_parse "writeback".toList = { ret := 0, stored := some 0, err := none } ∧
    zc_cache_mode_parse "WriteThrough".toList = { ret := 0, stored := some 1, err := none } := by
  decide

/-! ### Assembly coordinator -/

/-- Once the device has been identified, authenticated and found free, `main`
is the materialize / probe / assemble tail. -/
theorem main_eq_assemble_phase {σ : Type} (env : Env σ) (probe : DevProbe)
    (argv : List String) (prog dev : String) (udev : Bool) (dev_major fuel : Nat) (w : σ)
    (sb : zc_sb_v0)
    (hargv : (argv = [prog, "--udev", dev] ∧ udev = true) ∨ (argv = [prog, dev] ∧ udev = false))
    (hopen : probe.open_ok = true) (hstat : probe.fstat = some (true, dev_major))
    (hread : probe.read_ret = 128) (hclose : probe.close_ok = true)
    (hsb : sb = (zc_sb_v0_read env.big_endian 128 probe.read_buf).2)
    (hvalid : zc_sb_v0_is_valid sb = true) (hmajor : sb.dev_major = dev_major)
    (hwait : wait_for_dev probe.excl_open probe.excl_close_ok fuel 0 = some true) :
    main env probe argv fuel w =
      some (assemble_phase env dev sb (zc_sb_uuid_format env.big_endian sb) w) := by
  have hmagic : sb.magic = ZC_SB_MAGIC := ((zc_sb_v0_is_valid_eq sb).1 hvalid).1
  have hret : (zc_sb_v0_read env.big_endian 128 probe.read_buf).1 = 0 := by
    simp [zc_sb_v0_read, ZC_SB_V0_SIZE]
  subst hsb
  rcases hargv with ⟨rfl, rfl⟩ | ⟨rfl, rfl⟩ <;>
    simp [main, hopen, hstat, hread, hclose, hret, hvalid, hmajor, hmagic, hwait]

/-- A superblock that fails validation, or whose recorded major differs from
the device's, stops `main` before anything is created. -/
theorem main_stops_early {σ : Type} (env : Env σ) (probe : DevProbe)
    (argv : List String) (prog dev : String) (udev : Bool) (dev_major fuel : Nat) (w : σ)
    (sb : zc_sb_v0)
    (hargv : (argv = [prog, "--udev", dev] ∧ udev = true) ∨ (argv = [prog, dev] ∧ udev = false))
    (hopen : probe.open_ok = true) (hstat : probe.fstat = some (true, dev_major))
    (hread : probe.read_ret = 128) (hclose : probe.close_ok = true)
    (hsb : sb = (zc_sb_v0_read env.big_endian 128 probe.read_buf).2)
    (hbad : zc_sb_v0_is_valid sb = false ∨ sb.dev_major ≠ dev_major) :
    main env probe argv fuel w =
      some { exit := some (if udev then Exit.success else Exit.failure), attempts := [],
             world := w } := by
  have hret : (zc_sb_v0_read env.big_endian 128 probe.read_buf).1 = 0 := by
    simp [zc_sb_v0_read, ZC_SB_V0_SIZE]
  subst hsb
  rcases hargv with ⟨rfl, rfl⟩ | ⟨rfl, rfl⟩
  · by_cases hm : (zc_sb_v0_read env.big_endian 128 probe.read_buf).2.magic = ZC_SB_MAGIC
    · rcases hbad with hv | hmaj
      · simp [main, hopen, hstat, hread, hclose, hret, hv, hm]
      · cases hv : zc_sb_v0_is_valid (zc_sb_v0_read env.big_endian 128 probe.read_buf).2
        · simp [main, hopen, hstat, hread, hclose, hret, hv, hm]
        · simp [main, hopen, hstat, hread, hclose, hret, hv, hm, hmaj]
    · simp [main, hopen, hstat, hread, hclose, hret, hm]
  · rcases hbad with hv | hmaj
    · simp [main, hopen, hstat, hread, hclose, hret, hv]
    · cases hv : zc_sb_v0_is_valid (zc_sb_v0_read env.big_endian 128 probe.read_buf).2
      · simp [main, hopen, hstat, hread, hclose, hret, hv]
      · simp [main, hopen, hstat, hread, hclose, hret, hv, hmaj]

/-- C10. If the superblock read from the triggering device fails validation,
or its recorded `dev_major` differs from the device's actual major, the
coordinator attempts no device-mapper creation (component or composite), leaves
the world as it was, and exits with success under `--udev` and with failure in
manual mode; this does not depend on how long the device stays busy. -/
theorem main_rejects_superblock {σ : Type} (env : Env σ) (probe : DevProbe)
    (argv : List String) (prog dev : String) (udev : Bool) (dev_major fuel : Nat) (w : σ)
    (sb : zc_sb_v0)
    (hargv : (argv = [prog, "--udev", dev] ∧ udev = true) ∨ (argv = [prog, dev] ∧ udev = false))
    (hopen : probe.open_ok = true) (hstat : probe.fstat = some (true, dev_major))
    (hread : probe.read_ret = 128) (hclose : probe.close_ok = true)
    (hsb : sb = (zc_sb_v0_read env.big_endian 128 probe.read_buf).2)
    (hbad : zc_sb_v0_is_valid sb = false ∨ sb.dev_major ≠ dev_major) :
    main env probe argv fuel w =
      some { exit := some (if udev then Exit.success else Exit.failure), attempts := [],
             world := w } :=
  main_stops_early env probe argv prog dev udev dev_major fuel w sb hargv hopen hstat hread
    hclose hsb hbad

theorem main_rejects_superblock_witness :
    zc_sb_v0_is_valid
      (zc_sb_v0_read false 128 (example_probe (List.replicate 128 0)).read_buf).2 = false ∧
    main (node_env false) (example_probe (List.replicate 128 0))
        ["zcstart", "--udev", "/dev/sdb"] 0 [] =
      some { exit := some Exit.success, attempts := [], world := [] } ∧
    main (node_env false) (example_probe (List.replicate 128 0))
        ["zcstart", "/dev/sdb"] 0 [] =
      some { exit := some Exit.failure, attempts := [], world := [] } :=
  ⟨by decide,
    main_rejects_superblock (node_env false) (example_probe (List.replicate 128 0))
      ["zcstart", "--udev", "/dev/sdb"] "zcstart" "/dev/sdb" true 8 0 [] _
      (Or.inl ⟨rfl, rfl⟩) rfl rfl rfl rfl rfl (Or.inl (by decide)),
    main_rejects_superblock (node_env false) (example_probe (List.replicate 128 0))
      ["zcstart", "/dev/sdb"] "zcstart" "/dev/sdb" false 8 0 [] _
      (Or.inr ⟨rfl, rfl⟩) rfl rfl rfl rfl rfl (Or.inl (by decide))⟩

theorem andThen_of_exit_none {σ : Type} (r : Run σ) (next : σ → Run σ) (h : r.exit = none) :
    r.andThen next =
      { exit := (next r.world).exit, attempts := r.attempts ++ (next r.world).attempts,
        world := (next r.world).world } := by
  simp [Run.andThen, h]

theorem siblings_missing_eq {σ : Type} (env : Env σ) (sb : zc_sb_v0) (uuid : String)
    (w : σ) (hrole : sb.type ≤ 3) :
    siblings_missing env sb uuid w = !siblings_present env sb.type uuid w := by
  have h : sb.type = 0 ∨ sb.type = 1 ∨ sb.type = 2 ∨ sb.type = 3 := by omega
  rcases h with h | h | h | h <;>
    simp [siblings_missing, siblings_present, required_sibling_paths, h, ZC_SB_TYPE_ORIGIN,
      ZC_SB_TYPE_CACHE, ZC_SB_TYPE_METADATA]

theorem run_create_attempts {σ : Type} (env : Env σ) (task : DmCreate) (w : σ) :
    (run_create env task w).attempts = [task] := by
  unfold run_create
  split <;> rfl

/-- With a required sibling missing, `try_assemble` returns at once. -/
theorem try_assemble_missing {σ : Type} (env : Env σ) (sb : zc_sb_v0) (uuid : String)
    (w : σ) (hrole : sb.type ≤ 3) (hmiss : siblings_present env sb.type uuid w = false) :
    try_assemble env sb uuid w = { exit := none, attempts := [], world := w } := by
  have hm : siblings_missing env sb uuid w = true := by
    rw [siblings_missing_eq env sb uuid w hrole, hmiss]; rfl
  simp [try_assemble, hm]

/-- With every required sibling present and the origin node readable,
`try_assemble` attempts exactly one creation: the composite task. -/
theorem try_assemble_present {σ : Type} (env : Env σ) (sb : zc_sb_v0) (uuid : String)
    (w : σ) (hrole : sb.type ≤ 3) (hpres : siblings_present env sb.type uuid w = true)
    (hsize : env.access (o_dev_path uuid) w = true →
      (env.get_dev_size (o_dev_path uuid) w).isSome = true) :
    ∃ o_size, (try_assemble env sb uuid w).attempts = [composite_task sb uuid o_size] := by
  by_cases h0 : sb.type = 0
  · refine ⟨sb.o_size, ?_⟩
    have hm : siblings_missing env sb uuid w = false := by
      rw [siblings_missing_eq env sb uuid w hrole, hpres]; rfl
    simp [try_assemble, hm, h0, ZC_SB_TYPE_ORIGIN, run_create_attempts]
  · have hacc : env.access (o_dev_path uuid) w = true := by
      have h : sb.type = 1 ∨ sb.type = 2 ∨ sb.type = 3 := by omega
      rcases h with h | h | h <;>
        simp [siblings_present, required_sibling_paths, h] at hpres <;> simp [hpres]
    obtain ⟨n, hn⟩ := Option.isSome_iff_exists.1 (hsize hacc)
    refine ⟨n, ?_⟩
    have hm : siblings_missing env sb uuid w = false := by
      rw [siblings_missing_eq env sb uuid w hrole, hpres]; rfl
    simp [try_assemble, hm, h0, ZC_SB_TYPE_ORIGIN, hn, run_create_attempts]

theorem try_assemble_attempts_composite {σ : Type} (env : Env σ) (sb : zc_sb_v0)
    (uuid : String) (w : σ) :
    ∀ t ∈ (try_assemble env sb uuid w).attempts, ∃ o_size, t = composite_task sb uuid o_size := by
  intro t ht
  unfold try_assemble at ht
  by_cases hm : siblings_missing env sb uuid w = true
  · simp [hm] at ht
  · simp only [hm, Bool.false_eq_true, if_false] at ht
    cases ho : (if sb.type = ZC_SB_TYPE_ORIGIN then some sb.o_size
        else env.get_dev_size (o_dev_path uuid) w) with
    | none => simp [ho] at ht
    | some n =>
      simp only [ho, run_create_attempts, List.mem_singleton] at ht
      exact ⟨n, ht⟩

theorem valid_type_le (sb : zc_sb_v0) (h : zc_sb_v0_is_valid sb = true) : sb.type ≤ 3 := by
  obtain ⟨-, -, -, -, -, -, ht⟩ := (zc_sb_v0_is_valid_eq sb).1 h
  rcases ht with ht | ht | ht | ht <;> omega

theorem assemble_phase_missing {σ : Type} (env : Env σ) (dev : String) (sb : zc_sb_v0)
    (uuid : String) (w : σ) (hrole : sb.type ≤ 3)
    (hmat : (materialize env dev sb uuid w).exit = none)
    (hmiss : siblings_present env sb.type uuid (materialize env dev sb uuid w).world = false) :
    assemble_phase env dev sb uuid w =
      { exit := some Exit.success, attempts := (materialize env dev sb uuid w).attempts,
        world := (materialize env dev sb uuid w).world } := by
  unfold assemble_phase
  rw [andThen_of_exit_none _ _ hmat, try_assemble_missing env sb uuid _ hrole hmiss]
  simp [Run.andThen]

/-- C9. After the triggering device's own components are materialized,
`try_assemble` attempts a creation, and then only that of the composite, exactly
when every required sibling path exists (Origin: cache and metadata; Cache:
origin and metadata; Metadata: origin and cache; Combined: origin), an existing
origin node being readable for its size.  With a required sibling missing
nothing more is attempted and the coordinator exits with success; so for an
Origin device with cache and metadata absent only the origin component is
materialized and the exit status is success. -/
theorem main_probes_siblings {σ : Type} (env : Env σ) (probe : DevProbe)
    (argv : List String) (prog dev : String) (udev : Bool) (dev_major fuel : Nat)
    (w w1 : σ) (sb : zc_sb_v0) (uuid : String)
    (hargv : (argv = [prog, "--udev", dev] ∧ udev = true) ∨ (argv = [prog, dev] ∧ udev = false))
    (hopen : probe.open_ok = true) (hstat : probe.fstat = some (true, dev_major))
    (hread : probe.read_ret = 128) (hclose : probe.close_ok = true)
    (hsb : sb = (zc_sb_v0_read env.big_endian 128 probe.read_buf).2)
    (hvalid : zc_sb_v0_is_valid sb = true) (hmajor : sb.dev_major = dev_major)
    (hwait : wait_for_dev probe.excl_open probe.excl_close_ok fuel 0 = some true)
    (huuid : uuid = zc_sb_uuid_format env.big_endian sb)
    (hmat : (materialize env dev sb uuid w).exit = none)
    (hw1 : w1 = (materialize env dev sb uuid w).world)
    (hsize : env.access (o_dev_path uuid) w1 = true →
      (env.get_dev_size (o_dev_path uuid) w1).isSome = true) :
    ((try_assemble env sb uuid w1).attempts ≠ [] ↔
      siblings_present env sb.type uuid w1 = true) ∧
    (∀ t ∈ (try_assemble env sb uuid w1).attempts,
      ∃ o_size, t = composite_task sb uuid o_size) ∧
    (siblings_present env sb.type uuid w1 = false →
      main env probe argv fuel w =
        some { exit := some Exit.success,
               attempts := (materialize env dev sb uuid w).attempts, world := w1 }) ∧
    (sb.type = 0 → env.access (c_dev_path uuid) w1 = false →
      env.access (md_dev_path uuid) w1 = false →
      main env probe argv fuel w =
        some { exit := some Exit.success,
               attempts := [component_task dev "origin" sb.o_offset sb.o_size uuid],
               world := w1 }) := by
  have hrole := valid_type_le sb hvalid
  have hmain := main_eq_assemble_phase env probe argv prog dev udev dev_major fuel w sb
    hargv hopen hstat hread hclose hsb hvalid hmajor hwait
  rw [← huuid] at hmain
  have hmissing : siblings_present env sb.type uuid w1 = false →
      main env probe argv fuel w =
        some { exit := some Exit.success,
               attempts := (materialize env dev sb uuid w).attempts, world := w1 } := by
    intro hmiss
    rw [hmain, hw1, assemble_phase_missing env dev sb uuid w hrole hmat (hw1 ▸ hmiss)]
  refine ⟨?_, try_assemble_attempts_composite env sb uuid w1, hmissing, ?_⟩
  · constructor
    · intro hne
      by_contra hp
      rw [Bool.not_eq_true] at hp
      rw [try_assemble_missing env sb uuid w1 hrole hp] at hne
      exact hne rfl
    · intro hp
      obtain ⟨n, hn⟩ := try_assemble_present env sb uuid w1 hrole hp hsize
      rw [hn]
      simp
  · intro h0 hc _
    have hmiss : siblings_present env sb.type uuid w1 = false := by
      simp [siblings_present, required_sibling_paths, h0, hc]
    rw [hmissing hmiss]
    simp [materialize, h0, ZC_SB_TYPE_ORIGIN, do_component, run_create_attempts]

theorem main_probes_siblings_witness :
    main (node_env false) (example_probe (example_origin_sb.words.flatMap le_bytes))
        ["zcstart", "/dev/sdb"] 1 [] =
      some { exit := some Exit.success,
             attempts := [component_task "/dev/sdb" "origin" 4096 1048576
               "01020304-0506-0708-090a-0b0c0d0e0f10"],
             world := ["/dev/mapper/zodcache-01020304-0506-0708-090a-0b0c0d0e0f10-origin"] } :=
  (main_probes_siblings (node_env false)
    (example_probe (example_origin_sb.words.flatMap le_bytes)) ["zcstart", "/dev/sdb"]
    "zcstart" "/dev/sdb" false 8 1 []
    ["/dev/mapper/zodcache-01020304-0506-0708-090a-0b0c0d0e0f10-origin"]
    example_origin_sb "01020304-0506-0708-090a-0b0c0d0e0f10"
    (Or.inr ⟨rfl, rfl⟩) rfl rfl rfl rfl (by decide) (by decide) (by decide) (by decide)
    (by decide) (by decide) (by decide) (by decide)).2.2.2 (by decide) (by decide) (by decide)

/-! ### Early stop: the checks as lazy issue sequences -/

theorem feed_append {σ : Type} (cb : Option (IssueCb σ)) (l1 l2 : List String) (ctx : σ) :
    feed cb (l1 ++ l2) ctx =
      match feed cb l1 ctx with
      | (false, ctx1) => (false, ctx1)
      | (true, ctx1) => feed cb l2 ctx1 := by
  induction l1 generalizing ctx with
  | nil => simp [feed]
  | cons i rest ih =>
    simp only [List.cons_append, feed]
    rcases issue_report cb i ctx with ⟨b, ctx1⟩
    cases b
    · rfl
    · exact ih ctx1

theorem issue_rule_feed {σ : Type} (cb : Option (IssueCb σ)) (c : Bool) (msg : String)
    (ctx : σ) (rest : σ → Bool × σ) :
    issue_rule c msg cb ctx rest =
      match feed cb (opt_issue c msg) ctx with
      | (false, ctx1) => (false, ctx1)
      | (true, ctx1) => rest ctx1 := by
  cases c
  · simp [issue_rule, opt_issue, feed]
  · simp only [issue_rule, opt_issue, feed, if_true]
    rcases issue_report cb msg ctx with ⟨b, ctx1⟩
    cases b <;> rfl

/-- A rule followed by a computation that is itself a feed is a feed. -/
theorem issue_rule_feed_cons {σ : Type} (cb : Option (IssueCb σ)) (c : Bool) (msg : String)
    (ctx : σ) (l : List String) :
    issue_rule c msg cb ctx (feed cb l) = feed cb (opt_issue c msg ++ l) ctx := by
  rw [issue_rule_feed, feed_append]

theorem feed_nil_fun {σ : Type} (cb : Option (IssueCb σ)) :
    (fun ctx : σ => ((true, ctx) : Bool × σ)) = feed cb [] := by
  funext ctx
  rfl

theorem zc_block_size_check_feed {σ : Type} (cb : Option (IssueCb σ)) (bs : Nat) (ctx : σ) :
    zc_block_size_check bs cb ctx = feed cb (block_size_issue_list bs) ctx := by
  simp only [zc_block_size_check, block_size_issue_list, feed_nil_fun cb,
    issue_rule_feed_cons, List.append_nil]

theorem zc_sb_v0_origin_dev_check_feed {σ : Type} (cb : Option (IssueCb σ))
    (sb : zc_sb_v0) (ctx : σ) :
    zc_sb_v0_origin_dev_check sb cb ctx = feed cb (origin_issue_list sb) ctx := by
  simp only [zc_sb_v0_origin_dev_check, origin_issue_list, feed_nil_fun cb,
    issue_rule_feed_cons, List.append_nil]

theorem zc_sb_v0_cache_dev_check_feed {σ : Type} (cb : Option (IssueCb σ))
    (sb : zc_sb_v0) (ctx : σ) :
    zc_sb_v0_cache_dev_check sb cb ctx = feed cb (cache_issue_list sb) ctx := by
  simp only [zc_sb_v0_cache_dev_check, cache_issue_list, feed_nil_fun cb,
    issue_rule_feed_cons, List.append_nil]

theorem zc_sb_v0_metadata_dev_check_feed {σ : Type} (cb : Option (IssueCb σ))
    (sb : zc_sb_v0) (ctx : σ) :
    zc_sb_v0_metadata_dev_check sb cb ctx = feed cb (metadata_issue_list sb) ctx := by
  simp only [zc_sb_v0_metadata_dev_check, metadata_issue_list, feed_nil_fun cb,
    issue_rule_feed_cons, List.append_nil]

theorem zc_sb_v0_combined_dev_check_feed {σ : Type} (cb : Option (IssueCb σ))
    (sb : zc_sb_v0) (ctx : σ) :
    zc_sb_v0_combined_dev_check sb cb ctx = feed cb (combined_issue_list sb) ctx := by
  simp only [zc_sb_v0_combined_dev_check, combined_issue_list, feed_nil_fun cb,
    issue_rule_feed_cons, List.append_nil]

theorem role_dispatch_feed {σ : Type} (cb : Option (IssueCb σ)) (sb : zc_sb_v0) (ctx : σ) :
    (if sb.type = ZC_SB_TYPE_ORIGIN then zc_sb_v0_origin_dev_check sb cb ctx
     else if sb.type = ZC_SB_TYPE_CACHE then zc_sb_v0_cache_dev_check sb cb ctx
     else if sb.type = ZC_SB_TYPE_METADATA then zc_sb_v0_metadata_dev_check sb cb ctx
     else if sb.type = ZC_SB_TYPE_COMBINED then zc_sb_v0_combined_dev_check sb cb ctx
     else issue_report cb "Invalid device type" ctx) =
    feed cb (role_issue_list sb) ctx := by
  unfold role_issue_list
  split
  · exact zc_sb_v0_origin_dev_check_feed cb sb ctx
  split
  · exact zc_sb_v0_cache_dev_check_feed cb sb ctx
  split
  · exact zc_sb_v0_metadata_dev_check_feed cb sb ctx
  split
  · exact zc_sb_v0_combined_dev_check_feed cb sb ctx
  · simp only [feed]
    rcases issue_report cb "Invalid device type" ctx with ⟨b, ctx1⟩
    cases b <;> rfl

/-- Whatever the callback, `zc_sb_v0_check` hands it the issues of
`check_issue_list` one at a time until it signals stop. -/
theorem zc_sb_v0_check_feed {σ : Type} (cb : Option (IssueCb σ)) (sb : zc_sb_v0) (ctx : σ) :
    zc_sb_v0_check sb cb ctx = feed cb (check_issue_list sb) ctx := by
  have hrole : (fun ctx1 : σ =>
      if sb.type = ZC_SB_TYPE_ORIGIN then zc_sb_v0_origin_dev_check sb cb ctx1
      else if sb.type = ZC_SB_TYPE_CACHE then zc_sb_v0_cache_dev_check sb cb ctx1
      else if sb.type = ZC_SB_TYPE_METADATA then zc_sb_v0_metadata_dev_check sb cb ctx1
      else if sb.type = ZC_SB_TYPE_COMBINED then zc_sb_v0_combined_dev_check sb cb ctx1
      else issue_report cb "Invalid device type" ctx1) = feed cb (role_issue_list sb) :=
    funext fun ctx1 => role_dispatch_feed cb sb ctx1
  have htail : (fun ctx1 : σ =>
      match zc_block_size_check sb.block_size cb ctx1 with
      | (false, ctx2) => (false, ctx2)
      | (true, ctx2) =>
        issue_rule (decide (sb.cache_mode > ZC_SB_MODE_PASSTHROUGH)) "Invalid cache mode" cb ctx2
          fun ctx3 =>
            if sb.type = ZC_SB_TYPE_ORIGIN then zc_sb_v0_origin_dev_check sb cb ctx3
            else if sb.type = ZC_SB_TYPE_CACHE then zc_sb_v0_cache_dev_check sb cb ctx3
            else if sb.type = ZC_SB_TYPE_METADATA then zc_sb_v0_metadata_dev_check sb cb ctx3
            else if sb.type = ZC_SB_TYPE_COMBINED then zc_sb_v0_combined_dev_check sb cb ctx3
            else issue_report cb "Invalid device type" ctx3) =
      feed cb (block_size_issue_list sb.block_size ++
        (opt_issue (decide (sb.cache_mode > ZC_SB_MODE_PASSTHROUGH)) "Invalid cache mode" ++
          role_issue_list sb)) := by
    funext ctx1
    rw [hrole]
    simp only [issue_rule_feed_cons]
    rw [feed_append, zc_block_size_check_feed]
  unfold zc_sb_v0_check
  rw [htail]
  simp only [issue_rule_feed_cons, check_issue_list]

theorem feed_none {σ : Type} (l : List String) (ctx : σ) :
    feed (none : Option (IssueCb σ)) l ctx = (decide (l = []), ctx) := by
  cases l <;> simp [feed, issue_report]

/-- If the callback continues on the first `k` issues of a list and signals
stop on the next one, exactly those `k + 1` issues are delivered and the result
is false. -/
theorem feed_stop {σ : Type} (cb : IssueCb σ) (l : List String) :
    ∀ (ctx : σ) (k : Nat), k < l.length →
    (∀ j, j < k → (cb (l.getD j "") ((l.take j).foldl (deliver cb) ctx)).1 = true) →
    (cb (l.getD k "") ((l.take k).foldl (deliver cb) ctx)).1 = false →
    feed (some cb) l ctx = (false, (l.take (k + 1)).foldl (deliver cb) ctx) := by
  induction l with
  | nil => intro ctx k hk; simp at hk
  | cons i rest ih =>
    intro ctx k hk hcont hstop
    cases k with
    | zero =>
      simp only [List.getD_cons_zero, List.take_zero, List.foldl_nil] at hstop
      rcases hcb : cb i ctx with ⟨b, ctx1⟩
      rw [hcb] at hstop
      simp only at hstop
      subst hstop
      simp [feed, issue_report, hcb, deliver]
    | succ k =>
      have h0 := hcont 0 (Nat.succ_pos k)
      simp only [List.getD_cons_zero, List.take_zero, List.foldl_nil] at h0
      rcases hcb : cb i ctx with ⟨b, ctx1⟩
      rw [hcb] at h0
      simp only at h0
      subst h0
      have hd : deliver cb ctx i = ctx1 := by simp [deliver, hcb]
      have hk' : k < rest.length := by simpa using hk
      have := ih ctx1 k hk'
        (fun j hj => by
          have := hcont (j + 1) (Nat.succ_lt_succ hj)
          simpa [List.take_succ_cons, List.foldl_cons, hd] using this)
        (by simpa [List.take_succ_cons, List.foldl_cons, hd] using hstop)
      simp [feed, issue_report, hcb, this, List.take_succ_cons, List.foldl_cons, hd]

theorem zc_sb_v0_issues_eq_list (sb : zc_sb_v0) : zc_sb_v0_issues sb = check_issue_list sb := by
  rw [zc_sb_v0_issues_eq, check_issue_list_eq]

theorem foldl_deliver_stop_at (k : Nat) (issues shown : List String) :
    issues.foldl (deliver (stop_at k)) shown = shown ++ issues := by
  induction issues generalizing shown with
  | nil => simp
  | cons i rest ih => simp [List.foldl_cons, ih, deliver, stop_at]

/-- C15. Early stop: if the sink continues on the first `k - 1` issues it
receives and signals stop on the `k`-th, `zc_sb_v0_check` returns false having
delivered exactly the first `k` issues of the sequence an always-continue sink
receives, and nothing of any later rule.  For the recording sink that stops on
its `k`-th issue the context ends as exactly that prefix. -/
theorem zc_sb_v0_check_early_stop {σ : Type} (sb : zc_sb_v0) (cb : IssueCb σ) (ctx : σ)
    (k : Nat) (hk1 : 1 ≤ k) (hk2 : k ≤ (zc_sb_v0_issues sb).length)
    (hcont : ∀ j, j + 1 < k →
      (cb ((zc_sb_v0_issues sb).getD j "")
        (((zc_sb_v0_issues sb).take j).foldl (deliver cb) ctx)).1 = true)
    (hstop : (cb ((zc_sb_v0_issues sb).getD (k - 1) "")
        (((zc_sb_v0_issues sb).take (k - 1)).foldl (deliver cb) ctx)).1 = false) :
    zc_sb_v0_check sb (some cb) ctx =
      (false, ((zc_sb_v0_issues sb).take k).foldl (deliver cb) ctx) ∧
    zc_sb_v0_check sb (some (stop_at k)) [] = (false, (zc_sb_v0_issues sb).take k) ∧
    ((zc_sb_v0_issues sb).take k).length = k := by
  have hgen : ∀ {τ : Type} (cb' : IssueCb τ) (ctx' : τ),
      (∀ j, j + 1 < k →
        (cb' ((zc_sb_v0_issues sb).getD j "")
          (((zc_sb_v0_issues sb).take j).foldl (deliver cb') ctx')).1 = true) →
      (cb' ((zc_sb_v0_issues sb).getD (k - 1) "")
          (((zc_sb_v0_issues sb).take (k - 1)).foldl (deliver cb') ctx')).1 = false →
      zc_sb_v0_check sb (some cb') ctx' =
        (false, ((zc_sb_v0_issues sb).take k).foldl (deliver cb') ctx') := by
    intro τ cb' ctx' hc hs
    rw [zc_sb_v0_check_feed, ← zc_sb_v0_issues_eq_list]
    have := feed_stop cb' (zc_sb_v0_issues sb) ctx' (k - 1) (by omega)
      (fun j hj => hc j (by omega)) hs
    rw [this]
    have e : k - 1 + 1 = k := by omega
    rw [e]
  refine ⟨hgen cb ctx hcont hstop, ?_, ?_⟩
  · have := hgen (stop_at k) []
      (fun j hj => by
        simp only [foldl_deliver_stop_at, List.nil_append, stop_at, decide_eq_true_eq]
        rw [List.length_take]
        omega)
      (by
        simp only [foldl_deliver_stop_at, List.nil_append, stop_at, decide_eq_false_iff_not]
        rw [List.length_take]
        omega)
    rw [this, foldl_deliver_stop_at, List.nil_append]
  · rw [List.length_take]
    omega

theorem zc_sb_v0_check_early_stop_witness :
    zc_sb_v0_issues example_bad_sb =
      ["Incorrect superblock version", "Block size smaller than 32 KiB (32768 bytes)",
       "Block size not a multiple of 32 KiB (32768 bytes)",
       "Non-zero cache offset for origin device", "Non-zero cache size for origin device"] ∧
    zc_sb_v0_check example_bad_sb (some (stop_at 2)) [] =
      (false, ["Incorrect superblock version",
               "Block size smaller than 32 KiB (32768 bytes)"]) :=
  ⟨by decide,
    ((zc_sb_v0_check_early_stop example_bad_sb (stop_at 2) [] 2 (by decide) (by decide)
      (fun j hj => by
        have hj0 : j = 0 := by omega
        subst hj0
        decide)
      (by decide)).1).trans (by decide)⟩

/-- C16 as stated fails: a sink that always signals continue makes
`zc_sb_v0_check` return true even for a record with violations, while
`zc_sb_v0_is_valid` returns false for it. -/
theorem zc_sb_v0_is_valid_ne_continue_sink :
    (∀ i c, (sb_check_cb i c).1 = true) ∧
    zc_sb_v0_is_valid example_two_pairs_sb = false ∧
    (zc_sb_v0_check example_two_pairs_sb (some sb_check_cb) []).1 = true ∧
    zc_sb_v0_is_valid example_two_pairs_sb ≠
      (zc_sb_v0_check example_two_pairs_sb (some sb_check_cb) []).1 :=
  ⟨sb_check_cb_continues, by decide, by decide, by decide⟩

/-- C16, amended.  `zc_sb_v0_is_valid` returns what `zc_sb_v0_check` returns
with a null sink, which stops at the first issue; this is true exactly when an
always-continue sink receives no issue at all.  With an always-continue sink
`zc_sb_v0_check` itself returns true for every record. -/
theorem zc_sb_v0_is_valid_null_sink {σ : Type} (sb : zc_sb_v0) (cb : IssueCb σ) (ctx : σ)
    (hcont : ∀ i c, (cb i c).1 = true) :
    zc_sb_v0_is_valid sb = (zc_sb_v0_check sb (none : Option (IssueCb Unit)) ()).1 ∧
    (zc_sb_v0_is_valid sb = true ↔ (zc_sb_v0_check sb (some sb_check_cb) []).2 = []) ∧
    (zc_sb_v0_check sb (some cb) ctx).1 = true := by
  refine ⟨rfl, ?_, ?_⟩
  · rw [show (zc_sb_v0_check sb (some sb_check_cb) []).2 = zc_sb_v0_issues sb from rfl,
      zc_sb_v0_issues_eq_list, zc_sb_v0_is_valid, zc_sb_v0_check_feed, feed_none]
    simp
  · rw [zc_sb_v0_check_cont cb hcont]

theorem zc_sb_v0_is_valid_null_sink_witness :
    (∀ i c, (sb_check_cb i c).1 = true) ∧
    zc_sb_v0_is_valid example_origin_sb =
      (zc_sb_v0_check example_origin_sb (none : Option (IssueCb Unit)) ()).1 ∧
    (zc_sb_v0_is_valid example_origin_sb = true ↔
      (zc_sb_v0_check example_origin_sb (some sb_check_cb) []).2 = []) ∧
    (zc_sb_v0_check example_origin_sb (some sb_check_cb) []).1 = true :=
  ⟨sb_check_cb_continues,
    zc_sb_v0_is_valid_null_sink example_origin_sb sb_check_cb [] sb_check_cb_continues⟩

theorem block_size_issue_list_eq (bs : Nat) :
    block_size_issue_list bs =
      ((block_size_rules bs).filter fun r => r.1).map fun r => r.2 := by
  have hdvd : decide (bs % 32768 ≠ 0) = decide (¬ (32768 ∣ bs)) := by
    simp [Nat.dvd_iff_mod_eq_zero]
  simp only [block_size_issue_list, block_size_rules, hdvd, opt_issue]
  by_cases h1 : bs < 32768 <;> by_cases h2 : bs > 1073741824 <;>
    by_cases h3 : 32768 ∣ bs <;> simp [List.filter_cons, h1, h2, h3]

/-- C17. Run with a sink that always signals continue, `zc_block_size_check`
evaluates its three rules independently: it delivers, in rule order (too small,
too large, not a multiple of 32768), one issue for each rule the size violates
and returns true.  So 16384 yields the too-small and the not-a-multiple issue,
and 1073741825 the too-large and the not-a-multiple issue. -/
theorem zc_block_size_check_reports_all {σ : Type} (block_size : Nat) (cb : IssueCb σ)
    (ctx : σ) (hcont : ∀ i c, (cb i c).1 = true) :
    zc_block_size_check block_size (some cb) ctx =
      (true, (((block_size_rules block_size).filter fun r => r.1).map fun r => r.2).foldl
        (deliver cb) ctx) ∧
    zc_block_size_check 16384 (some sb_check_cb) [] =
      (true, ["Block size smaller than 32 KiB (32768 bytes)",
              "Block size not a multiple of 32 KiB (32768 bytes)"]) ∧
    zc_block_size_check 1073741825 (some sb_check_cb) [] =
      (true, ["Block size larger than 1 GiB (1073741824 bytes)",
              "Block size not a multiple of 32 KiB (32768 bytes)"]) := by
  refine ⟨?_, by decide, by decide⟩
  rw [zc_block_size_check_cont cb hcont, block_size_issue_list_eq]

theorem zc_block_size_check_reports_all_witness :
    (∀ i c, (sb_check_cb i c).1 = true) ∧
    zc_block_size_check 40000 (some sb_check_cb) [] =
      (true, ["Block size not a multiple of 32 KiB (32768 bytes)"]) :=
  ⟨sb_check_cb_continues,
    ((zc_block_size_check_reports_all 40000 sb_check_cb [] sb_check_cb_continues).1).trans
      (by decide)⟩

/-! ### Naming of device nodes -/

theorem o_dev_path_eq (dev u : String) (offset size : Nat) :
    o_dev_path u = "/dev/mapper/" ++ (component_task dev "origin" offset size u).name := by
  apply String.ext
  simp [o_dev_path, component_task, String.data_append]

theorem c_dev_path_eq (dev u : String) (offset size : Nat) :
    c_dev_path u = "/dev/mapper/" ++ (component_task dev "cache" offset size u).name := by
  apply String.ext
  simp [c_dev_path, component_task, String.data_append]

theorem md_dev_path_eq (dev u : String) (offset size : Nat) :
    md_dev_path u = "/dev/mapper/" ++ (component_task dev "metadata" offset size u).name := by
  apply String.ext
  simp [md_dev_path, component_task, String.data_append]

/-- C13. For every set identifier `u`: `do_component` creates the component of
role `r` under the name `zodcache-<u>-<r>`; `try_assemble` probes the paths
`/dev/mapper/zodcache-<u>-origin`, `-cache` and `-metadata` (which of them
depends on the role) and names the composite `zodcache-<u>`; so the path probed
for a role is `/dev/mapper/` followed by the name under which that role's
component is created. -/
theorem zodcache_node_names {σ : Type} (env : Env σ) (u dev r : String)
    (offset size o_size : Nat) (sb : zc_sb_v0) (w : σ) :
    (do_component env dev r offset size u w).attempts = [component_task dev r offset size u] ∧
    (component_task dev r offset size u).name = "zodcache-" ++ u ++ "-" ++ r ∧
    siblings_missing env sb u w =
      (if sb.type = 0 then
        !env.access ("/dev/mapper/zodcache-" ++ u ++ "-cache") w ||
          !env.access ("/dev/mapper/zodcache-" ++ u ++ "-metadata") w
      else if sb.type = 1 then
        !env.access ("/dev/mapper/zodcache-" ++ u ++ "-origin") w ||
          !env.access ("/dev/mapper/zodcache-" ++ u ++ "-metadata") w
      else if sb.type = 2 then
        !env.access ("/dev/mapper/zodcache-" ++ u ++ "-origin") w ||
          !env.access ("/dev/mapper/zodcache-" ++ u ++ "-cache") w
      else !env.access ("/dev/mapper/zodcache-" ++ u ++ "-origin") w) ∧
    (composite_task sb u o_size).name = "zodcache-" ++ u ∧
    "/dev/mapper/zodcache-" ++ u ++ "-origin" =
      "/dev/mapper/" ++ (component_task dev "origin" offset size u).name ∧
    "/dev/mapper/zodcache-" ++ u ++ "-cache" =
      "/dev/mapper/" ++ (component_task dev "cache" offset size u).name ∧
    "/dev/mapper/zodcache-" ++ u ++ "-metadata" =
      "/dev/mapper/" ++ (component_task dev "metadata" offset size u).name :=
  ⟨run_create_attempts env _ w, rfl, rfl, rfl, o_dev_path_eq dev u offset size,
    c_dev_path_eq dev u offset size, md_dev_path_eq dev u offset size⟩

/-! ### Materializing the own components -/

theorem run_create_exit {σ : Type} (env : Env σ) (task : DmCreate) (w : σ) :
    (run_create env task w).exit = none ∨ (run_create env task w).exit = some Exit.failure := by
  unfold run_create
  split
  · right; rfl
  · left; rfl

theorem materialize_attempts {σ : Type} (env : Env σ) (dev : String) (sb : zc_sb_v0)
    (uuid : String) (w : σ) (hrole : sb.type ≤ 3) :
    (materialize env dev sb uuid w).attempts <+: own_components dev sb uuid ∧
    ((materialize env dev sb uuid w).exit = none →
      (materialize env dev sb uuid w).attempts = own_components dev sb uuid) := by
  have h : sb.type = 0 ∨ sb.type = 1 ∨ sb.type = 2 ∨ sb.type = 3 := by omega
  rcases h with h | h | h | h
  · simp [materialize, own_components, h, ZC_SB_TYPE_ORIGIN, do_component,
      run_create_attempts]
  · simp [materialize, own_components, h, ZC_SB_TYPE_ORIGIN, ZC_SB_TYPE_CACHE, do_component,
      run_create_attempts]
  · simp [materialize, own_components, h, ZC_SB_TYPE_ORIGIN, ZC_SB_TYPE_CACHE,
      ZC_SB_TYPE_METADATA, do_component, run_create_attempts]
  · have e : materialize env dev sb uuid w =
        (do_component env dev "cache" sb.c_offset sb.c_size uuid w).andThen
          (do_component env dev "metadata" sb.md_offset sb.md_size uuid) := by
      simp [materialize, h, ZC_SB_TYPE_ORIGIN, ZC_SB_TYPE_CACHE, ZC_SB_TYPE_METADATA,
        ZC_SB_TYPE_COMBINED]
    have ho : own_components dev sb uuid =
        [component_task dev "cache" sb.c_offset sb.c_size uuid,
         component_task dev "metadata" sb.md_offset sb.md_size uuid] := by
      simp [own_components, h]
    rw [e, ho]
    rcases run_create_exit env (component_task dev "cache" sb.c_offset sb.c_size uuid) w
      with h1 | h1
    · rw [andThen_of_exit_none _ _ (by simpa [do_component] using h1)]
      simp [do_component, run_create_attempts]
    · have e2 : (do_component env dev "cache" sb.c_offset sb.c_size uuid w).andThen
          (do_component env dev "metadata" sb.md_offset sb.md_size uuid) =
          do_component env dev "cache" sb.c_offset sb.c_size uuid w := by
        simp [Run.andThen, do_component, h1]
      rw [e2]
      simp [do_component, run_create_attempts, h1]

theorem assemble_phase_attempts {σ : Type} (env : Env σ) (dev : String) (sb : zc_sb_v0)
    (uuid : String) (w : σ) (hmat : (materialize env dev sb uuid w).exit = none) :
    (assemble_phase env dev sb uuid w).attempts =
      (materialize env dev sb uuid w).attempts ++
        (try_assemble env sb uuid (materialize env dev sb uuid w).world).attempts := by
  unfold assemble_phase
  rw [andThen_of_exit_none _ _ hmat]
  simp only [Run.andThen]
  split <;> simp

/-! ### On-disk image and I/O status -/

theorem flatMap_le_bytes_length (ws : List Nat) :
    (ws.flatMap le_bytes).length = 8 * ws.length := by
  induction ws with
  | nil => rfl
  | cons w rest ih => simp [List.flatMap_cons, ih, le_bytes]; omega

theorem chunks8_decode (ws : List Nat) (h : ∀ w ∈ ws, w < U64) :
    (chunks8 ws.length (ws.flatMap le_bytes)).map of_le_bytes = ws := by
  rw [chunks8_flatMap_le_bytes, List.map_map]
  conv_rhs => rw [← List.map_id ws]
  apply List.map_congr_left
  intro w hw
  exact of_le_bytes_le_bytes w (h w hw)

/-- C14. Whatever the host byte order, the buffer `zc_sb_v0_write` hands to the
write call is 128 bytes long and holds the little-endian encodings of the
sixteen fields in declaration order (byte `k` of a field is
`field / 256 ^ k % 256`, so each group of eight bytes decodes back to its
field); the bytes written on a big-endian host, where every word is swapped as
a whole, equal those written on a little-endian host. -/
theorem zc_sb_v0_write_image (big_endian : Bool) (sys_write : List Nat → Int)
    (r : zc_sb_v0) (h : r.wf) :
    (zc_sb_v0_write big_endian sys_write r).written = r.words.flatMap le_bytes ∧
    (zc_sb_v0_write big_endian sys_write r).written.length = 128 ∧
    (chunks8 16 (zc_sb_v0_write big_endian sys_write r).written).map of_le_bytes = r.words ∧
    (zc_sb_v0_write true sys_write r).written = (zc_sb_v0_write false sys_write r).written ∧
    (∀ w : Nat, le_bytes w =
      [w / 256 ^ 0 % 256, w / 256 ^ 1 % 256, w / 256 ^ 2 % 256, w / 256 ^ 3 % 256,
       w / 256 ^ 4 % 256, w / 256 ^ 5 % 256, w / 256 ^ 6 % 256, w / 256 ^ 7 % 256]) := by
  have hw : ∀ be, (zc_sb_v0_write be sys_write r).written = r.words.flatMap le_bytes := by
    intro be
    simp only [zc_sb_v0_write, write_buffer_eq]
  refine ⟨hw _, ?_, ?_, by rw [hw true, hw false], ?_⟩
  · rw [hw, flatMap_le_bytes_length]
    rfl
  · rw [hw]
    exact chunks8_decode r.words h
  · intro w
    simp [le_bytes]

theorem zc_sb_v0_write_image_witness :
    example_origin_sb.wf ∧
    ((zc_sb_v0_write true (fun _ => 128) example_origin_sb).written.take 16 =
      [0x20, 0xDC, 0xAC, 0x8E, 0x8E, 0xAC, 0xDC, 0x20] ++
        le_bytes example_origin_sb.cksum) :=
  ⟨by decide,
    (congrArg (List.take 16)
      (zc_sb_v0_write_image true (fun _ => 128) example_origin_sb (by decide)).1).trans
      (by decide)⟩

/-- C20. With `n` the result of the underlying call: `zc_sb_v0_read` and
`zc_sb_v0_write` return 0 exactly when `n` is the record size 128 and -1 for
every other `n` (negative, short or long).  The write status depends only on
the result of the single call made on the one buffer; a failed read leaves the
buffer as it was read, without byte-order conversion, and a full read converts
it. -/
theorem zc_sb_v0_io_status (big_endian : Bool) (n : Int) (buf : List Nat) (sb : zc_sb_v0)
    (sys_write : List Nat → Int) :
    (zc_sb_v0_read big_endian n buf).1 = (if n = 128 then 0 else -1) ∧
    (zc_sb_v0_write big_endian (fun _ => n) sb).ret = (if n = 128 then 0 else -1) ∧
    (zc_sb_v0_write big_endian sys_write sb).ret =
      (if sys_write ((zc_sb_v0_byteswap big_endian sb).mem big_endian) = 128 then 0 else -1) ∧
    (zc_sb_v0_write big_endian sys_write sb).written =
      (zc_sb_v0_byteswap big_endian sb).mem big_endian ∧
    (zc_sb_v0_read big_endian n buf).2 =
      (if n = 128 then zc_sb_v0_byteswap big_endian (zc_sb_v0.ofMem big_endian buf)
       else zc_sb_v0.ofMem big_endian buf) := by
  have hst : ∀ m : Int,
      (if m < 0 then (-1 : Int) else if m ≠ (ZC_SB_V0_SIZE : Int) then -1 else 0) =
        if m = 128 then 0 else -1 := by
    intro m
    simp only [ZC_SB_V0_SIZE]
    split_ifs <;> first | rfl | omega
  refine ⟨?_, hst n, hst _, rfl, ?_⟩
  · simp only [zc_sb_v0_read, ZC_SB_V0_SIZE]
    split_ifs <;> first | rfl | omega
  · simp only [zc_sb_v0_read, ZC_SB_V0_SIZE]
    split_ifs <;> first | rfl | omega

/-! ### Cache modes: unknown names and values -/

theorem char_eq_nul_of_toNat (c : Char) (h : c.toNat = 0) : c = Char.ofNat 0 := by
  rw [← Char.ofNat_toNat c, h]

theorem char_eq_of_toNat_eq (a b : Char) (h : a.toNat = b.toNat) : a = b := by
  rw [← Char.ofNat_toNat a, ← Char.ofNat_toNat b, h]

theorem tolower_toNat_ne_zero (c : Char) (hc : c ≠ Char.ofNat 0) : (tolower c).toNat ≠ 0 := by
  unfold tolower
  split
  · rename_i hu
    obtain ⟨h1, h2⟩ := hu
    rw [Char.le_def] at h1 h2
    have h1' : 65 ≤ c.toNat := h1
    have h2' : c.toNat ≤ 90 := h2
    generalize c.toNat = n at h1' h2'
    interval_cases n <;> decide
  · exact fun h => hc (char_eq_nul_of_toNat c h)

/-- On strings without a NUL character, `strcasecmp` returns 0 only for
strings equal up to letter case. -/
theorem strcasecmp_eq_zero (a : List Char) : ∀ b : List Char,
    (∀ c ∈ a, c ≠ Char.ofNat 0) → (∀ c ∈ b, c ≠ Char.ofNat 0) →
    strcasecmp a b = 0 → a.map tolower = b.map tolower := by
  induction a with
  | nil =>
    intro b _ hb h
    cases b with
    | nil => rfl
    | cons y ys =>
      have := tolower_toNat_ne_zero y (hb y (List.mem_cons_self _ _))
      simp only [strcasecmp] at h
      omega
  | cons x xs ih =>
    intro b ha hb h
    cases b with
    | nil =>
      have := tolower_toNat_ne_zero x (ha x (List.mem_cons_self _ _))
      simp only [strcasecmp] at h
      omega
    | cons y ys =>
      simp only [strcasecmp] at h
      by_cases hxy : tolower x = tolower y
      · rw [if_pos hxy] at h
        have := ih ys (fun c hc => ha c (List.mem_cons_of_mem _ hc))
          (fun c hc => hb c (List.mem_cons_of_mem _ hc)) h
        simp [hxy, this]
      · rw [if_neg hxy] at h
        exact absurd (char_eq_of_toNat_eq _ _ (by omega)) hxy

theorem zc_cache_mode_parse_cases (s : List Char) :
    (strcasecmp s "writeback".toList = 0 ∧
      zc_cache_mode_parse s = { ret := 0, stored := some 0, err := none }) ∨
    (strcasecmp s "writethrough".toList = 0 ∧
      zc_cache_mode_parse s = { ret := 0, stored := some 1, err := none }) ∨
    ((zc_cache_mode_parse s).ret = -1 ∧ (zc_cache_mode_parse s).stored = none) := by
  have hr : List.range ZC_SB_MODE_PASSTHROUGH = [0, 1] := by decide
  have e0 : (zc_cache_modes.getD 0 "").toList = "writeback".toList := rfl
  have e1 : (zc_cache_modes.getD 1 "").toList = "writethrough".toList := rfl
  by_cases h0 : strcasecmp s "writeback".toList = 0
  · left
    refine ⟨h0, ?_⟩
    simp only [zc_cache_mode_parse, hr, List.find?_cons, e0, h0, decide_True]
  · by_cases h1 : strcasecmp s "writethrough".toList = 0
    · right; left
      refine ⟨h1, ?_⟩
      simp only [zc_cache_mode_parse, hr, List.find?_cons, e0, e1, h0, h1, decide_True,
        decide_False]
    · right; right
      simp only [zc_cache_mode_parse, hr, List.find?_cons, List.find?_nil, e0, e1, h0, h1,
        decide_False, and_self]

/-- C19. `zc_cache_mode_format m` returns NULL exactly when `m > 2` and the
table entry at index `m` otherwise.  If `zc_cache_mode_parse` succeeds on a
string it stores a value `v ≤ 2` and the string equals `zc_cache_mode_format v`
up to letter case; so a string that matches no canonical name up to letter case
is rejected with -1 and nothing stored. -/
theorem zc_cache_mode_unknown_fails (m : Nat) (quiet : Bool) (s : List Char)
    (hs : ∀ c ∈ s, c ≠ Char.ofNat 0) :
    ((zc_cache_mode_format m quiet).1 = none ↔ m > 2) ∧
    (zc_cache_mode_format m quiet).1 = ["writeback", "writethrough", "passthrough"][m]? ∧
    ((zc_cache_mode_parse s).ret = 0 →
      ∃ v name, (zc_cache_mode_parse s).stored = some v ∧ v ≤ 2 ∧
        (zc_cache_mode_format v quiet).1 = some name ∧
        s.map tolower = name.toList.map tolower) ∧
    ((∀ name ∈ zc_cache_modes, s.map tolower ≠ name.toList.map tolower) →
      (zc_cache_mode_parse s).ret = -1 ∧ (zc_cache_mode_parse s).stored = none) := by
  have hfmt : (zc_cache_mode_format m quiet).1 =
      ["writeback", "writethrough", "passthrough"][m]? := by
    by_cases hm : m > 2
    · have : ¬ m < 3 := by omega
      simp [zc_cache_mode_format, ZC_SB_MODE_PASSTHROUGH, hm, List.getElem?_eq_none_iff]
      omega
    · have : m = 0 ∨ m = 1 ∨ m = 2 := by omega
      rcases this with rfl | rfl | rfl <;>
        simp [zc_cache_mode_format, ZC_SB_MODE_PASSTHROUGH, zc_cache_modes]
  have hwb : ∀ c ∈ "writeback".toList, c ≠ Char.ofNat 0 := by decide
  have hwt : ∀ c ∈ "writethrough".toList, c ≠ Char.ofNat 0 := by decide
  have hsucc : (zc_cache_mode_parse s).ret = 0 →
      ∃ v name, (zc_cache_mode_parse s).stored = some v ∧ v ≤ 2 ∧
        (zc_cache_mode_format v quiet).1 = some name ∧
        s.map tolower = name.toList.map tolower := by
    intro hret
    rcases zc_cache_mode_parse_cases s with ⟨h0, hp⟩ | ⟨h1, hp⟩ | ⟨hf, -⟩
    · exact ⟨0, "writeback", by rw [hp], by decide, by
        simp [zc_cache_mode_format, ZC_SB_MODE_PASSTHROUGH, zc_cache_modes],
        strcasecmp_eq_zero s _ hs hwb h0⟩
    · exact ⟨1, "writethrough", by rw [hp], by decide, by
        simp [zc_cache_mode_format, ZC_SB_MODE_PASSTHROUGH, zc_cache_modes],
        strcasecmp_eq_zero s _ hs hwt h1⟩
    · rw [hf] at hret
      exact absurd hret (by decide)
  refine ⟨?_, hfmt, hsucc, ?_⟩
  · rw [hfmt, List.getElem?_eq_none_iff]
    simp
    omega
  · intro hno
    rcases zc_cache_mode_parse_cases s with ⟨h0, -⟩ | ⟨h1, -⟩ | hf
    · exact absurd (strcasecmp_eq_zero s _ hs hwb h0)
        (hno "writeback" (by simp [zc_cache_modes]))
    · exact absurd (strcasecmp_eq_zero s _ hs hwt h1)
        (hno "writethrough" (by simp [zc_cache_modes]))
    · exact hf

theorem zc_cache_mode_unknown_fails_witness :
    (∀ c ∈ "fast".toList, c ≠ Char.ofNat 0) ∧
    (∀ name ∈ zc_cache_modes, "fast".toList.map tolower ≠ name.toList.map tolower) ∧
    (zc_cache_mode_parse "fast".toList).ret = -1 ∧
    (zc_cache_mode_parse "fast".toList).stored = none :=
  ⟨by decide, by decide,
    (zc_cache_mode_unknown_fails 3 true "fast".toList (by decide)).2.2.2 (by decide)⟩

/-! ### Kinds of block-size parse failure -/

theorem feed_parse_cb (l : List String) (p : String) :
    feed (some zc_block_size_parse_cb) l p =
      match l with
      | [] => (true, p)
      | t :: _ => (false, t) := by
  cases l <;> simp [feed, issue_report, zc_block_size_parse_cb]

/-- With the callback of `zc_block_size_parse`, the check stops at the first
violated rule and leaves its text in `p`. -/
theorem zc_block_size_check_first (bs : Nat) (p : String) :
    zc_block_size_check bs (some zc_block_size_parse_cb) p =
      match first_violated bs with
      | none => (true, p)
      | some rule => (false, rule.text) := by
  rw [zc_block_size_check_feed, feed_parse_cb]
  have hdvd : (bs % 32768 ≠ 0) ↔ ¬ (32768 ∣ bs) := by
    simp [Nat.dvd_iff_mod_eq_zero]
  unfold block_size_issue_list first_violated opt_issue
  by_cases h1 : bs < 32768
  · simp [h1, BlockSizeRule.text]
  · by_cases h2 : bs > 1073741824
    · simp [h1, h2, BlockSizeRule.text]
    · by_cases h3 : 32768 ∣ bs
      · have h3' : bs % 32768 = 0 := Nat.mod_eq_zero_of_dvd h3
        simp [h1, h2, h3, h3']
      · have h3' : ¬ bs % 32768 = 0 := fun h => h3 (Nat.dvd_of_mod_eq_zero h)
        simp [h1, h2, h3, h3', BlockSizeRule.text]

theorem block_size_unit_cases (c : Char) (unit : Int) (h : block_size_unit c = some unit) :
    unit = 1 ∨ unit = 1024 ∨ unit = 1048576 ∨ unit = 1073741824 := by
  unfold block_size_unit at h
  split_ifs at h <;> simp at h <;> omega

/-- When the overflow guard `size >= LONG_MAX / unit` fires, the value violates
the too-large rule first. -/
theorem guard_first_violated (value unit : Int)
    (hu : unit = 1 ∨ unit = 1024 ∨ unit = 1048576 ∨ unit = 1073741824)
    (hg : value ≥ LONG_MAX / unit) :
    first_violated (value * unit).toNat = some .too_large := by
  have hbig : 1073741824 < (value * unit).toNat := by
    simp only [LONG_MAX] at hg
    rcases hu with rfl | rfl | rfl | rfl <;> (norm_num at hg; omega)
  unfold first_violated
  have h1 : ¬ (value * unit).toNat < 32768 := by omega
  simp [h1, hbig]

theorem zc_block_size_parse_classify (s : List Char) :
    (zc_block_size_parse s).err = (classify_token s).map (ParseFailure.message s) ∧
    (zc_block_size_parse s).ret = (if (classify_token s).isSome then -1 else 0) := by
  unfold zc_block_size_parse classify_token
  by_cases h1 : (strtol0 s).erange = true ∨ (strtol0 s).endptr = 0
  · simp [h1, ParseFailure.message, ParseFailure.reason]
  simp only [h1, if_false]
  by_cases h2 : (strtol0 s).value < 0
  · simp [h2, ParseFailure.message, ParseFailure.reason]
  simp only [h2, if_false]
  cases hu : block_size_unit (s.getD (strtol0 s).endptr (Char.ofNat 0)) with
  | none => simp [ParseFailure.message, ParseFailure.reason]
  | some unit =>
    simp only []
    by_cases h3 : unit ≠ 1 ∧ s.getD ((strtol0 s).endptr + 1) (Char.ofNat 0) ≠ Char.ofNat 0
    · simp only [if_pos h3]
      simp [ParseFailure.message, ParseFailure.reason]
    simp only [if_neg h3]
    have hcases := block_size_unit_cases _ _ hu
    by_cases h4 : (strtol0 s).value ≥ LONG_MAX / unit
    · have := guard_first_violated (strtol0 s).value unit hcases h4
      simp [h4, this, ParseFailure.message, ParseFailure.reason, BlockSizeRule.text]
    · simp only [h4, if_false, zc_block_size_check_first]
      cases first_violated ((strtol0 s).value * unit).toNat with
      | none => simp
      | some rule => simp [ParseFailure.message, ParseFailure.reason]

theorem string_append_left_cancel (a b c : String) (h : a ++ b = a ++ c) : b = c := by
  apply String.ext
  have := congrArg String.data h
  simpa [String.data_append] using this

theorem reason_injective (k1 k2 : ParseFailure) (h : k1.reason = k2.reason) : k1 = k2 := by
  cases k1 with
  | malformed => cases k2 <;> simp [ParseFailure.reason] at h ⊢
  | negative =>
    cases k2 with
    | malformed => simp [ParseFailure.reason] at h
    | negative => rfl
    | invalid r => cases r <;> exact absurd h (by decide)
  | invalid r1 =>
    cases k2 with
    | malformed => simp [ParseFailure.reason] at h
    | negative => cases r1 <;> exact absurd h (by decide)
    | invalid r2 => cases r1 <;> cases r2 <;> first | rfl | exact absurd h (by decide)

theorem message_injective (s : List Char) : Function.Injective (ParseFailure.message s) := by
  intro k1 k2 h
  apply reason_injective
  have hd := congrArg String.data h
  unfold ParseFailure.message at hd
  cases h1 : k1.reason with
  | none =>
    cases h2 : k2.reason with
    | none => rfl
    | some r2 =>
      rw [h1, h2] at hd
      simp [String.data_append] at hd
  | some r1 =>
    cases h2 : k2.reason with
    | none =>
      rw [h1, h2] at hd
      simp [String.data_append] at hd
    | some r2 =>
      rw [h1, h2] at hd
      simp only [String.data_append, List.append_assoc, List.append_cancel_left_eq] at hd
      have := List.append_cancel_right hd
      rw [String.ext this]

/-- C18 as stated fails.  The digit string `9223372036854775808` is a
well-formed non-negative value, out of range for a block size, yet it is
reported with no reason (the number does not fit a `long`, so `strtol` fails);
and `-5X`, which has an unknown suffix, is reported as a negative block size,
because the sign is examined before the suffix. -/
theorem zc_block_size_parse_kinds_overlap :
    (∀ c ∈ "9223372036854775808".toList, is_decimal_digit c = true) ∧
    decimal_value "9223372036854775808".toList = 9223372036854775808 ∧
    zc_block_size_is_valid 9223372036854775808 = false ∧
    (zc_block_size_parse "9223372036854775808".toList).err =
      some "Invalid block size: 9223372036854775808\n" ∧
    block_size_unit 'X' = none ∧
    (zc_block_size_parse "-5X".toList).err =
      some "Invalid block size: -5X: Negative block size\n" := by
  decide

/-- C18, amended.  `zc_block_size_parse` fails in exactly three kinds, each
returning -1, decided in this order: a token with no leading number, or whose
number does not fit a `long`, is malformed and reported as
`Invalid block size: <token>` with no reason; otherwise a negative number is
reported with the reason `Negative block size`; otherwise an unknown suffix or
characters after the unit make the token malformed (no reason); otherwise a
value violating a block-size rule is reported with the text of the first rule
it violates.  Messages of different kinds differ, so no input is reported under
more than one kind.  `5X` is malformed, `-5` negative, `16K` too small and `2G`
too large. -/
theorem zc_block_size_parse_failure_kinds (s : List Char) :
    (zc_block_size_parse s).err = (classify_token s).map (ParseFailure.message s) ∧
    (zc_block_size_parse s).ret = (if (classify_token s).isSome then -1 else 0) ∧
    Function.Injective (ParseFailure.message s) ∧
    classify_token "".toList = some .malformed ∧
    classify_token "5X".toList = some .malformed ∧
    classify_token "256Kx".toList = some .malformed ∧
    classify_token "-5".toList = some .negative ∧
    classify_token "16K".toList = some (.invalid .too_small) ∧
    classify_token "2G".toList = some (.invalid .too_large) ∧
    classify_token "40000".toList = some (.invalid .not_multiple) ∧
    (zc_block_size_parse "5X".toList).err = some "Invalid block size: 5X\n" ∧
    (zc_block_size_parse "-5".toList).err =
      some "Invalid block size: -5: Negative block size\n" ∧
    (zc_block_size_parse "16K".toList).err =
      some "Invalid block size: 16K: Block size smaller than 32 KiB (32768 bytes)\n" ∧
    (zc_block_size_parse "2G".toList).err =
      some "Invalid block size: 2G: Block size larger than 1 GiB (1073741824 bytes)\n" :=
  ⟨(zc_block_size_parse_classify s).1, (zc_block_size_parse_classify s).2,
    message_injective s, by decide, by decide, by decide, by decide, by decide, by decide,
    by decide, by decide, by decide, by decide, by decide⟩

/-! ### Assembly convergence -/

theorem role_path_eq (dev u : String) (offset size : Nat) (t : Nat) (ht : t ≤ 2) :
    role_path u t =
      "/dev/mapper/" ++
        (component_task dev (pick t "origin" "cache" "metadata") offset size u).name := by
  have h : t = 0 ∨ t = 1 ∨ t = 2 := by omega
  rcases h with rfl | rfl | rfl
  · exact o_dev_path_eq dev u offset size
  · exact c_dev_path_eq dev u offset size
  · exact md_dev_path_eq dev u offset size

theorem role_path_inj (u : String) (t1 t2 : Nat) (h1 : t1 ≤ 2) (h2 : t2 ≤ 2)
    (h : role_path u t1 = role_path u t2) : t1 = t2 := by
  have hd := congrArg String.data h
  have c1 : t1 = 0 ∨ t1 = 1 ∨ t1 = 2 := by omega
  have c2 : t2 = 0 ∨ t2 = 1 ∨ t2 = 2 := by omega
  rcases c1 with rfl | rfl | rfl <;> rcases c2 with rfl | rfl | rfl <;>
    first
    | rfl
    | (exfalso
       simp [role_path, o_dev_path, c_dev_path, md_dev_path, String.data_append] at hd)

theorem role_path_ne_composite (u : String) (t : Nat) : role_path u t ≠ composite_path u := by
  intro h
  have hd := congrArg String.data h
  unfold role_path composite_path at hd
  split_ifs at hd <;>
    simp [o_dev_path, c_dev_path, md_dev_path, String.data_append] at hd

theorem composite_path_eq (sb : zc_sb_v0) (u : String) (n : Nat) :
    composite_path u = "/dev/mapper/" ++ (composite_task sb u n).name := rfl

theorem siblings_present_iff {σ : Type} (env : Env σ) (u : String) (w : σ) (t : Nat)
    (ht : t ≤ 2) :
    siblings_present env t u w = true ↔
      ∀ t', t' ≤ 2 → t' ≠ t → env.access (role_path u t') w = true := by
  have h : t = 0 ∨ t = 1 ∨ t = 2 := by omega
  constructor
  · intro hp t' ht' hne
    have h' : t' = 0 ∨ t' = 1 ∨ t' = 2 := by omega
    rcases h with rfl | rfl | rfl <;> rcases h' with rfl | rfl | rfl <;>
      simp [siblings_present, required_sibling_paths] at hp <;>
      simp_all [role_path]
  · intro hall
    have a0 := hall 0 (by omega)
    have a1 := hall 1 (by omega)
    have a2 := hall 2 (by omega)
    rcases h with rfl | rfl | rfl <;>
      simp [siblings_present, required_sibling_paths, role_path] at a0 a1 a2 ⊢ <;>
      simp_all

theorem own_components_single (dev : String) (sb : zc_sb_v0) (u : String)
    (ht : sb.type ≤ 2) : own_components dev sb u = [own_task dev sb u] := by
  have h : sb.type = 0 ∨ sb.type = 1 ∨ sb.type = 2 := by omega
  rcases h with h | h | h <;> simp [own_components, own_task, pick, h]

theorem materialize_single {σ : Type} (env : Env σ) (henv : env_creates_nodes env)
    (dev : String) (sb : zc_sb_v0) (u : String) (w : σ) (ht : sb.type ≤ 2) :
    materialize env dev sb u w =
      { exit := none, attempts := [own_task dev sb u],
        world := (env.dm_create (own_task dev sb u) w).2 } := by
  have hrun : ∀ task, run_create env task w =
      { exit := none, attempts := [task], world := (env.dm_create task w).2 } := by
    intro task
    have h1 := henv.1 task w
    unfold run_create
    rcases hc : env.dm_create task w with ⟨b, w1⟩
    rw [hc] at h1
    simp only at h1
    subst h1
    rfl
  have h : sb.type = 0 ∨ sb.type = 1 ∨ sb.type = 2 := by omega
  rcases h with h | h | h <;>
    simp [materialize, own_task, pick, h, ZC_SB_TYPE_ORIGIN, ZC_SB_TYPE_CACHE,
      ZC_SB_TYPE_METADATA, do_component, hrun]

/-- Creating the own component of a role makes that role's node exist and
changes no other component node. -/
theorem access_after_own {σ : Type} (env : Env σ) (henv : env_creates_nodes env)
    (dev : String) (sb : zc_sb_v0) (u : String) (w : σ) (ht : sb.type ≤ 2)
    (t' : Nat) (ht' : t' ≤ 2) :
    env.access (role_path u t') (env.dm_create (own_task dev sb u) w).2 =
      (env.access (role_path u t') w || decide (t' = sb.type)) := by
  rw [henv.2.1]
  congr 1
  have e := role_path_eq dev u (pick sb.type sb.o_offset sb.c_offset sb.md_offset)
    (pick sb.type sb.o_size sb.c_size sb.md_size) sb.type ht
  rw [own_task, ← e]
  by_cases hq : t' = sb.type
  · simp [hq]
  · have : role_path u t' ≠ role_path u sb.type :=
      fun h => hq (role_path_inj u t' sb.type ht' ht h)
    simp [hq, this]

theorem access_composite_after_own {σ : Type} (env : Env σ) (henv : env_creates_nodes env)
    (dev : String) (sb : zc_sb_v0) (u : String) (w : σ) (ht : sb.type ≤ 2) :
    env.access (composite_path u) (env.dm_create (own_task dev sb u) w).2 =
      env.access (composite_path u) w := by
  rw [henv.2.1]
  have e := role_path_eq dev u (pick sb.type sb.o_offset sb.c_offset sb.md_offset)
    (pick sb.type sb.o_size sb.c_size sb.md_size) sb.type ht
  rw [own_task, ← e]
  have : composite_path u ≠ role_path u sb.type :=
    fun h => role_path_ne_composite u sb.type h.symm
  simp [this]

/-- One execution for a non-Combined device once `main` has reached the
materialize step: it creates its own component, and the composite as well
exactly when both siblings exist by then; it exits with success. -/
theorem assemble_phase_single {σ : Type} (env : Env σ) (henv : env_creates_nodes env)
    (dev : String) (sb : zc_sb_v0) (u : String) (w : σ) (ht : sb.type ≤ 2) :
    (siblings_present env sb.type u (env.dm_create (own_task dev sb u) w).2 = false →
      assemble_phase env dev sb u w =
        { exit := some Exit.success, attempts := [own_task dev sb u],
          world := (env.dm_create (own_task dev sb u) w).2 }) ∧
    (siblings_present env sb.type u (env.dm_create (own_task dev sb u) w).2 = true →
      ∃ n, assemble_phase env dev sb u w =
        { exit := some Exit.success,
          attempts := [own_task dev sb u, composite_task sb u n],
          world := (env.dm_create (composite_task sb u n)
            (env.dm_create (own_task dev sb u) w).2).2 }) := by
  have hm := materialize_single env henv dev sb u w ht
  have hrole : sb.type ≤ 3 := by omega
  constructor
  · intro hmiss
    have := assemble_phase_missing env dev sb u w hrole (by rw [hm])
      (by rw [hm]; exact hmiss)
    rw [this, hm]
  · intro hpres
    have hmissing : siblings_missing env sb u (env.dm_create (own_task dev sb u) w).2 = false := by
      rw [siblings_missing_eq env sb u _ hrole, hpres]; rfl
    have hsz : ∃ n, (if sb.type = ZC_SB_TYPE_ORIGIN then some sb.o_size
        else env.get_dev_size (o_dev_path u) (env.dm_create (own_task dev sb u) w).2) =
        some n := by
      by_cases h0 : sb.type = ZC_SB_TYPE_ORIGIN
      · exact ⟨sb.o_size, by simp [h0]⟩
      · have h0' : sb.type ≠ 0 := h0
        have hacc := (siblings_present_iff env u _ sb.type ht).1 hpres 0 (by omega)
          (fun h => h0' h.symm)
        have := henv.2.2 _ _ hacc
        obtain ⟨n, hn⟩ := Option.isSome_iff_exists.1 this
        exact ⟨n, by simp [h0]; exact hn⟩
    obtain ⟨n, hn⟩ := hsz
    refine ⟨n, ?_⟩
    have hc := henv.1 (composite_task sb u n) (env.dm_create (own_task dev sb u) w).2
    rcases hcr : env.dm_create (composite_task sb u n)
      (env.dm_create (own_task dev sb u) w).2 with ⟨b, w2⟩
    rw [hcr] at hc
    simp only at hc
    subst hc
    have hta : try_assemble env sb u (env.dm_create (own_task dev sb u) w).2 =
        { exit := none, attempts := [composite_task sb u n], world := w2 } := by
      simp only [try_assemble, hmissing, Bool.false_eq_true, if_false, hn, run_create, hcr]
    simp [assemble_phase, hm, Run.andThen, hta]

/-- Three executions for three non-Combined devices of pairwise different
roles, starting with none of the three component nodes present: the first two
create only their own component, the third also the composite, and in the end
all four nodes exist. -/
theorem three_phases {σ : Type} (env : Env σ) (henv : env_creates_nodes env) (u : String)
    (dA dB dC : String) (sA sB sC : zc_sb_v0) (w0 : σ)
    (hA : sA.type ≤ 2) (hB : sB.type ≤ 2) (hC : sC.type ≤ 2)
    (hAB : sA.type ≠ sB.type) (hAC : sA.type ≠ sC.type) (hBC : sB.type ≠ sC.type)
    (h0 : ∀ t, t ≤ 2 → env.access (role_path u t) w0 = false) :
    ∃ wA wB wC n,
      assemble_phase env dA sA u w0 =
        { exit := some Exit.success, attempts := [own_task dA sA u], world := wA } ∧
      assemble_phase env dB sB u wA =
        { exit := some Exit.success, attempts := [own_task dB sB u], world := wB } ∧
      assemble_phase env dC sC u wB =
        { exit := some Exit.success,
          attempts := [own_task dC sC u, composite_task sC u n], world := wC } ∧
      (∀ t, t ≤ 2 → env.access (role_path u t) wC = true) ∧
      env.access (composite_path u) wC = true := by
  have accA := access_after_own env henv dA sA u w0 hA
  have accB := access_after_own env henv dB sB u (env.dm_create (own_task dA sA u) w0).2 hB
  have accC := access_after_own env henv dC sC u
    (env.dm_create (own_task dB sB u) (env.dm_create (own_task dA sA u) w0).2).2 hC
  have missA : siblings_present env sA.type u (env.dm_create (own_task dA sA u) w0).2 =
      false := by
    rw [← Bool.not_eq_true, siblings_present_iff env u _ sA.type hA]
    intro hall
    have := hall sB.type hB (fun h => hAB h.symm)
    rw [accA sB.type hB, h0 sB.type hB] at this
    simp at this
    exact hAB this.symm
  have missB : siblings_present env sB.type u
      (env.dm_create (own_task dB sB u) (env.dm_create (own_task dA sA u) w0).2).2 =
      false := by
    rw [← Bool.not_eq_true, siblings_present_iff env u _ sB.type hB]
    intro hall
    have := hall sC.type hC (fun h => hBC h.symm)
    rw [accB sC.type hC, accA sC.type hC, h0 sC.type hC] at this
    simp at this
    rcases this with h | h
    · exact hAC h.symm
    · exact hBC h.symm
  have allC : ∀ t, t ≤ 2 → env.access (role_path u t)
      (env.dm_create (own_task dC sC u)
        (env.dm_create (own_task dB sB u) (env.dm_create (own_task dA sA u) w0).2).2).2 =
      true := by
    intro t ht
    rw [accC t ht, accB t ht, accA t ht, h0 t ht]
    have : t = sA.type ∨ t = sB.type ∨ t = sC.type := by omega
    rcases this with h | h | h <;> simp [h]
  have presC : siblings_present env sC.type u
      (env.dm_create (own_task dC sC u)
        (env.dm_create (own_task dB sB u) (env.dm_create (own_task dA sA u) w0).2).2).2 =
      true := by
    rw [siblings_present_iff env u _ sC.type hC]
    exact fun t ht _ => allC t ht
  obtain ⟨n, hn⟩ := (assemble_phase_single env henv dC sC u _ hC).2 presC
  refine ⟨_, _, _, n, (assemble_phase_single env henv dA sA u w0 hA).1 missA,
    (assemble_phase_single env henv dB sB u _ hB).1 missB, hn, ?_, ?_⟩
  · intro t ht
    rw [henv.2.1, allC t ht]
    rfl
  · rw [henv.2.1, ← composite_path_eq sC u n]
    simp

theorem zc_sb_uuid_format_congr (big_endian : Bool) (s1 s2 : zc_sb_v0)
    (hlo : s1.uuid_lo = s2.uuid_lo) (hhi : s1.uuid_hi = s2.uuid_hi) :
    zc_sb_uuid_format big_endian s1 = zc_sb_uuid_format big_endian s2 := by
  simp only [zc_sb_uuid_format, zc_sb_v0_uuid_get, hlo, hhi]

theorem main_of_trigger_ok {σ : Type} (env : Env σ) (probe : DevProbe) (argv : List String)
    (dev : String) (sb : zc_sb_v0) (fuel : Nat)
    (h : trigger_ok env.big_endian probe argv dev sb fuel) (w : σ) :
    main env probe argv fuel w =
      some (assemble_phase env dev sb (zc_sb_uuid_format env.big_endian sb) w) := by
  obtain ⟨⟨prog, hargv⟩, hopen, hstat, hread, hclose, hsb, hvalid, hwait⟩ := h
  rcases hargv with ha | ha
  · exact main_eq_assemble_phase env probe argv prog dev true sb.dev_major fuel w sb
      (Or.inl ⟨ha, rfl⟩) hopen hstat hread hclose hsb hvalid rfl hwait
  · exact main_eq_assemble_phase env probe argv prog dev false sb.dev_major fuel w sb
      (Or.inr ⟨ha, rfl⟩) hopen hstat hread hclose hsb hvalid rfl hwait

/-- Three coordinator executions in a row, as `three_phases`. -/
theorem three_runs {σ : Type} (env : Env σ) (henv : env_creates_nodes env) (fuel : Nat)
    (u : String) (pA pB pC : DevProbe) (aA aB aC : List String) (dA dB dC : String)
    (sA sB sC : zc_sb_v0) (w0 : σ)
    (mA : ∀ w, main env pA aA fuel w = some (assemble_phase env dA sA u w))
    (mB : ∀ w, main env pB aB fuel w = some (assemble_phase env dB sB u w))
    (mC : ∀ w, main env pC aC fuel w = some (assemble_phase env dC sC u w))
    (hA : sA.type ≤ 2) (hB : sB.type ≤ 2) (hC : sC.type ≤ 2)
    (hAB : sA.type ≠ sB.type) (hAC : sA.type ≠ sC.type) (hBC : sB.type ≠ sC.type)
    (h0 : ∀ t, t ≤ 2 → env.access (role_path u t) w0 = false) :
    ∃ r1 r2 r3 n,
      run_sequence env fuel [(pA, aA), (pB, aB), (pC, aC)] w0 = some [r1, r2, r3] ∧
      r1.exit = some Exit.success ∧ r2.exit = some Exit.success ∧
      r3.exit = some Exit.success ∧
      r1.attempts = own_components dA sA u ∧
      r2.attempts = own_components dB sB u ∧
      r3.attempts = own_components dC sC u ++ [composite_task sC u n] ∧
      (r1.attempts ++ r2.attempts ++ r3.attempts).map (fun t => t.target) =
        ["linear", "linear", "linear", "cache"] ∧
      env.access (o_dev_path u) r3.world = true ∧
      env.access (c_dev_path u) r3.world = true ∧
      env.access (md_dev_path u) r3.world = true ∧
      env.access (composite_path u) r3.world = true := by
  obtain ⟨wA, wB, wC, n, eA, eB, eC, hall, hcomp⟩ :=
    three_phases env henv u dA dB dC sA sB sC w0 hA hB hC hAB hAC hBC h0
  refine ⟨{ exit := some Exit.success, attempts := [own_task dA sA u], world := wA },
    { exit := some Exit.success, attempts := [own_task dB sB u], world := wB },
    { exit := some Exit.success, attempts := [own_task dC sC u, composite_task sC u n],
      world := wC }, n, ?_, rfl, rfl, rfl, ?_, ?_, ?_, ?_, ?_, ?_, ?_, hcomp⟩
  · simp only [run_sequence, mA, mB, mC, eA, eB, eC, Option.map_some']
  · rw [own_components_single dA sA u hA]
  · rw [own_components_single dB sB u hB]
  · rw [own_components_single dC sC u hC]; rfl
  · rfl
  · exact hall 0 (by omega)
  · exact hall 1 (by omega)
  · exact hall 2 (by omega)

theorem dm_world_creates_nodes (big_endian : Bool) : env_creates_nodes (dm_world big_endian) := by
  refine ⟨fun _ _ => rfl, ?_, ?_⟩
  · intro path task w
    simp [dm_world, List.any_append]
  · intro path w h
    simp only [dm_world, List.any_eq_true] at h
    obtain ⟨t, ht, hp⟩ := h
    simp only [dm_world, Option.isSome_map']
    rw [List.find?_isSome]
    exact ⟨t, ht, hp⟩

/-- C12. Assembly convergence.  In an environment where every device-mapper
creation succeeds and makes its node exist, starting with no component node of
the cache set present, take three devices carrying valid Origin, Cache and
Metadata superblocks with one set identifier and matching device majors, and
run the coordinator once per device, one after the other, in any of the six
orders.  Every execution exits with success; the first two create exactly their
own component, the last creates its own component and then the composite, so
three linear component mappings and one cache composite are created in all; and
in the final state the three component nodes and the composite node exist. -/
theorem assembly_converges {σ : Type} (env : Env σ) (fuel : Nat) (w0 : σ)
    (po pc pm : DevProbe) (ao ac am : List String) (dvo dvc dvm : String)
    (so sc sm : zc_sb_v0) (u : String) (order : List Nat)
    (henv : env_creates_nodes env)
    (ho : trigger_ok env.big_endian po ao dvo so fuel)
    (hc : trigger_ok env.big_endian pc ac dvc sc fuel)
    (hm : trigger_ok env.big_endian pm am dvm sm fuel)
    (hto : so.type = 0) (htc : sc.type = 1) (htm : sm.type = 2)
    (hu : u = zc_sb_uuid_format env.big_endian so)
    (hclo : sc.uuid_lo = so.uuid_lo) (hchi : sc.uuid_hi = so.uuid_hi)
    (hmlo : sm.uuid_lo = so.uuid_lo) (hmhi : sm.uuid_hi = so.uuid_hi)
    (hw0 : ∀ t, t ≤ 2 → env.access (role_path u t) w0 = false)
    (horder : order ∈ six_orders) :
    ∃ r1 r2 r3 n,
      run_sequence env fuel (order.map fun i => (pick i po pc pm, pick i ao ac am)) w0 =
        some [r1, r2, r3] ∧
      r1.exit = some Exit.success ∧ r2.exit = some Exit.success ∧
      r3.exit = some Exit.success ∧
      r1.attempts =
        own_components (pick (order.getD 0 0) dvo dvc dvm) (pick (order.getD 0 0) so sc sm) u ∧
      r2.attempts =
        own_components (pick (order.getD 1 0) dvo dvc dvm) (pick (order.getD 1 0) so sc sm) u ∧
      r3.attempts =
        own_components (pick (order.getD 2 0) dvo dvc dvm) (pick (order.getD 2 0) so sc sm) u ++
          [composite_task (pick (order.getD 2 0) so sc sm) u n] ∧
      (r1.attempts ++ r2.attempts ++ r3.attempts).map (fun t => t.target) =
        ["linear", "linear", "linear", "cache"] ∧
      env.access (o_dev_path u) r3.world = true ∧
      env.access (c_dev_path u) r3.world = true ∧
      env.access (md_dev_path u) r3.world = true ∧
      env.access (composite_path u) r3.world = true := by
  have mo : ∀ w, main env po ao fuel w = some (assemble_phase env dvo so u w) := by
    intro w; rw [hu]; exact main_of_trigger_ok env po ao dvo so fuel ho w
  have mc : ∀ w, main env pc ac fuel w = some (assemble_phase env dvc sc u w) := by
    intro w
    rw [hu, ← zc_sb_uuid_format_congr env.big_endian sc so hclo hchi]
    exact main_of_trigger_ok env pc ac dvc sc fuel hc w
  have mm : ∀ w, main env pm am fuel w = some (assemble_phase env dvm sm u w) := by
    intro w
    rw [hu, ← zc_sb_uuid_format_congr env.big_endian sm so hmlo hmhi]
    exact main_of_trigger_ok env pm am dvm sm fuel hm w
  have h0 : so.type ≤ 2 := by omega
  have h1 : sc.type ≤ 2 := by omega
  have h2 : sm.type ≤ 2 := by omega
  simp only [six_orders, List.mem_cons, List.mem_singleton, List.not_mem_nil, or_false]
    at horder
  rcases horder with rfl | rfl | rfl | rfl | rfl | rfl
  · exact three_runs env henv fuel u po pc pm ao ac am dvo dvc dvm so sc sm w0 mo mc mm
      h0 h1 h2 (by omega) (by omega) (by omega) hw0
  · exact three_runs env henv fuel u po pm pc ao am ac dvo dvm dvc so sm sc w0 mo mm mc
      h0 h2 h1 (by omega) (by omega) (by omega) hw0
  · exact three_runs env henv fuel u pc po pm ac ao am dvc dvo dvm sc so sm w0 mc mo mm
      h1 h0 h2 (by omega) (by omega) (by omega) hw0
  · exact three_runs env henv fuel u pc pm po ac am ao dvc dvm dvo sc sm so w0 mc mm mo
      h1 h2 h0 (by omega) (by omega) (by omega) hw0
  · exact three_runs env henv fuel u pm po pc am ao ac dvm dvo dvc sm so sc w0 mm mo mc
      h2 h0 h1 (by omega) (by omega) (by omega) hw0
  · exact three_runs env henv fuel u pm pc po am ac ao dvm dvc dvo sm sc so w0 mm mc mo
      h2 h1 h0 (by omega) (by omega) (by omega) hw0

theorem assembly_converges_witness :
    (run_sequence (dm_world false) 1
      ([2, 0, 1].map fun i =>
        (pick i (example_probe (example_origin_sb.words.flatMap le_bytes))
            (example_probe (example_cache_sb.words.flatMap le_bytes))
            (example_probe (example_metadata_sb.words.flatMap le_bytes)),
         pick i ["zcstart", "/dev/sdb"] ["zcstart", "/dev/sdc"] ["zcstart", "/dev/sdd"]))
      []).map (fun rs => rs.map fun r => r.attempts.map fun t => t.name) =
    some [["zodcache-01020304-0506-0708-090a-0b0c0d0e0f10-metadata"],
          ["zodcache-01020304-0506-0708-090a-0b0c0d0e0f10-origin"],
          ["zodcache-01020304-0506-0708-090a-0b0c0d0e0f10-cache",
           "zodcache-01020304-0506-0708-090a-0b0c0d0e0f10"]] := by
  obtain ⟨r1, r2, r3, n, h, -, -, -, a1, a2, a3, -⟩ :=
    assembly_converges (dm_world false) 1 []
      (example_probe (example_origin_sb.words.flatMap le_bytes))
      (example_probe (example_cache_sb.words.flatMap le_bytes))
      (example_probe (example_metadata_sb.words.flatMap le_bytes))
      ["zcstart", "/dev/sdb"] ["zcstart", "/dev/sdc"] ["zcstart", "/dev/sdd"]
      "/dev/sdb" "/dev/sdc" "/dev/sdd"
      example_origin_sb example_cache_sb example_metadata_sb
      "01020304-0506-0708-090a-0b0c0d0e0f10" [2, 0, 1]
      (dm_world_creates_nodes false)
      ⟨⟨"zcstart", Or.inr rfl⟩, rfl, rfl, rfl, rfl, by decide, by decide, rfl⟩
      ⟨⟨"zcstart", Or.inr rfl⟩, rfl, rfl, rfl, rfl, by decide, by decide, rfl⟩
      ⟨⟨"zcstart", Or.inr rfl⟩, rfl, rfl, rfl, rfl, by decide, by decide, rfl⟩
      rfl rfl rfl (by decide) rfl rfl rfl rfl (fun _ _ => rfl) (by decide)
  rw [h, Option.map_some', List.map_cons, List.map_cons, List.map_cons, List.map_nil,
    a1, a2, a3]
  rfl

/-- The six orders are pairwise different arrangements of the three roles, so
they are all of them. -/
theorem six_orders_complete :
    (∀ l ∈ six_orders, l.Perm [0, 1, 2]) ∧ six_orders.Nodup ∧ six_orders.length = 6 := by
  decide

/-! ### The checksum field and the checksum -/

theorem cksum_body_cksum_idx (w w' : Nat) (st : CkState) :
    cksum_body 1 w st = cksum_body 1 w' st := by
  simp [cksum_body, ZC_SB_V0_CKSUM_IDX]

theorem cksum_final_with_cksum (sb : zc_sb_v0) (x : Nat) :
    cksum_final { sb with cksum := x } = cksum_final sb := by
  simp only [cksum_final, words_take, zc_sb_v0.words, cksum_loop]
  rw [cksum_body_cksum_idx x sb.cksum]

theorem zc_sb_v0_cksum_with_cksum (sb : zc_sb_v0) (x : Nat) :
    zc_sb_v0_cksum { sb with cksum := x } = zc_sb_v0_cksum sb := by
  simp only [zc_sb_v0_cksum, cksum_final_with_cksum]

/-- C23. `zc_sb_v0_cksum` does not depend on the checksum field: replacing it
by any value leaves the computed checksum unchanged.  Hence a record whose
checksum field is set to its own computed checksum, as the formatter does,
carries a stored checksum equal to the recomputed one. -/
theorem zc_sb_v0_cksum_ignores_cksum (sb : zc_sb_v0) (x : Nat) :
    zc_sb_v0_cksum { sb with cksum := x } = zc_sb_v0_cksum sb ∧
    ({ sb with cksum := zc_sb_v0_cksum sb } : zc_sb_v0).cksum =
      zc_sb_v0_cksum { sb with cksum := zc_sb_v0_cksum sb } :=
  ⟨zc_sb_v0_cksum_with_cksum sb x, (zc_sb_v0_cksum_with_cksum sb _).symm⟩

/-- C29. The checksum does not detect every change to a single field: two
well-formed records that differ only in the low 32-bit half of `dev_major`, one
holding 0 and the other 4294967291 (the modulus), have the same checksum. -/
theorem zc_sb_v0_cksum_collision :
    ({ example_origin_sb with dev_major := 0 } : zc_sb_v0).wf ∧
    ({ example_origin_sb with dev_major := 4294967291 } : zc_sb_v0).wf ∧
    ({ example_origin_sb with dev_major := 0 } : zc_sb_v0) ≠
      { example_origin_sb with dev_major := 4294967291 } ∧
    ({ example_origin_sb with dev_major := 4294967291 } : zc_sb_v0) =
      { ({ example_origin_sb with dev_major := 0 } : zc_sb_v0) with
        dev_major := 4294967291 } ∧
    (4294967291 % 2 ^ 32 - 0 % 2 ^ 32 = 4294967291 ∧
      4294967291 / 2 ^ 32 = 0 / 2 ^ 32) ∧
    zc_sb_v0_cksum { example_origin_sb with dev_major := 0 } =
      zc_sb_v0_cksum { example_origin_sb with dev_major := 4294967291 } := by
  decide

/-! ### Unknown roles -/

/-- C22 as stated fails on the text: for a record whose role value is 7 the
last issue delivered is `Invalid device type`; no issue reads
`invalid device role`. -/
theorem unknown_role_issue_text :
    example_unknown_role_sb.type > 3 ∧
    (∀ i c, (sb_check_cb i c).1 = true) ∧
    (zc_sb_v0_check example_unknown_role_sb (some sb_check_cb) []).2 =
      ["Invalid device type"] ∧
    "invalid device role" ∉ (zc_sb_v0_check example_unknown_role_sb (some sb_check_cb) []).2 :=
  ⟨by decide, sb_check_cb_continues, by decide, by decide⟩

theorem role_issue_list_unknown (sb : zc_sb_v0) (h : sb.type > 3) :
    role_issue_list sb = ["Invalid device type"] := by
  have h0 : sb.type ≠ 0 := by omega
  have h1 : sb.type ≠ 1 := by omega
  have h2 : sb.type ≠ 2 := by omega
  have h3 : sb.type ≠ 3 := by omega
  simp [role_issue_list, ZC_SB_TYPE_ORIGIN, ZC_SB_TYPE_CACHE, ZC_SB_TYPE_METADATA,
    ZC_SB_TYPE_COMBINED, h0, h1, h2, h3]

theorem opt_issue_count (c : Bool) (msg t : String) (h : msg ≠ t) :
    (opt_issue c msg).count t = 0 := by
  cases c <;> simp [opt_issue, List.count_cons, h]

/-- The issues raised before the role dispatch. -/
theorem check_issue_list_unknown (sb : zc_sb_v0) (h : sb.type > 3) :
    ∃ front, check_issue_list sb = front ++ ["Invalid device type"] ∧
      front.count "Invalid device type" = 0 := by
  refine ⟨opt_issue (decide (sb.magic ≠ ZC_SB_MAGIC)) "Incorrect magic number" ++
    (opt_issue (decide (sb.cksum ≠ zc_sb_v0_cksum sb)) "Incorrect superblock checksum" ++
    (opt_issue (decide (sb.version ≠ 0)) "Incorrect superblock version" ++
    (opt_issue (decide (sb.size ≠ ZC_SB_V0_SIZE)) "Incorrect superblock size" ++
    (block_size_issue_list sb.block_size ++
    opt_issue (decide (sb.cache_mode > ZC_SB_MODE_PASSTHROUGH)) "Invalid cache mode")))),
    ?_, ?_⟩
  · simp only [check_issue_list, role_issue_list_unknown sb h, List.append_assoc]
  · simp only [List.count_append, block_size_issue_list]
    rw [opt_issue_count _ _ _ (by decide), opt_issue_count _ _ _ (by decide),
      opt_issue_count _ _ _ (by decide), opt_issue_count _ _ _ (by decide),
      opt_issue_count _ _ _ (by decide), opt_issue_count _ _ _ (by decide),
      opt_issue_count _ _ _ (by decide), opt_issue_count _ _ _ (by decide)]

/-- C22, amended.  For every record whose role value is not one of the four
known roles, `zc_sb_v0_check` run with a sink that always signals continue
delivers, after all other issues, exactly one issue for the role, and its text
is `Invalid device type`. -/
theorem zc_sb_v0_check_unknown_role {σ : Type} (sb : zc_sb_v0) (cb : IssueCb σ) (ctx : σ)
    (hrole : sb.type > 3) (hcont : ∀ i c, (cb i c).1 = true) :
    zc_sb_v0_check sb (some cb) ctx =
      (true, (zc_sb_v0_issues sb).foldl (deliver cb) ctx) ∧
    (zc_sb_v0_issues sb).getLast? = some "Invalid device type" ∧
    (zc_sb_v0_issues sb).count "Invalid device type" = 1 ∧
    (violated_rules sb).getLast? = some Rule.unknownRole := by
  obtain ⟨front, hf, hc⟩ := check_issue_list_unknown sb hrole
  refine ⟨?_, ?_, ?_, ?_⟩
  · rw [zc_sb_v0_check_cont cb hcont, zc_sb_v0_issues_eq_list]
  · rw [zc_sb_v0_issues_eq_list, hf]
    simp
  · rw [zc_sb_v0_issues_eq_list, hf, List.count_append, hc]
    rfl
  · have hv : Rule.violated sb Rule.unknownRole = true := by
      simp [Rule.violated, hrole]
    simp only [violated_rules, Rule.all]
    have e : ∀ l : List Rule, (l ++ [Rule.unknownRole]).filter (Rule.violated sb) =
        l.filter (Rule.violated sb) ++ [Rule.unknownRole] := by
      intro l
      simp [List.filter_append, hv]
    have := e [.magic, .checksum, .version, .declaredSize, .blockTooSmall, .blockTooLarge,
      .blockNotMultiple, .cacheMode, .originOffset, .originSize, .cacheOffset,
      .cacheSize, .metadataOffset, .metadataSize]
    simp only [List.cons_append, List.nil_append] at this
    rw [this]
    simp

theorem zc_sb_v0_check_unknown_role_witness :
    example_unknown_role_sb.type > 3 ∧ (∀ i c, (sb_check_cb i c).1 = true) ∧
    zc_sb_v0_check example_unknown_role_sb (some sb_check_cb) [] =
      (true, ["Invalid device type"]) :=
  ⟨by decide, sb_check_cb_continues,
    ((zc_sb_v0_check_unknown_role example_unknown_role_sb sb_check_cb [] (by decide)
      sb_check_cb_continues).1).trans (by decide)⟩


/-! ### The composite mapping -/

/-- With every required sibling present and origin size `L`, `try_assemble`
runs exactly the composite creation for `L`, and exits with failure only when
that creation fails. -/
theorem try_assemble_run {σ : Type} (env : Env σ) (sb : zc_sb_v0) (uuid : String) (w : σ)
    (L : Nat) (hrole : sb.type ≤ 3) (hpres : siblings_present env sb.type uuid w = true)
    (hL : (if sb.type = ZC_SB_TYPE_ORIGIN then some sb.o_size
      else env.get_dev_size (o_dev_path uuid) w) = some L) :
    try_assemble env sb uuid w = run_create env (composite_task sb uuid L) w := by
  have hm : siblings_missing env sb uuid w = false := by
    rw [siblings_missing_eq env sb uuid w hrole, hpres]; rfl
  simp only [try_assemble, hm, Bool.false_eq_true, if_false, hL]

theorem valid_block_size_sectors (sb : zc_sb_v0) (h : zc_sb_v0_is_valid sb = true) :
    512 * (sb.block_size / 512) = sb.block_size := by
  obtain ⟨-, -, -, -, ⟨-, -, hd⟩, -, -⟩ := (zc_sb_v0_is_valid_eq sb).1 h
  omega

theorem valid_cache_mode_name (sb : zc_sb_v0) (h : zc_sb_v0_is_valid sb = true) :
    (zc_cache_mode_format sb.cache_mode false).1 =
      some (pick sb.cache_mode "writeback" "writethrough" "passthrough") := by
  obtain ⟨-, -, -, -, -, hm, -⟩ := (zc_sb_v0_is_valid_eq sb).1 h
  have h3 : sb.cache_mode = 0 ∨ sb.cache_mode = 1 ∨ sb.cache_mode = 2 := by omega
  rcases h3 with h3 | h3 | h3 <;> rw [h3] <;> decide

/-- C21. When all required siblings exist, `try_assemble` creates the
composite as a single `cache` target starting at sector 0 with length `L / 512`
sectors, where `L` is `sb.o_size` when the triggering device is the origin and
otherwise the queried byte size of the origin component node, with the
parameter string `<metadata path> <cache path> <origin path> <block_size/512>
1 <cache mode name> default 0`, and it fails only if that creation fails; for
every valid superblock `block_size / 512` is exact and the cache mode name is
the canonical name of `sb.cache_mode`. -/
theorem try_assemble_creates_composite {σ : Type} (env : Env σ) (sb : zc_sb_v0)
    (uuid : String) (w : σ) (L : Nat) (hrole : sb.type ≤ 3)
    (hpres : siblings_present env sb.type uuid w = true)
    (hL : (sb.type = ZC_SB_TYPE_ORIGIN → L = sb.o_size) ∧
      (sb.type ≠ ZC_SB_TYPE_ORIGIN → env.get_dev_size (o_dev_path uuid) w = some L)) :
    (try_assemble env sb uuid w).attempts =
      [{ name := "zodcache-" ++ uuid, start := 0, length := L / 512, target := "cache",
         params := "/dev/mapper/zodcache-" ++ uuid ++ "-metadata" ++ " " ++
           ("/dev/mapper/zodcache-" ++ uuid ++ "-cache") ++ " " ++
           ("/dev/mapper/zodcache-" ++ uuid ++ "-origin") ++ " " ++
           toString (sb.block_size / 512) ++ " 1 " ++
           ((zc_cache_mode_format sb.cache_mode false).1.getD "(null)") ++ " default 0",
         flags := UdevFlags.ZC_DEV_UDEV_FLAGS }] ∧
    ((try_assemble env sb uuid w).exit = some Exit.failure ↔
      (env.dm_create (composite_task sb uuid L) w).1 = false) ∧
    (zc_sb_v0_is_valid sb = true →
      512 * (sb.block_size / 512) = sb.block_size ∧
      (zc_cache_mode_format sb.cache_mode false).1.getD "(null)" =
        pick sb.cache_mode "writeback" "writethrough" "passthrough") := by
  have hL' : (if sb.type = ZC_SB_TYPE_ORIGIN then some sb.o_size
      else env.get_dev_size (o_dev_path uuid) w) = some L := by
    by_cases h0 : sb.type = ZC_SB_TYPE_ORIGIN
    · rw [if_pos h0, hL.1 h0]
    · rw [if_neg h0, hL.2 h0]
  rw [try_assemble_run env sb uuid w L hrole hpres hL']
  refine ⟨?_, ?_, ?_⟩
  · rw [run_create_attempts]
    rfl
  · unfold run_create
    rcases hc : env.dm_create (composite_task sb uuid L) w with ⟨b, w1⟩
    cases b <;> simp
  · intro hv
    refine ⟨valid_block_size_sectors sb hv, ?_⟩
    rw [valid_cache_mode_name sb hv]
    rfl

theorem try_assemble_creates_composite_witness :
    (try_assemble (node_env false) example_cache_sb "u"
        ["/dev/mapper/zodcache-u-origin", "/dev/mapper/zodcache-u-metadata"]).attempts =
      [{ name := "zodcache-u", start := 0, length := 2048, target := "cache",
         params := "/dev/mapper/zodcache-u-metadata /dev/mapper/zodcache-u-cache " ++
           "/dev/mapper/zodcache-u-origin 512 1 writeback default 0",
         flags := UdevFlags.ZC_DEV_UDEV_FLAGS }] :=
  ((try_assemble_creates_composite (node_env false) example_cache_sb "u"
    ["/dev/mapper/zodcache-u-origin", "/dev/mapper/zodcache-u-metadata"] 1048576
    (by decide) (by decide) ⟨by decide, fun _ => by decide⟩).1).trans (by decide)


/-! ### Unreachable branches -/

theorem do_component_exit {σ : Type} (env : Env σ) (dev type : String) (offset size : Nat)
    (uuid : String) (w : σ) :
    (do_component env dev type offset size uuid w).exit ≠ some Exit.abort := by
  unfold do_component
  rcases run_create_exit env (component_task dev type offset size uuid) w with h | h <;>
    simp [h]

theorem andThen_exit_ne_abort {σ : Type} (r : Run σ) (next : σ → Run σ)
    (hr : r.exit ≠ some Exit.abort) (hn : ∀ w, (next w).exit ≠ some Exit.abort) :
    (r.andThen next).exit ≠ some Exit.abort := by
  unfold Run.andThen
  cases he : r.exit with
  | some e => simpa [he] using hr
  | none => simpa using hn r.world

/-- For a known role the `switch` of `main` never reaches its default
branch. -/
theorem materialize_exit_ne_abort {σ : Type} (env : Env σ) (dev : String) (sb : zc_sb_v0)
    (uuid : String) (w : σ) (hrole : sb.type ≤ 3) :
    (materialize env dev sb uuid w).exit ≠ some Exit.abort := by
  have h : sb.type = 0 ∨ sb.type = 1 ∨ sb.type = 2 ∨ sb.type = 3 := by omega
  rcases h with h | h | h | h
  · simpa [materialize, h, ZC_SB_TYPE_ORIGIN] using do_component_exit env dev _ _ _ uuid w
  · simpa [materialize, h, ZC_SB_TYPE_ORIGIN, ZC_SB_TYPE_CACHE] using
      do_component_exit env dev _ _ _ uuid w
  · simpa [materialize, h, ZC_SB_TYPE_ORIGIN, ZC_SB_TYPE_CACHE, ZC_SB_TYPE_METADATA] using
      do_component_exit env dev _ _ _ uuid w
  · simpa [materialize, h, ZC_SB_TYPE_ORIGIN, ZC_SB_TYPE_CACHE, ZC_SB_TYPE_METADATA,
      ZC_SB_TYPE_COMBINED] using
      andThen_exit_ne_abort _ _ (do_component_exit env dev "cache" _ _ uuid w)
        (fun w1 => do_component_exit env dev "metadata" sb.md_offset sb.md_size uuid w1)

theorem try_assemble_exit_ne_abort {σ : Type} (env : Env σ) (sb : zc_sb_v0) (uuid : String)
    (w : σ) : (try_assemble env sb uuid w).exit ≠ some Exit.abort := by
  unfold try_assemble
  by_cases hm : siblings_missing env sb uuid w = true
  · simp [hm]
  · simp only [hm, Bool.false_eq_true, if_false]
    cases ho : (if sb.type = ZC_SB_TYPE_ORIGIN then some sb.o_size
        else env.get_dev_size (o_dev_path uuid) w) with
    | none => simp
    | some n =>
      rcases run_create_exit env (composite_task sb uuid n) w with h | h <;> simp [h]

theorem assemble_phase_exit_ne_abort {σ : Type} (env : Env σ) (dev : String) (sb : zc_sb_v0)
    (uuid : String) (w : σ) (hrole : sb.type ≤ 3) :
    (assemble_phase env dev sb uuid w).exit ≠ some Exit.abort := by
  unfold assemble_phase
  refine andThen_exit_ne_abort _ _ (andThen_exit_ne_abort _ _
    (materialize_exit_ne_abort env dev sb uuid w hrole)
    (fun w1 => try_assemble_exit_ne_abort env sb uuid w1)) ?_
  intro w1
  simp

theorem stop_ne_abort {σ : Type} (e : Exit) (w : σ) (r : Run σ) (he : e ≠ Exit.abort)
    (h : some ({ exit := some e, attempts := [], world := w } : Run σ) = some r) :
    r.exit ≠ some Exit.abort := by
  obtain rfl := Option.some.inj h
  intro hh
  exact he (Option.some.inj hh)

/-- No run of `main` ends in `abort`: the `switch` is only reached with a
superblock that passed `zc_sb_v0_is_valid`. -/
theorem main_exit_ne_abort {σ : Type} (env : Env σ) (probe : DevProbe) (argv : List String)
    (fuel : Nat) (w : σ) (r : Run σ) (h : main env probe argv fuel w = some r) :
    r.exit ≠ some Exit.abort := by
  unfold main at h
  simp only at h
  generalize zc_sb_v0_read env.big_endian probe.read_ret probe.read_buf = rd at h
  have hu : (if decide (argv.length = 3) = true then Exit.success else Exit.failure) ≠
      Exit.abort := by split_ifs <;> decide
  by_cases h1 : argv.length ≠ 3 ∧ argv.length ≠ 2
  · rw [if_pos h1] at h
    exact stop_ne_abort _ w r (by decide) h
  rw [if_neg h1] at h
  by_cases h2 : argv.length = 3 ∧ argv.getD 1 "" ≠ "--udev"
  · rw [if_pos h2] at h
    exact stop_ne_abort _ w r (by decide) h
  rw [if_neg h2] at h
  by_cases h3 : (!probe.open_ok) = true
  · rw [if_pos h3] at h
    exact stop_ne_abort _ w r (by decide) h
  rw [if_neg h3] at h
  cases hf : probe.fstat with
  | none =>
    rw [hf] at h
    exact stop_ne_abort _ w r (by decide) h
  | some pr =>
    obtain ⟨is_blk, dev_major⟩ := pr
    rw [hf] at h
    simp only at h
    by_cases h4 : (!is_blk) = true
    · rw [if_pos h4] at h
      exact stop_ne_abort _ w r (by decide) h
    rw [if_neg h4] at h
    by_cases h5 : rd.1 < 0
    · rw [if_pos h5] at h
      exact stop_ne_abort _ w r (by decide) h
    rw [if_neg h5] at h
    by_cases h6 : (!probe.close_ok) = true
    · rw [if_pos h6] at h
      exact stop_ne_abort _ w r (by decide) h
    rw [if_neg h6] at h
    by_cases h7 : (decide (argv.length = 3) && decide (rd.2.magic ≠ ZC_SB_MAGIC)) = true
    · rw [if_pos h7] at h
      exact stop_ne_abort _ w r (by decide) h
    rw [if_neg h7] at h
    by_cases h8 : (!zc_sb_v0_is_valid rd.2) = true
    · rw [if_pos h8] at h
      exact stop_ne_abort _ w r hu h
    rw [if_neg h8] at h
    by_cases h9 : rd.2.dev_major ≠ dev_major
    · rw [if_pos h9] at h
      exact stop_ne_abort _ w r hu h
    rw [if_neg h9] at h
    have hv : zc_sb_v0_is_valid rd.2 = true := by simpa using h8
    cases hw : wait_for_dev probe.excl_open probe.excl_close_ok fuel 0 with
    | none => rw [hw] at h; cases h
    | some b =>
      rw [hw] at h
      cases b
      · exact stop_ne_abort _ w r (by decide) h
      · obtain rfl := Option.some.inj h
        exact assemble_phase_exit_ne_abort env _ _ _ w (valid_type_le _ hv)


theorem materialize_unknown_role {σ : Type} (env : Env σ) (dev : String) (sb : zc_sb_v0)
    (uuid : String) (w : σ) (hrole : sb.type > 3) :
    materialize env dev sb uuid w = { exit := some Exit.abort, attempts := [], world := w } := by
  have h0 : sb.type ≠ 0 := by omega
  have h1 : sb.type ≠ 1 := by omega
  have h2 : sb.type ≠ 2 := by omega
  have h3 : sb.type ≠ 3 := by omega
  simp [materialize, ZC_SB_TYPE_ORIGIN, ZC_SB_TYPE_CACHE, ZC_SB_TYPE_METADATA,
    ZC_SB_TYPE_COMBINED, h0, h1, h2, h3]

/-- C24. For every superblock that passes `zc_sb_v0_is_valid`, the role value
is one of 0..3 and `cache_mode <= 2`; hence the role switch of the coordinator
never takes its default branch (which aborts, and is taken exactly by role
values above 3), no run of `main` ends in `abort`, and
`zc_cache_mode_format (sb.cache_mode)`, used to build the composite parameter
string, does not return NULL but the table entry of the mode. -/
theorem valid_superblock_no_abort {σ : Type} (sb : zc_sb_v0)
    (hvalid : zc_sb_v0_is_valid sb = true) :
    sb.type ≤ 3 ∧ sb.cache_mode ≤ 2 ∧
    (∀ (env : Env σ) dev uuid w, (materialize env dev sb uuid w).exit ≠ some Exit.abort) ∧
    (∀ (env : Env σ) dev uuid w (sb1 : zc_sb_v0), sb1.type > 3 →
      (materialize env dev sb1 uuid w).exit = some Exit.abort) ∧
    (∀ (env : Env σ) dev uuid w, (assemble_phase env dev sb uuid w).exit ≠ some Exit.abort) ∧
    (∀ (env : Env σ) probe argv fuel w r, main env probe argv fuel w = some r →
      r.exit ≠ some Exit.abort) ∧
    (∀ quiet, (zc_cache_mode_format sb.cache_mode quiet).1 =
      some (zc_cache_modes.getD sb.cache_mode "")) ∧
    (zc_cache_mode_format sb.cache_mode false).1.getD "(null)" ∈ zc_cache_modes := by
  have hrole := valid_type_le sb hvalid
  obtain ⟨-, -, -, -, -, hm, -⟩ := (zc_sb_v0_is_valid_eq sb).1 hvalid
  have hfmt : ∀ quiet, (zc_cache_mode_format sb.cache_mode quiet).1 =
      some (zc_cache_modes.getD sb.cache_mode "") := by
    intro quiet
    have : ¬ sb.cache_mode > ZC_SB_MODE_PASSTHROUGH := by
      simp only [ZC_SB_MODE_PASSTHROUGH]; omega
    simp only [zc_cache_mode_format, if_neg this]
  refine ⟨hrole, hm, fun env dev uuid w => materialize_exit_ne_abort env dev sb uuid w hrole,
    fun env dev uuid w sb1 h1 => by rw [materialize_unknown_role env dev sb1 uuid w h1],
    fun env dev uuid w => assemble_phase_exit_ne_abort env dev sb uuid w hrole,
    fun env probe argv fuel w r h => main_exit_ne_abort env probe argv fuel w r h, hfmt, ?_⟩
  rw [hfmt false]
  have h3 : sb.cache_mode = 0 ∨ sb.cache_mode = 1 ∨ sb.cache_mode = 2 := by omega
  rcases h3 with h3 | h3 | h3 <;> rw [h3] <;> decide

theorem valid_superblock_no_abort_witness :
    zc_sb_v0_is_valid example_cache_sb = true ∧
    example_cache_sb.type ≤ 3 ∧ example_cache_sb.cache_mode ≤ 2 ∧
    (zc_cache_mode_format example_cache_sb.cache_mode false).1 = some "writeback" :=
  have h := @valid_superblock_no_abort Unit example_cache_sb (by decide)
  ⟨by decide, h.1, h.2.1, (h.2.2.2.2.2.2.1 false).trans (by decide)⟩


/-! ### Set identifier round trip -/

/-- What `zc_sb_v0_uuid_set` stores for eight identifier bytes is their
little-endian reading, on either host. -/
theorem uuid_half_stored (big_endian : Bool) (b0 b1 b2 b3 b4 b5 b6 b7 : Nat)
    (h0 : b0 < 256) (h1 : b1 < 256) (h2 : b2 < 256) (h3 : b3 < 256)
    (h4 : b4 < 256) (h5 : b5 < 256) (h6 : b6 < 256) (h7 : b7 < 256) :
    (if big_endian then bswap_64 (load64 big_endian [b0, b1, b2, b3, b4, b5, b6, b7])
      else load64 big_endian [b0, b1, b2, b3, b4, b5, b6, b7]) =
      of_le_bytes [b0, b1, b2, b3, b4, b5, b6, b7] := by
  cases big_endian
  · simp [load64]
  · have hr : [b0, b1, b2, b3, b4, b5, b6, b7].reverse = [b7, b6, b5, b4, b3, b2, b1, b0] := rfl
    simp only [load64, if_true]
    rw [hr, bswap_64, le_bytes_of_le_bytes b7 b6 b5 b4 b3 b2 b1 b0 h7 h6 h5 h4 h3 h2 h1 h0]
    rfl

theorem of_le_bytes_lt (b0 b1 b2 b3 b4 b5 b6 b7 : Nat)
    (h0 : b0 < 256) (h1 : b1 < 256) (h2 : b2 < 256) (h3 : b3 < 256)
    (h4 : b4 < 256) (h5 : b5 < 256) (h6 : b6 < 256) (h7 : b7 < 256) :
    of_le_bytes [b0, b1, b2, b3, b4, b5, b6, b7] < U64 := by
  simp only [of_le_bytes, U64]
  omega

theorem uuid_set_eq (big_endian : Bool) (u : List Nat) (sb : zc_sb_v0)
    (hlen : u.length = 16) (hb : ∀ b ∈ u, b < 256) :
    zc_sb_v0_uuid_set big_endian u sb =
      { sb with uuid_lo := of_le_bytes (u.take 8), uuid_hi := of_le_bytes (u.drop 8) } ∧
    le_bytes (of_le_bytes (u.take 8)) ++ le_bytes (of_le_bytes (u.drop 8)) = u ∧
    of_le_bytes (u.take 8) < U64 ∧ of_le_bytes (u.drop 8) < U64 := by
  match u, hlen, hb with
  | [b0, b1, b2, b3, b4, b5, b6, b7, c0, c1, c2, c3, c4, c5, c6, c7], _, hb =>
    have h0 := hb b0 (by simp)
    have h1 := hb b1 (by simp)
    have h2 := hb b2 (by simp)
    have h3 := hb b3 (by simp)
    have h4 := hb b4 (by simp)
    have h5 := hb b5 (by simp)
    have h6 := hb b6 (by simp)
    have h7 := hb b7 (by simp)
    have g0 := hb c0 (by simp)
    have g1 := hb c1 (by simp)
    have g2 := hb c2 (by simp)
    have g3 := hb c3 (by simp)
    have g4 := hb c4 (by simp)
    have g5 := hb c5 (by simp)
    have g6 := hb c6 (by simp)
    have g7 := hb c7 (by simp)
    have et : [b0, b1, b2, b3, b4, b5, b6, b7, c0, c1, c2, c3, c4, c5, c6, c7].take 8 =
        [b0, b1, b2, b3, b4, b5, b6, b7] := rfl
    have ed : [b0, b1, b2, b3, b4, b5, b6, b7, c0, c1, c2, c3, c4, c5, c6, c7].drop 8 =
        [c0, c1, c2, c3, c4, c5, c6, c7] := rfl
    have edt : [c0, c1, c2, c3, c4, c5, c6, c7].take 8 = [c0, c1, c2, c3, c4, c5, c6, c7] := rfl
    refine ⟨?_, ?_, ?_, ?_⟩
    · simp only [zc_sb_v0_uuid_set, et, ed, edt,
        uuid_half_stored big_endian b0 b1 b2 b3 b4 b5 b6 b7 h0 h1 h2 h3 h4 h5 h6 h7,
        uuid_half_stored big_endian c0 c1 c2 c3 c4 c5 c6 c7 g0 g1 g2 g3 g4 g5 g6 g7]
    · rw [et, ed, le_bytes_of_le_bytes b0 b1 b2 b3 b4 b5 b6 b7 h0 h1 h2 h3 h4 h5 h6 h7,
        le_bytes_of_le_bytes c0 c1 c2 c3 c4 c5 c6 c7 g0 g1 g2 g3 g4 g5 g6 g7]
      rfl
    · rw [et]
      exact of_le_bytes_lt b0 b1 b2 b3 b4 b5 b6 b7 h0 h1 h2 h3 h4 h5 h6 h7
    · rw [ed]
      exact of_le_bytes_lt c0 c1 c2 c3 c4 c5 c6 c7 g0 g1 g2 g3 g4 g5 g6 g7

theorem uuid_get_eq (big_endian : Bool) (sb : zc_sb_v0) :
    zc_sb_v0_uuid_get big_endian sb = le_bytes sb.uuid_lo ++ le_bytes sb.uuid_hi := by
  simp only [zc_sb_v0_uuid_get, store64_bswap_64]

/-- C28. For every 16-byte identifier `u` and every record `sb`,
`zc_sb_v0_uuid_get` applied to the record produced by `zc_sb_v0_uuid_set`
returns `u` byte for byte, on little- and big-endian hosts alike;
`zc_sb_v0_uuid_set` changes no field other than `uuid_lo` and `uuid_hi` (which
receive the little-endian reading of the two halves, keeping the record within
64-bit words); hence `zc_sb_uuid_format` of that record equals
`zc_uuid_format u`. -/
theorem zc_sb_v0_uuid_roundtrip (big_endian : Bool) (u : List Nat) (sb : zc_sb_v0)
    (hlen : u.length = 16) (hb : ∀ b ∈ u, b < 256) :
    zc_sb_v0_uuid_get big_endian (zc_sb_v0_uuid_set big_endian u sb) = u ∧
    zc_sb_v0_uuid_set big_endian u sb =
      { sb with uuid_lo := of_le_bytes (u.take 8), uuid_hi := of_le_bytes (u.drop 8) } ∧
    (sb.wf → (zc_sb_v0_uuid_set big_endian u sb).wf) ∧
    zc_sb_uuid_format big_endian (zc_sb_v0_uuid_set big_endian u sb) = zc_uuid_format u := by
  obtain ⟨hs, hu, hlo, hhi⟩ := uuid_set_eq big_endian u sb hlen hb
  have hg : zc_sb_v0_uuid_get big_endian (zc_sb_v0_uuid_set big_endian u sb) = u := by
    rw [hs, uuid_get_eq]
    exact hu
  refine ⟨hg, hs, ?_, ?_⟩
  · intro hwf
    rw [hs]
    intro x hx
    simp only [zc_sb_v0.words, List.mem_cons, List.mem_singleton, List.not_mem_nil,
      or_false] at hx
    have hw : ∀ y ∈ sb.words, y < U64 := hwf
    simp only [zc_sb_v0.words, List.mem_cons, List.mem_singleton, List.not_mem_nil,
      or_false, forall_eq_or_imp, forall_eq] at hw
    rcases hx with rfl | rfl | rfl | rfl | rfl | rfl | rfl | rfl | rfl | rfl | rfl | rfl |
      rfl | rfl | rfl | rfl <;> simp only [hlo, hhi, hw]
  · rw [zc_sb_uuid_format, hg]

theorem zc_sb_v0_uuid_roundtrip_witness :
    zc_sb_v0_uuid_get true (zc_sb_v0_uuid_set true
        [16, 15, 14, 13, 12, 11, 10, 9, 8, 7, 6, 5, 4, 3, 2, 1] example_origin_sb) =
      [16, 15, 14, 13, 12, 11, 10, 9, 8, 7, 6, 5, 4, 3, 2, 1] ∧
    zc_sb_uuid_format true (zc_sb_v0_uuid_set true
        [16, 15, 14, 13, 12, 11, 10, 9, 8, 7, 6, 5, 4, 3, 2, 1] example_origin_sb) =
      "100f0e0d-0c0b-0a09-0807-060504030201" :=
  have h := zc_sb_v0_uuid_roundtrip true
    [16, 15, 14, 13, 12, 11, 10, 9, 8, 7, 6, 5, 4, 3, 2, 1] example_origin_sb rfl (by decide)
  ⟨h.1, h.2.2.2.trans (by decide)⟩


/-! ### The combined cache size -/

/-- When `combined_cache_size` returns, no step of it wraps, the result is a
whole number `n >= 1` of blocks, and `n` blocks with their 16 bytes of metadata
each fit in what is available beyond 4 MiB. -/
theorem combined_cache_size_eq (A B : Nat) (hA : A < U64)
    (hB : 32768 ≤ B ∧ B ≤ 1073741824 ∧ 32768 ∣ B) :
    (combined_cache_size A B).isSome =
      decide (4194304 + 16 + B ≤ A ∧ A - 4194304 < UINT64_MAX / B) ∧
    ∀ C, combined_cache_size A B = some C →
      (A - 4194304) * B < U64 ∧
      C = (A - 4194304) * B / (B + 16) / B * B ∧
      B ∣ C ∧ B ≤ C ∧ C + 4194304 + 16 * (C / B) ≤ A := by
  obtain ⟨hlo, hhi, hdvd⟩ := hB
  have hmod : B % 32768 = 0 := Nat.mod_eq_zero_of_dvd hdvd
  have hBpos : 0 < B := by omega
  have e1 : (4194304 + 16 + B) % U64 = 4194304 + 16 + B := by
    apply Nat.mod_eq_of_lt; simp only [U64]; omega
  have e2 : (B + 16) % U64 = B + 16 := by
    apply Nat.mod_eq_of_lt; simp only [U64]; omega
  by_cases hmin : A < 4194304 + 16 + B
  · constructor
    · have : ¬ (4194304 + 16 + B ≤ A ∧ A - 4194304 < UINT64_MAX / B) := by omega
      simp [combined_cache_size, hmod, hlo, hhi, e1, hmin, this]
    · intro C hC
      simp [combined_cache_size, hmod, hlo, hhi, e1, hmin] at hC
  · have e3 : (A + U64 - 4194304) % U64 = A - 4194304 := by
      have : A + U64 - 4194304 = (A - 4194304) + U64 := by omega
      rw [this, Nat.add_mod_right]
      apply Nat.mod_eq_of_lt; omega
    by_cases hmax : A - 4194304 ≥ UINT64_MAX / B
    · constructor
      · have : ¬ (4194304 + 16 + B ≤ A ∧ A - 4194304 < UINT64_MAX / B) := by omega
        simp [combined_cache_size, hmod, hlo, hhi, e1, hmin, e3, hmax, this]
      · intro C hC
        simp [combined_cache_size, hmod, hlo, hhi, e1, hmin, e3, hmax] at hC
    · have hX : A - 4194304 < UINT64_MAX / B := by omega
      have hmul : (A - 4194304) * B < U64 := by
        have h1 : (A - 4194304 + 1) * B ≤ UINT64_MAX :=
          (Nat.le_div_iff_mul_le hBpos).1 hX
        have h2 : (A - 4194304) * B ≤ (A - 4194304 + 1) * B :=
          Nat.mul_le_mul_right B (Nat.le_succ _)
        have h3 : UINT64_MAX < U64 := by decide
        omega
      have e4 : (A - 4194304) * B % U64 = (A - 4194304) * B := Nat.mod_eq_of_lt hmul
      have hn : (A - 4194304) * B / (B + 16) / B * B ≤ (A - 4194304) * B / (B + 16) :=
        Nat.div_mul_le_self _ _
      have hY : (A - 4194304) * B / (B + 16) ≤ (A - 4194304) * B := Nat.div_le_self _ _
      have e5 : (A - 4194304) * B / (B + 16) / B * B % U64 =
          (A - 4194304) * B / (B + 16) / B * B := Nat.mod_eq_of_lt (by omega)
      have hval : combined_cache_size A B = some ((A - 4194304) * B / (B + 16) / B * B) := by
        simp only [combined_cache_size, hmod, e1, e2, e3, e4, e5]
        simp [hlo, hhi, hmin, hmax]
      constructor
      · have : 4194304 + 16 + B ≤ A ∧ A - 4194304 < UINT64_MAX / B := ⟨by omega, hX⟩
        simp [hval, this]
      · intro C hC
        rw [hval] at hC
        obtain rfl := Option.some.inj hC
        have hYB : B ≤ (A - 4194304) * B / (B + 16) := by
          rw [Nat.le_div_iff_mul_le (by omega)]
          rw [Nat.mul_comm]
          exact Nat.mul_le_mul_right B (by omega)
        have hn1 : 1 ≤ (A - 4194304) * B / (B + 16) / B := by
          rw [Nat.le_div_iff_mul_le hBpos]
          omega
        have hdiv : (A - 4194304) * B / (B + 16) / B * B / B =
            (A - 4194304) * B / (B + 16) / B := Nat.mul_div_cancel _ hBpos
        have hfit : (A - 4194304) * B / (B + 16) / B * (B + 16) ≤ A - 4194304 := by
          have h1 : (A - 4194304) * B / (B + 16) * (B + 16) ≤ (A - 4194304) * B :=
            Nat.div_mul_le_self _ _
          have h2 : (A - 4194304) * B / (B + 16) / B * B * (B + 16) ≤
              (A - 4194304) * B / (B + 16) * (B + 16) :=
            Nat.mul_le_mul_right _ hn
          have h3 : (A - 4194304) * B / (B + 16) / B * (B + 16) * B ≤ (A - 4194304) * B := by
            calc (A - 4194304) * B / (B + 16) / B * (B + 16) * B
                = (A - 4194304) * B / (B + 16) / B * B * (B + 16) := by ring
              _ ≤ (A - 4194304) * B := le_trans h2 h1
          exact Nat.le_of_mul_le_mul_right h3 hBpos
        refine ⟨hmul, rfl, Dvd.intro_left _ rfl, ?_, ?_⟩
        · calc B = 1 * B := (Nat.one_mul B).symm
            _ ≤ (A - 4194304) * B / (B + 16) / B * B := Nat.mul_le_mul_right B hn1
        · rw [hdiv]
          have hexp : (A - 4194304) * B / (B + 16) / B * (B + 16) =
              (A - 4194304) * B / (B + 16) / B * B +
                16 * ((A - 4194304) * B / (B + 16) / B) := by ring
          omega


/-- C26. For every valid block size `B` and every available size `A` (a 64-bit
value), `combined_cache_size A B` returns exactly when
`A >= 4194304 + 16 + B` and `A - 4194304 < UINT64_MAX / B`; when it returns
`C`, the 64-bit multiplication does not overflow, `C` is the intended
`((A - 4194304) * B / (B + 16)) / B * B`, a multiple of `B` with `C >= B`, and
the space left for metadata covers its fixed and per-block overhead:
`A - C >= 4194304 + 16 * (C / B)`. -/
theorem combined_cache_size_spec (A B : Nat) (hA : A < U64)
    (hB : zc_block_size_is_valid B = true) :
    ((combined_cache_size A B).isSome = true ↔
      (4194304 + 16 + B ≤ A ∧ A - 4194304 < UINT64_MAX / B)) ∧
    ∀ C, combined_cache_size A B = some C →
      (A - 4194304) * B < U64 ∧
      C = (A - 4194304) * B / (B + 16) / B * B ∧
      B ∣ C ∧ B ≤ C ∧ C ≤ A ∧ A - C ≥ 4194304 + 16 * (C / B) := by
  have h := combined_cache_size_eq A B hA ((zc_block_size_is_valid_eq B).1 hB)
  refine ⟨?_, ?_⟩
  · rw [h.1, decide_eq_true_iff]
  · intro C hC
    obtain ⟨h1, h2, h3, h4, h5⟩ := h.2 C hC
    exact ⟨h1, h2, h3, h4, by omega, by omega⟩

theorem combined_cache_size_spec_witness :
    zc_block_size_is_valid 262144 = true ∧ 1073741824 < U64 ∧
    combined_cache_size 1073741824 262144 = some 1069285376 ∧
    1073741824 - 1069285376 ≥ 4194304 + 16 * (1069285376 / 262144) :=
  ⟨by decide, by decide, by decide,
    ((combined_cache_size_spec 1073741824 262144 (by decide) (by decide)).2 1069285376
      (by decide)).2.2.2.2.2⟩


/-! ### The combined superblock -/

/-- The record `set_cache_sb_combined` builds is valid as soon as its block
size and cache mode are and its alignment and two sizes are non-zero and do not
wrap. -/
theorem set_cache_sb_combined_valid (big_endian : Bool) (uuid : List Nat)
    (dev_major c md B mode a : Nat) (hB : zc_block_size_is_valid B = true)
    (hmode : mode ≤ 2) (ha : a ≠ 0) (hc : c ≠ 0) (hmd : md ≠ 0) (hsum : a + md < U64) :
    zc_sb_v0_is_valid (set_cache_sb_combined big_endian uuid dev_major c md B mode a) = true := by
  rw [zc_sb_v0_is_valid_eq]
  have hb := (zc_block_size_is_valid_eq B).1 hB
  have hs : (a + md) % U64 = a + md := Nat.mod_eq_of_lt hsum
  refine ⟨rfl, ?_, rfl, rfl, hb, hmode, ?_⟩
  · simp only [set_cache_sb_combined]
    exact (zc_sb_v0_cksum_with_cksum _ _).symm
  · right; right; right
    refine ⟨rfl, rfl, rfl, ?_, hc, ha, hmd⟩
    show (a + md) % U64 ≠ 0
    rw [hs]
    omega

theorem mkzc_main_combined_eq (big_endian : Bool) (uuid : List Nat)
    (dev_major D B mode a C : Nat) (hD : D < U64) (haD : a ≤ D)
    (hC : combined_cache_size (D - a) B = some C) (hCle : C ≤ D - a) :
    mkzc_main_combined big_endian uuid dev_major D B mode a =
      some (set_cache_sb_combined big_endian uuid dev_major C (D - a - C) B mode a) := by
  have e0 : (D + U64 - a) % U64 = D - a := by
    have : D + U64 - a = (D - a) + U64 := by omega
    rw [this, Nat.add_mod_right]
    apply Nat.mod_eq_of_lt; omega
  have e1 : (D - a + U64 - C) % U64 = D - a - C := by
    have : D - a + U64 - C = (D - a - C) + U64 := by omega
    rw [this, Nat.add_mod_right]
    apply Nat.mod_eq_of_lt; omega
  simp only [mkzc_main_combined, e0, hC, e1]

/-- C25. For a combined cache/metadata device of byte size `D`, alignment `a`
with `0 < a <= D`, a valid block size `B` and cache mode `<= 2`, whenever
`combined_cache_size (D - a) B` returns, the superblock built by the
formatter's `main` and `set_cache_sb_combined` passes `zc_sb_v0_is_valid`, and
its extents tile the device after the header: `md_offset = a`,
`c_offset = md_offset + md_size` and `c_offset + c_size = D`, with `md_size`
and `c_size` both non-zero (`c_size` being the value `combined_cache_size`
returned). -/
theorem mkzc_combined_superblock (big_endian : Bool) (uuid : List Nat)
    (dev_major D B mode a : Nat) (hD : D < U64) (ha : 0 < a) (haD : a ≤ D)
    (hB : zc_block_size_is_valid B = true) (hmode : mode ≤ 2)
    (hret : (combined_cache_size (D - a) B).isSome = true) :
    ∃ sb, mkzc_main_combined big_endian uuid dev_major D B mode a = some sb ∧
      zc_sb_v0_is_valid sb = true ∧
      sb.type = ZC_SB_TYPE_COMBINED ∧ sb.block_size = B ∧ sb.cache_mode = mode ∧
      sb.md_offset = a ∧ sb.c_offset = sb.md_offset + sb.md_size ∧
      sb.c_offset + sb.c_size = D ∧ sb.md_size ≠ 0 ∧ sb.c_size ≠ 0 ∧
      combined_cache_size (D - a) B = some sb.c_size := by
  obtain ⟨C, hC⟩ := Option.isSome_iff_exists.1 hret
  obtain ⟨-, -, -, hBC, hfit⟩ :=
    (combined_cache_size_eq (D - a) B (by omega) ((zc_block_size_is_valid_eq B).1 hB)).2 C hC
  have hBlo := ((zc_block_size_is_valid_eq B).1 hB).1
  have hs : (a + (D - a - C)) % U64 = a + (D - a - C) := Nat.mod_eq_of_lt (by omega)
  refine ⟨_, mkzc_main_combined_eq big_endian uuid dev_major D B mode a C hD haD hC (by omega),
    set_cache_sb_combined_valid big_endian uuid dev_major C (D - a - C) B mode a hB hmode
      (by omega) (by omega) (by omega) (by omega), rfl, rfl, rfl, rfl, ?_, ?_, ?_, ?_, hC⟩
  · simp only [set_cache_sb_combined, zc_sb_v0_uuid_set, zc_sb_v0.zero, hs]
  · simp only [set_cache_sb_combined, zc_sb_v0_uuid_set, zc_sb_v0.zero, hs]
    omega
  · simp only [set_cache_sb_combined, zc_sb_v0_uuid_set, zc_sb_v0.zero]
    omega
  · simp only [set_cache_sb_combined, zc_sb_v0_uuid_set, zc_sb_v0.zero]
    omega

theorem mkzc_combined_superblock_witness :
    ∃ sb, mkzc_main_combined false [1, 2, 3, 4, 5, 6, 7, 8, 9, 10, 11, 12, 13, 14, 15, 16]
        8 1073745920 262144 0 4096 = some sb ∧
      zc_sb_v0_is_valid sb = true ∧ sb.md_offset = 4096 ∧ sb.md_size = 4456448 ∧
      sb.c_offset = 4460544 ∧ sb.c_size = 1069285376 := by
  obtain ⟨sb, h1, h2, -, -, -, h3, h4, h5, -, -, h6⟩ :=
    mkzc_combined_superblock false [1, 2, 3, 4, 5, 6, 7, 8, 9, 10, 11, 12, 13, 14, 15, 16]
      8 1073745920 262144 0 4096 (by decide) (by decide) (by decide) (by decide) (by decide)
      (by decide)
  have h7 : combined_cache_size (1073745920 - 4096) 262144 = some 1069285376 := by decide
  rw [h7] at h6
  have h8 : sb.c_size = 1069285376 := (Option.some.inj h6).symm
  refine ⟨sb, h1, h2, h3, ?_, ?_, h8⟩ <;> omega


/-! ### Own components and probed siblings -/

theorem own_component_paths_eq (dev : String) (sb : zc_sb_v0) (uuid : String) :
    own_component_paths dev sb uuid =
      if sb.type = 0 then [o_dev_path uuid]
      else if sb.type = 1 then [c_dev_path uuid]
      else if sb.type = 2 then [md_dev_path uuid]
      else [c_dev_path uuid, md_dev_path uuid] := by
  unfold own_component_paths own_components
  split_ifs <;>
    simp only [List.map_cons, List.map_nil, ← o_dev_path_eq, ← c_dev_path_eq, ← md_dev_path_eq]

theorem dev_paths_ne (uuid : String) :
    o_dev_path uuid ≠ c_dev_path uuid ∧ o_dev_path uuid ≠ md_dev_path uuid ∧
    c_dev_path uuid ≠ md_dev_path uuid := by
  refine ⟨fun h => ?_, fun h => ?_, fun h => ?_⟩
  · have := role_path_inj uuid 0 1 (by omega) (by omega) h
    omega
  · have := role_path_inj uuid 0 2 (by omega) (by omega) h
    omega
  · have := role_path_inj uuid 1 2 (by omega) (by omega) h
    omega

/-- Own and probed component paths partition the three component paths. -/
theorem own_and_probed_partition (dev : String) (sb : zc_sb_v0) (uuid : String) :
    (∀ p, p ∈ own_component_paths dev sb uuid → p ∉ required_sibling_paths sb.type uuid) ∧
    (∀ p, p ∈ own_component_paths dev sb uuid ++ required_sibling_paths sb.type uuid ↔
      p ∈ [o_dev_path uuid, c_dev_path uuid, md_dev_path uuid]) := by
  obtain ⟨h1, h2, h3⟩ := dev_paths_ne uuid
  rw [own_component_paths_eq]
  unfold required_sibling_paths
  constructor
  · intro p hp
    split_ifs at hp ⊢ <;> simp only [List.mem_cons, List.mem_singleton, List.not_mem_nil,
      or_false] at hp ⊢
    · subst hp; exact fun h => h.elim (fun h => h1 h) (fun h => h2 h)
    · subst hp; exact fun h => h.elim (fun h => h1 h.symm) (fun h => h3 h)
    · subst hp; exact fun h => h.elim (fun h => h2 h.symm) (fun h => h3 h.symm)
    · rcases hp with rfl | rfl
      · exact fun h => h1 h.symm
      · exact fun h => h2 h.symm
  · intro p
    split_ifs <;> simp only [List.mem_append, List.mem_cons, List.mem_singleton,
      List.not_mem_nil, or_false] <;> tauto

theorem run_create_ok {σ : Type} (env : Env σ) (task : DmCreate) (w : σ)
    (h : (run_create env task w).exit = none) :
    (env.dm_create task w).1 = true ∧
    (run_create env task w).world = (env.dm_create task w).2 := by
  unfold run_create at h ⊢
  rcases hc : env.dm_create task w with ⟨b, w1⟩
  rw [hc] at h
  cases b
  · simp at h
  · exact ⟨rfl, rfl⟩

/-- In the world `materialize` leaves after creating every own component, the
node of each own component exists, provided a successful creation makes its
node exist and removes no node. -/
theorem own_paths_exist {σ : Type} (env : Env σ) (dev : String) (sb : zc_sb_v0)
    (uuid : String) (w : σ) (hrole : sb.type ≤ 3)
    (hmake : ∀ task w, (env.dm_create task w).1 = true →
      env.access ("/dev/mapper/" ++ task.name) (env.dm_create task w).2 = true)
    (hkeep : ∀ path task w, (env.dm_create task w).1 = true → env.access path w = true →
      env.access path (env.dm_create task w).2 = true)
    (hmat : (materialize env dev sb uuid w).exit = none) :
    ∀ p ∈ own_component_paths dev sb uuid,
      env.access p (materialize env dev sb uuid w).world = true := by
  have h : sb.type = 0 ∨ sb.type = 1 ∨ sb.type = 2 ∨ sb.type = 3 := by omega
  rw [own_component_paths_eq]
  rcases h with h | h | h | h
  · have e : materialize env dev sb uuid w =
        run_create env (component_task dev "origin" sb.o_offset sb.o_size uuid) w := by
      simp [materialize, h, ZC_SB_TYPE_ORIGIN, do_component]
    rw [e] at hmat ⊢
    obtain ⟨hok, hw⟩ := run_create_ok env _ w hmat
    intro p hp
    simp only [h, if_true, List.mem_singleton] at hp
    rw [hp, hw, o_dev_path_eq dev uuid sb.o_offset sb.o_size]
    exact hmake _ w hok
  · have e : materialize env dev sb uuid w =
        run_create env (component_task dev "cache" sb.c_offset sb.c_size uuid) w := by
      simp [materialize, h, ZC_SB_TYPE_ORIGIN, ZC_SB_TYPE_CACHE, do_component]
    rw [e] at hmat ⊢
    obtain ⟨hok, hw⟩ := run_create_ok env _ w hmat
    intro p hp
    simp [h] at hp
    rw [hp, hw, c_dev_path_eq dev uuid sb.c_offset sb.c_size]
    exact hmake _ w hok
  · have e : materialize env dev sb uuid w =
        run_create env (component_task dev "metadata" sb.md_offset sb.md_size uuid) w := by
      simp [materialize, h, ZC_SB_TYPE_ORIGIN, ZC_SB_TYPE_CACHE, ZC_SB_TYPE_METADATA,
        do_component]
    rw [e] at hmat ⊢
    obtain ⟨hok, hw⟩ := run_create_ok env _ w hmat
    intro p hp
    simp [h] at hp
    rw [hp, hw, md_dev_path_eq dev uuid sb.md_offset sb.md_size]
    exact hmake _ w hok
  · have e : materialize env dev sb uuid w =
        (run_create env (component_task dev "cache" sb.c_offset sb.c_size uuid) w).andThen
          (run_create env (component_task dev "metadata" sb.md_offset sb.md_size uuid)) := by
      simp [materialize, h, ZC_SB_TYPE_ORIGIN, ZC_SB_TYPE_CACHE, ZC_SB_TYPE_METADATA,
        ZC_SB_TYPE_COMBINED, do_component]
      rfl
    rw [e] at hmat ⊢
    have h1 : (run_create env (component_task dev "cache" sb.c_offset sb.c_size uuid)
        w).exit = none := by
      rcases run_create_exit env (component_task dev "cache" sb.c_offset sb.c_size uuid) w
        with h1 | h1
      · exact h1
      · simp [Run.andThen, h1] at hmat
    rw [andThen_of_exit_none _ _ h1] at hmat ⊢
    simp only at hmat ⊢
    obtain ⟨hok1, hw1⟩ := run_create_ok env _ w h1
    obtain ⟨hok2, hw2⟩ := run_create_ok env _ _ hmat
    intro p hp
    simp [h] at hp
    rw [hw2, hw1]
    rw [hw1] at hok2
    rcases hp with rfl | rfl
    · apply hkeep _ _ _ hok2
      rw [c_dev_path_eq dev uuid sb.c_offset sb.c_size]
      exact hmake _ w hok1
    · rw [md_dev_path_eq dev uuid sb.md_offset sb.md_size]
      exact hmake _ _ hok2


theorem own_components_linear (dev : String) (sb : zc_sb_v0) (uuid : String) :
    ∀ t ∈ own_components dev sb uuid, t.target = "linear" := by
  intro t ht
  unfold own_components at ht
  split_ifs at ht <;>
    simp only [List.mem_cons, List.mem_singleton, List.not_mem_nil, or_false] at ht
  · rw [ht]; rfl
  · rw [ht]; rfl
  · rw [ht]; rfl
  · rcases ht with rfl | rfl <;> rfl

theorem andThen_of_exit_some {σ : Type} (r : Run σ) (next : σ → Run σ)
    (h : r.exit ≠ none) : r.andThen next = r := by
  unfold Run.andThen
  cases he : r.exit with
  | none => exact absurd he h
  | some e => rfl

/-- A `cache` target among the attempts of a run means that every own
component was created and `try_assemble` attempted the composite. -/
theorem composite_attempted {σ : Type} (env : Env σ) (dev : String) (sb : zc_sb_v0)
    (uuid : String) (w : σ) (hrole : sb.type ≤ 3) (t : DmCreate)
    (ht : t ∈ (assemble_phase env dev sb uuid w).attempts) (hc : t.target = "cache") :
    (materialize env dev sb uuid w).exit = none ∧
    t ∈ (try_assemble env sb uuid (materialize env dev sb uuid w).world).attempts := by
  have hlin : ∀ t1 ∈ (materialize env dev sb uuid w).attempts, t1.target = "linear" :=
    fun t1 h1 => own_components_linear dev sb uuid t1
      ((materialize_attempts env dev sb uuid w hrole).1.subset h1)
  have hne : ¬ t ∈ (materialize env dev sb uuid w).attempts := by
    intro h1
    have := hlin t h1
    rw [hc] at this
    exact absurd this (by decide)
  by_cases hmat : (materialize env dev sb uuid w).exit = none
  · rw [assemble_phase_attempts env dev sb uuid w hmat, List.mem_append] at ht
    exact ⟨hmat, ht.resolve_left hne⟩
  · exfalso
    apply hne
    unfold assemble_phase at ht
    rw [andThen_of_exit_some _ _ hmat, andThen_of_exit_some _ _ hmat] at ht
    exact ht

/-- C27. For every valid role, the node paths of the components the
coordinator materializes itself and the sibling paths `try_assemble` probes are
disjoint and together are the origin, cache and metadata paths.  Hence,
assuming each successful creation makes its node exist and removes no node that
exists, whenever the coordinator attempts to create the composite device (a
`cache` target among its attempts) all three component paths exist in the world
in which the attempt is made, and they are the paths the parameters of the
composite name. -/
theorem composite_components_exist {σ : Type} (env : Env σ) (dev : String) (sb : zc_sb_v0)
    (uuid : String) (w : σ) (hrole : sb.type ≤ 3)
    (hmake : ∀ task w, (env.dm_create task w).1 = true →
      env.access ("/dev/mapper/" ++ task.name) (env.dm_create task w).2 = true)
    (hkeep : ∀ path task w, (env.dm_create task w).1 = true → env.access path w = true →
      env.access path (env.dm_create task w).2 = true)
    (hatt : ∃ t ∈ (assemble_phase env dev sb uuid w).attempts, t.target = "cache") :
    (∀ p, p ∈ own_component_paths dev sb uuid → p ∉ required_sibling_paths sb.type uuid) ∧
    (∀ p, p ∈ own_component_paths dev sb uuid ++ required_sibling_paths sb.type uuid ↔
      p ∈ [o_dev_path uuid, c_dev_path uuid, md_dev_path uuid]) ∧
    (materialize env dev sb uuid w).attempts = own_components dev sb uuid ∧
    (∀ w1, siblings_missing env sb uuid w1 =
      !(required_sibling_paths sb.type uuid).all fun p => env.access p w1) ∧
    env.access (o_dev_path uuid) (materialize env dev sb uuid w).world = true ∧
    env.access (c_dev_path uuid) (materialize env dev sb uuid w).world = true ∧
    env.access (md_dev_path uuid) (materialize env dev sb uuid w).world = true ∧
    (∀ t ∈ (assemble_phase env dev sb uuid w).attempts, t.target = "cache" →
      t.params = md_dev_path uuid ++ " " ++ c_dev_path uuid ++ " " ++ o_dev_path uuid ++ " " ++
        toString (sb.block_size / 512) ++ " 1 " ++
        ((zc_cache_mode_format sb.cache_mode false).1.getD "(null)") ++ " default 0") := by
  obtain ⟨t, ht, hc⟩ := hatt
  obtain ⟨hmat, htry⟩ := composite_attempted env dev sb uuid w hrole t ht hc
  obtain ⟨hdis, hun⟩ := own_and_probed_partition dev sb uuid
  have hpres : siblings_present env sb.type uuid (materialize env dev sb uuid w).world =
      true := by
    by_contra hp
    rw [Bool.not_eq_true] at hp
    rw [try_assemble_missing env sb uuid _ hrole hp] at htry
    simp at htry
  have hown := own_paths_exist env dev sb uuid w hrole hmake hkeep hmat
  have hall : ∀ p ∈ [o_dev_path uuid, c_dev_path uuid, md_dev_path uuid],
      env.access p (materialize env dev sb uuid w).world = true := by
    intro p hp
    rcases List.mem_append.1 ((hun p).2 hp) with h1 | h1
    · exact hown p h1
    · exact (List.all_eq_true.1 hpres) p h1
  refine ⟨hdis, hun, (materialize_attempts env dev sb uuid w hrole).2 hmat,
    fun w1 => siblings_missing_eq env sb uuid w1 hrole,
    hall _ (by simp), hall _ (by simp), hall _ (by simp), ?_⟩
  intro t1 ht1 hc1
  obtain ⟨-, h1⟩ := composite_attempted env dev sb uuid w hrole t1 ht1 hc1
  obtain ⟨n, hn⟩ := try_assemble_attempts_composite env sb uuid _ t1 h1
  rw [hn]
  rfl

theorem composite_components_exist_witness :
    (node_env false).access "/dev/mapper/zodcache-u-origin"
        (materialize (node_env false) "/dev/sdc" example_cache_sb "u"
          ["/dev/mapper/zodcache-u-origin", "/dev/mapper/zodcache-u-metadata"]).world = true ∧
    (node_env false).access "/dev/mapper/zodcache-u-cache"
        (materialize (node_env false) "/dev/sdc" example_cache_sb "u"
          ["/dev/mapper/zodcache-u-origin", "/dev/mapper/zodcache-u-metadata"]).world = true ∧
    (node_env false).access "/dev/mapper/zodcache-u-metadata"
        (materialize (node_env false) "/dev/sdc" example_cache_sb "u"
          ["/dev/mapper/zodcache-u-origin", "/dev/mapper/zodcache-u-metadata"]).world = true :=
  have h := composite_components_exist (node_env false) "/dev/sdc" example_cache_sb "u"
    ["/dev/mapper/zodcache-u-origin", "/dev/mapper/zodcache-u-metadata"] (by decide)
    (fun task w _ => by simp [node_env])
    (fun path task w _ hp => by
      simp only [node_env, decide_eq_true_eq, List.mem_append] at hp ⊢
      exact Or.inl hp)
    ⟨composite_task example_cache_sb "u" 1048576, by decide, rfl⟩
  ⟨h.2.2.2.2.1, h.2.2.2.2.2.1, h.2.2.2.2.2.2.1⟩


/-! ### The own components are created, in order -/

theorem run_tasks_single {σ : Type} (env : Env σ) (t : DmCreate) (w : σ) :
    run_tasks env [t] w = run_create env t w := by
  unfold run_tasks run_create
  rcases hc : env.dm_create t w with ⟨b, w1⟩
  cases b <;> simp [run_tasks]

theorem run_tasks_pair {σ : Type} (env : Env σ) (t1 t2 : DmCreate) (w : σ) :
    run_tasks env [t1, t2] w = (run_create env t1 w).andThen (run_create env t2) := by
  unfold run_tasks
  rcases hc : env.dm_create t1 w with ⟨b, w1⟩
  cases b
  · simp [run_create, hc, Run.andThen]
  · simp only [run_tasks_single]
    simp [run_create, hc, Run.andThen]

/-- The `switch` of `main` runs the creations of the role's own components in
order, stopping at the first that fails. -/
theorem materialize_eq_run_tasks {σ : Type} (env : Env σ) (dev : String) (sb : zc_sb_v0)
    (uuid : String) (w : σ) (hrole : sb.type ≤ 3) :
    materialize env dev sb uuid w = run_tasks env (own_components dev sb uuid) w := by
  have h : sb.type = 0 ∨ sb.type = 1 ∨ sb.type = 2 ∨ sb.type = 3 := by omega
  rcases h with h | h | h | h
  · simp [materialize, own_components, h, ZC_SB_TYPE_ORIGIN, do_component, run_tasks_single]
  · simp [materialize, own_components, h, ZC_SB_TYPE_ORIGIN, ZC_SB_TYPE_CACHE, do_component,
      run_tasks_single]
  · simp [materialize, own_components, h, ZC_SB_TYPE_ORIGIN, ZC_SB_TYPE_CACHE,
      ZC_SB_TYPE_METADATA, do_component, run_tasks_single]
  · simp [materialize, own_components, h, ZC_SB_TYPE_ORIGIN, ZC_SB_TYPE_CACHE,
      ZC_SB_TYPE_METADATA, ZC_SB_TYPE_COMBINED, do_component, run_tasks_pair]
    rfl

theorem run_tasks_head {σ : Type} (env : Env σ) (t : DmCreate) (ts : List DmCreate) (w : σ) :
    (run_tasks env (t :: ts) w).attempts.head? = some t := by
  unfold run_tasks
  rcases hc : env.dm_create t w with ⟨b, w1⟩
  cases b <;> rfl

theorem run_tasks_attempts_le {σ : Type} (env : Env σ) (ts : List DmCreate) :
    ∀ w : σ, (run_tasks env ts w).attempts <+: ts := by
  induction ts with
  | nil => intro w; exact List.prefix_refl _
  | cons t ts ih =>
    intro w
    unfold run_tasks
    rcases hc : env.dm_create t w with ⟨b, w1⟩
    cases b
    · exact ⟨ts, rfl⟩
    · exact (List.prefix_cons_inj t).2 (ih w1)

/-- When every creation of the list succeeds, all of them are attempted and
the run goes on. -/
theorem run_tasks_all {σ : Type} (env : Env σ) (ts : List DmCreate)
    (hok : ∀ t ∈ ts, ∀ w : σ, (env.dm_create t w).1 = true) :
    ∀ w : σ, (run_tasks env ts w).exit = none ∧ (run_tasks env ts w).attempts = ts := by
  induction ts with
  | nil => intro w; exact ⟨rfl, rfl⟩
  | cons t ts ih =>
    intro w
    have h1 := hok t (List.mem_cons_self t ts) w
    obtain ⟨e1, e2⟩ := ih (fun t1 ht1 => hok t1 (List.mem_cons_of_mem t ht1))
      (env.dm_create t w).2
    unfold run_tasks
    rcases hc : env.dm_create t w with ⟨b, w1⟩
    rw [hc] at h1 e1 e2
    simp only at h1 e1 e2
    subst h1
    exact ⟨e1, by simp only [e2]⟩

/-- A creation that fails is the last one attempted and ends the run. -/
theorem run_tasks_fail {σ : Type} (env : Env σ) (t : DmCreate) (ts : List DmCreate) (w : σ)
    (h : (env.dm_create t w).1 = false) :
    (run_tasks env (t :: ts) w).attempts = [t] ∧
    (run_tasks env (t :: ts) w).exit = some Exit.failure := by
  unfold run_tasks
  rcases hc : env.dm_create t w with ⟨b, w1⟩
  rw [hc] at h
  simp only at h
  subst h
  exact ⟨rfl, rfl⟩

theorem own_components_ne_nil (dev : String) (sb : zc_sb_v0) (uuid : String) :
    ∃ t ts, own_components dev sb uuid = t :: ts := by
  unfold own_components
  split_ifs <;> exact ⟨_, _, rfl⟩

/-- The attempts of the materialize / probe / assemble tail of `main`. -/
theorem assemble_phase_attempts_eq {σ : Type} (env : Env σ) (dev : String) (sb : zc_sb_v0)
    (uuid : String) (w : σ) :
    (assemble_phase env dev sb uuid w).attempts =
      (materialize env dev sb uuid w).attempts ++
        (if (materialize env dev sb uuid w).exit = none then
          (try_assemble env sb uuid (materialize env dev sb uuid w).world).attempts
         else []) := by
  by_cases hm : (materialize env dev sb uuid w).exit = none
  · rw [assemble_phase_attempts env dev sb uuid w hm, if_pos hm]
  · rw [if_neg hm, List.append_nil]
    unfold assemble_phase
    rw [andThen_of_exit_some _ _ hm, andThen_of_exit_some _ _ hm]


/-- C11. For a valid superblock whose `dev_major` matches, the coordinator
materializes exactly the linear mappings of the triggering device's own role,
in order: Origin one mapping over `(o_offset, o_size)`, Cache one over
`(c_offset, c_size)`, Metadata one over `(md_offset, md_size)`, Combined the
cache mapping and then the metadata mapping, each a `linear` target of
`size / 512` sectors mapped from sector `offset / 512` of the device.  The
`switch` of `main` is the in-order run of these creations that stops at the
first failure; the first of them is always attempted and heads the attempts of
the run; no other linear mapping is attempted; and when the creations succeed
the attempts are the whole list, followed only by `cache` targets. -/
theorem main_materializes_own_components {σ : Type} (env : Env σ) (probe : DevProbe)
    (argv : List String) (prog dev : String) (udev : Bool) (dev_major fuel : Nat) (w : σ)
    (sb : zc_sb_v0) (uuid : String)
    (hargv : (argv = [prog, "--udev", dev] ∧ udev = true) ∨ (argv = [prog, dev] ∧ udev = false))
    (hopen : probe.open_ok = true) (hstat : probe.fstat = some (true, dev_major))
    (hread : probe.read_ret = 128) (hclose : probe.close_ok = true)
    (hsb : sb = (zc_sb_v0_read env.big_endian 128 probe.read_buf).2)
    (hvalid : zc_sb_v0_is_valid sb = true) (hmajor : sb.dev_major = dev_major)
    (hwait : wait_for_dev probe.excl_open probe.excl_close_ok fuel 0 = some true)
    (huuid : uuid = zc_sb_uuid_format env.big_endian sb) :
    materialize env dev sb uuid w = run_tasks env (own_components dev sb uuid) w ∧
    (∃ r, main env probe argv fuel w = some r ∧
      r.attempts = (run_tasks env (own_components dev sb uuid) w).attempts ++
        (if (run_tasks env (own_components dev sb uuid) w).exit = none then
          (try_assemble env sb uuid
            (run_tasks env (own_components dev sb uuid) w).world).attempts
         else []) ∧
      r.attempts.head? = (own_components dev sb uuid).head? ∧
      (∀ t ∈ r.attempts, t.target = "linear" → t ∈ own_components dev sb uuid) ∧
      ((∀ t ∈ own_components dev sb uuid, ∀ w1, (env.dm_create t w1).1 = true) →
        ∃ rest, r.attempts = own_components dev sb uuid ++ rest ∧
          ∀ t ∈ rest, t.target = "cache")) ∧
    ((sb.type = 0 →
        own_components dev sb uuid = [component_task dev "origin" sb.o_offset sb.o_size uuid]) ∧
      (sb.type = 1 →
        own_components dev sb uuid = [component_task dev "cache" sb.c_offset sb.c_size uuid]) ∧
      (sb.type = 2 →
        own_components dev sb uuid =
          [component_task dev "metadata" sb.md_offset sb.md_size uuid]) ∧
      (sb.type = 3 →
        own_components dev sb uuid =
          [component_task dev "cache" sb.c_offset sb.c_size uuid,
           component_task dev "metadata" sb.md_offset sb.md_size uuid])) ∧
    (∀ (role : String) (offset size : Nat),
      component_task dev role offset size uuid =
        { name := "zodcache-" ++ uuid ++ "-" ++ role, start := 0, length := size / 512,
          target := "linear", params := dev ++ " " ++ toString (offset / 512),
          flags := UdevFlags.COMPONENT_UDEV_FLAGS }) := by
  have hrole := valid_type_le sb hvalid
  have hmain := main_eq_assemble_phase env probe argv prog dev udev dev_major fuel w sb
    hargv hopen hstat hread hclose hsb hvalid hmajor hwait
  rw [← huuid] at hmain
  have hmat := materialize_eq_run_tasks env dev sb uuid w hrole
  have hatt := assemble_phase_attempts_eq env dev sb uuid w
  rw [hmat] at hatt
  have hcache : ∀ t ∈ (if (run_tasks env (own_components dev sb uuid) w).exit = none then
      (try_assemble env sb uuid (run_tasks env (own_components dev sb uuid) w).world).attempts
      else []), t.target = "cache" := by
    intro t ht
    split_ifs at ht with hx
    · obtain ⟨n, hn⟩ := try_assemble_attempts_composite env sb uuid _ t ht
      rw [hn]
      rfl
    · simp at ht
  refine ⟨hmat, ⟨_, hmain, hatt, ?_, ?_, ?_⟩, ⟨?_, ?_, ?_, ?_⟩, fun _ _ _ => rfl⟩
  · obtain ⟨t, ts, hts⟩ := own_components_ne_nil dev sb uuid
    rw [hatt, hts]
    have hh := run_tasks_head env t ts w
    cases ha : (run_tasks env (t :: ts) w).attempts with
    | nil => rw [ha] at hh; simp at hh
    | cons a as =>
      rw [ha] at hh
      simpa using hh
  · intro t ht hlin
    rw [hatt, List.mem_append] at ht
    rcases ht with ht | ht
    · exact (run_tasks_attempts_le env _ w).subset ht
    · have := hcache t ht
      rw [hlin] at this
      exact absurd this (by decide)
  · intro hok
    obtain ⟨-, h2⟩ := run_tasks_all env (own_components dev sb uuid) hok w
    refine ⟨_, ?_, hcache⟩
    rw [hatt, h2]
  · intro h; simp [own_components, h]
  · intro h; simp [own_components, h]
  · intro h; simp [own_components, h]
  · intro h; simp [own_components, h]

theorem main_materializes_own_components_witness :
    ∃ r, main (node_env false) (example_probe (example_combined_sb.words.flatMap le_bytes))
        ["zcstart", "--udev", "/dev/sdc"] 1 [] = some r ∧
      r.attempts =
        [{ name := "zodcache-01020304-0506-0708-090a-0b0c0d0e0f10-cache", start := 0,
           length := 1024, target := "linear", params := "/dev/sdc 16392",
           flags := UdevFlags.COMPONENT_UDEV_FLAGS },
         { name := "zodcache-01020304-0506-0708-090a-0b0c0d0e0f10-metadata", start := 0,
           length := 16384, target := "linear", params := "/dev/sdc 8",
           flags := UdevFlags.COMPONENT_UDEV_FLAGS }] := by
  obtain ⟨-, ⟨r, hr, hatt, -, -, -⟩, -, -⟩ :=
    main_materializes_own_components (node_env false)
      (example_probe (example_combined_sb.words.flatMap le_bytes))
      ["zcstart", "--udev", "/dev/sdc"] "zcstart" "/dev/sdc" true 8 1 [] example_combined_sb
      "01020304-0506-0708-090a-0b0c0d0e0f10"
      (Or.inl ⟨rfl, rfl⟩) rfl rfl rfl rfl (by decide) (by decide) (by decide) (by decide)
      (by decide)
  exact ⟨r, hr, hatt.trans (by decide)⟩

end Zodcache
